import Mathlib

/-!
# Native regular-expression macro assembler (irregexp/NativeRegExpMacroAssembler.cpp)

The macro assembler is an *emitter*: every operation appends instructions of the
portable assembler (`masm.*`) to a buffer.  The embedding has two layers.

* The emitters of the source are Lean functions returning the list of `masm`
  calls they make, in order (`CheckCharacterInRange`, `CheckSpecialCharacterClass`,
  the pieces of `GenerateCode`, ...).
* The portable assembler itself is not part of the source under study; its
  primitives are given their usual machine meaning by `step` / `exec` over an
  explicit machine state (registers, condition flags, byte-addressed memory).

Machine integers are naturals reduced modulo `2 ^ 32` or modulo the pointer width.
-/

namespace Irregexp

/-! ## Targets, registers, labels -/

/-- Code generation targets named by the source (`JS_CODEGEN_X86`, `JS_CODEGEN_ARM`,
and the 64-bit x86 target that is the other non-x86 case). -/
inductive Arch
  | x86
  | x64
  | arm
  deriving DecidableEq, Repr

/-- Value of `sizeof(void *)` on the target. -/
def Arch.ptrBytes : Arch → Nat
  | .x86 => 4
  | .x64 => 8
  | .arm => 4

/-- Number of bits of a pointer-wide register. -/
def Arch.ptrBits (a : Arch) : Nat := 8 * a.ptrBytes

/-- The regexp mode; `char_size()` is the numeric value of the mode. -/
inductive Mode
  | ASCII
  | JSCHAR
  deriving DecidableEq, Repr

/-- Modelled from the spec: `char_size()` of the header, one byte per character in
ASCII mode and two in 16-bit mode. -/
def char_size : Mode → Nat
  | .ASCII => 1
  | .JSCHAR => 2

/-- The seven logical registers allocated by the constructor (pairwise distinct
physical registers, taken one by one from the general register set), the native
stack pointer, the ARM link register, and the register of the first integer argument as
it is on entry to the generated routine. -/
inductive Reg
  | input_end_pointer
  | current_character
  | current_position
  | backtrack_stack_pointer
  | temp0
  | temp1
  | temp2
  | StackPointer
  | lr
  | IntArgReg0
  deriving DecidableEq, Repr

/-- Label objects: the member labels of the assembler, the labels local to
`GenerateCode`, labels owned by the regexp compiler (`user`), and labels declared
locally inside one macro operation (`loc`). -/
inductive Label
  | entry_label_
  | start_label_
  | success_label_
  | backtrack_label_
  | exit_label_
  | stack_overflow_label_
  | exit_with_exception_label_
  | return_temp0
  | stack_ok
  | load_char_start_regexp
  | start_regexp
  | init_loop
  | enoughRegisters
  | user (n : Nat)
  | loc (n : Nat)
  deriving DecidableEq, Repr

/-- Whether the label is declared locally inside a macro operation. -/
def Label.isLocal : Label → Bool
  | .loc _ => true
  | _ => false

/-- Branch conditions of the portable assembler used by the source. -/
inductive Cond
  | Equal
  | NotEqual
  | Above
  | AboveOrEqual
  | Below
  | BelowOrEqual
  | GreaterThan
  | GreaterThanOrEqual
  | LessThan
  | LessThanOrEqual
  | Zero
  | NonZero
  deriving DecidableEq, Repr

/-- Index scale of a `BaseIndex` operand. -/
inductive Scale
  | TimesOne
  | TimesTwo
  | TimesFour
  | TimesEight
  deriving DecidableEq, Repr

/-- Multiplier of a scale. -/
def Scale.mult : Scale → Nat
  | .TimesOne => 1
  | .TimesTwo => 2
  | .TimesFour => 4
  | .TimesEight => 8

/-- Addresses of objects outside the generated code that the emitter bakes into
it as immediates or absolute addresses. -/
inductive Symbol
  | word_character_map
  | runtime
  | regexpStack_base
  | regexpStack_limit
  | jitStackLimit
  deriving DecidableEq, Repr

/-- Memory operands: `Address(base, offset)`, `BaseIndex(base, index, scale, offset)`
and `AbsoluteAddress(p)`. -/
inductive Operand
  | Address (base : Reg) (offset : Int)
  | BaseIndex (base index : Reg) (scale : Scale) (offset : Int)
  | AbsoluteAddress (sym : Symbol)
  deriving DecidableEq, Repr

/-- Register sets built from `RegisterSet::Volatile()`. -/
inductive RegSet
  | Volatile
  | add (s : RegSet) (r : Reg)
  | takeUnchecked (s : RegSet) (r : Reg)
  deriving DecidableEq, Repr

/-- C functions called from generated code through the ABI. -/
inductive ExternFn
  | GrowBacktrackStack
  | CaseInsensitiveCompareStrings
  deriving DecidableEq, Repr

/-- The calls on `masm` made by the source, one constructor per primitive and
operand shape.  Immediates are the C++ integer values handed to `Imm32` / `ImmWord`. -/
inductive Instr
  | computeEffectiveAddress (src : Operand) (dest : Reg)
  | cmp32 (lhs : Reg) (rhs : Int)
  | cmpPtr (lhs : Reg) (rhs : Int)
  | test32 (lhs rhs : Reg)
  | j (cond : Cond) (target : Label)
  | jump (target : Label)
  | bind (label : Label)
  | mov (src dest : Reg)
  | movImmWord (imm : Int) (dest : Reg)
  | movImmPtr (sym : Symbol) (dest : Reg)
  | movImmPtrValue (ptr : Nat) (dest : Reg)
  | xor32 (imm : Int) (dest : Reg)
  | sub32 (imm : Int) (dest : Reg)
  | load8ZeroExtend (src : Operand) (dest : Reg)
  | loadPtr (src : Operand) (dest : Reg)
  | storePtr (src : Reg) (dest : Operand)
  | store32 (src : Reg) (dest : Operand)
  | addPtr (src dest : Reg)
  | addPtrMem (src : Operand) (dest : Reg)
  | subPtr (src dest : Reg)
  | subPtrMem (src : Operand) (dest : Reg)
  | rshiftPtrArithmetic (imm : Nat) (dest : Reg)
  | branchTest32 (cond : Cond) (lhs rhs : Reg) (target : Label)
  | PushRegsInMask (set : RegSet)
  | PopRegsInMask (set : RegSet)
  | setupUnalignedABICall (args : Nat) (scratch : Reg)
  | passABIArg (r : Reg)
  | callWithABI (f : ExternFn)
  | storeCallResult (dest : Reg)
  | abiret
  | cmpPtrMem (lhs : Operand) (rhs : Int)
  | cmpPtrMemReg (lhs : Operand) (rhs : Reg)
  | test32Imm (lhs : Reg) (rhs : Int)
  | testPtr (lhs rhs : Reg)
  | and32 (src dest : Reg)
  | and32Imm (imm : Int) (dest : Reg)
  | movWithPatch (label : Label) (dest : Reg)
  | jumpReg (target : Reg)
  | call (target : Label)
  | load16ZeroExtend (src : Operand) (dest : Reg)
  | load32 (src : Operand) (dest : Reg)
  | storePtrImm (imm : Int) (dest : Operand)
  | addPtrImm (imm : Int) (dest : Reg)
  | addPtrImmMem (imm : Int) (dest : Operand)
  | subPtrImm (imm : Int) (dest : Reg)
  | add32ImmMem (imm : Int) (dest : Operand)
  | lshiftPtr (imm : Nat) (dest : Reg)
  | branch32 (cond : Cond) (lhs rhs : Reg) (target : Label)
  | branch32Imm (cond : Cond) (lhs : Reg) (rhs : Int) (target : Label)
  | branchPtr (cond : Cond) (lhs rhs : Reg) (target : Label)
  | branchPtrMem (cond : Cond) (lhs : Operand) (rhs : Reg) (target : Label)
  | Push (r : Reg)
  | Pop (r : Reg)
  | push (r : Reg)
  | pop (r : Reg)
  | reserveStack (amount : Nat)
  | freeStack (amount : Nat)
  | checkStackAlignment
  | assumeUnreachable (reason : String)
  deriving Repr

/-! ## Machine state -/

/-- Operands of the last flag-setting comparison, already reduced to `bits` bits. -/
structure Flags where
  bits : Nat
  lhs : Nat
  rhs : Nat
  deriving DecidableEq, Repr

/-- One memory access of the generated code. -/
structure Access where
  write : Bool
  addr : Nat
  size : Nat
  deriving DecidableEq, Repr

/-- Machine state seen by generated code. -/
structure State where
  /-- Register contents, as naturals below `2 ^ ptrBits`. -/
  reg : Reg → Nat
  /-- Condition flags; `none` after an instruction that leaves them unspecified. -/
  flags : Option Flags
  /-- Byte-addressed memory. -/
  mem : Nat → Nat
  /-- Memory accesses performed so far, most recent first. -/
  trace : List Access
  /-- Register sets saved by `PushRegsInMask`, most recent first. -/
  saved : List (Reg → Nat)
  /-- Content of the ABI return register after the last call. -/
  retReg : Nat
  /-- Number of ABI calls made so far. -/
  calls : Nat

/-- What one call of `GrowBacktrackStack` does, as far as generated code can see:
the value left in the return register, the values of the arena's `base` and `limit`
fields after the call, and the contents of the caller-saved registers. -/
structure GrowResult where
  ret : Nat
  base : Nat
  limit : Nat
  junk : Reg → Nat

/-- Everything outside the generated code. -/
structure Env where
  arch : Arch
  /-- Addresses of the external objects. -/
  symAddr : Symbol → Nat
  /-- Which logical registers were allocated to caller-saved physical registers. -/
  volatile : Reg → Bool
  /-- Behaviour of the n-th ABI call. -/
  grow : Nat → GrowResult
  /-- Address of the code bound at a label, once the code is linked and patched. -/
  labelAddr : Label → Nat

/-- Reduction of a C++ integer to an unsigned machine word of `bits` bits. -/
def wrap (bits : Nat) (v : Int) : Nat := (v % (2 : Int) ^ bits).toNat

/-- Two's-complement reading of the low `bits` bits of a word. -/
def toSigned (bits : Nat) (n : Nat) : Int :=
  if n % 2 ^ bits < 2 ^ (bits - 1) then (n % 2 ^ bits : Nat) else (n % 2 ^ bits : Nat) - (2 : Int) ^ bits

/-- Little-endian read of `n` bytes at address `a`. -/
def loadBytes (m : Nat → Nat) (a : Nat) : Nat → Nat
  | 0 => 0
  | n + 1 => m a % 256 + 256 * loadBytes m (a + 1) n

/-- Little-endian write of the low `n` bytes of `v` at address `a`. -/
def storeBytes (m : Nat → Nat) (a n v : Nat) : Nat → Nat :=
  fun x => if a ≤ x ∧ x < a + n then (v / 256 ^ (x - a)) % 256 else m x

/-- Register update. -/
def State.setReg (s : State) (r : Reg) (v : Nat) : State :=
  { s with reg := fun x => if x = r then v else s.reg x }

/-- Flags update. -/
def State.setFlags (s : State) (f : Option Flags) : State :=
  { s with flags := f }

/-- Recording of a memory read of `n` bytes at `a`; the value read is `loadBytes s.mem a n`. -/
def State.logRead (s : State) (a n : Nat) : State :=
  { s with trace := ⟨false, a, n⟩ :: s.trace }

/-- Memory write of `n` bytes, recorded in the trace. -/
def State.store (s : State) (a n v : Nat) : State :=
  { s with mem := storeBytes s.mem a n v, trace := ⟨true, a, n⟩ :: s.trace }

/-- Effective address of a memory operand, computed pointer-wide. -/
def ea (env : Env) (s : State) : Operand → Nat
  | .Address base offset => wrap env.arch.ptrBits ((s.reg base : Int) + offset)
  | .BaseIndex base index scale offset =>
      wrap env.arch.ptrBits ((s.reg base : Int) + (s.reg index : Int) * scale.mult + offset)
  | .AbsoluteAddress sym => env.symAddr sym

/-- Evaluation of a branch condition on the operands of the last comparison.
`Zero` and `NonZero` are the same conditions as `Equal` and `NotEqual`. -/
def evalCond (c : Cond) (f : Flags) : Bool :=
  match c with
  | .Equal => f.lhs == f.rhs
  | .NotEqual => f.lhs != f.rhs
  | .Zero => f.lhs == f.rhs
  | .NonZero => f.lhs != f.rhs
  | .Above => decide (f.rhs < f.lhs)
  | .AboveOrEqual => decide (f.rhs ≤ f.lhs)
  | .Below => decide (f.lhs < f.rhs)
  | .BelowOrEqual => decide (f.lhs ≤ f.rhs)
  | .GreaterThan => decide (toSigned f.bits f.rhs < toSigned f.bits f.lhs)
  | .GreaterThanOrEqual => decide (toSigned f.bits f.rhs ≤ toSigned f.bits f.lhs)
  | .LessThan => decide (toSigned f.bits f.lhs < toSigned f.bits f.rhs)
  | .LessThanOrEqual => decide (toSigned f.bits f.lhs ≤ toSigned f.bits f.rhs)

/-- Membership of a logical register in a register set. -/
def RegSet.has (env : Env) : RegSet → Reg → Bool
  | .Volatile, r => env.volatile r
  | .add s r', r => decide (r = r') || RegSet.has env s r
  | .takeUnchecked s r', r => !decide (r = r') && RegSet.has env s r

/-- Result of running a piece of generated code. -/
inductive Res
  /-- Control reached the end of the piece: it fell through (`none`) or it is on its
  way to a label that the piece does not bind. -/
  | next (pending : Option Label) (s : State)
  /-- The piece executed its return instruction. -/
  | ret (s : State)
  /-- The piece branched on unspecified flags, popped an empty save area, or reached an
  `assumeUnreachable`. -/
  | fault
  /-- The piece executed `call target`; `resume` is the rest of the piece, entered when
  the callee returns.  The return address itself (pushed by the call, popped by the
  return) is not modelled. -/
  | called (target : Label) (s : State) (resume : State → Res)
  /-- The piece jumped to the code address held in a register. -/
  | jumped (addr : Nat) (s : State)
  /-- The run was cut off (see `run`). -/
  | timeout

/-- Whether control left the piece by a branch to label `l`. -/
def Res.branchedTo (r : Res) (l : Label) : Bool :=
  match r with
  | .next (some l') _ => decide (l' = l)
  | _ => false

/-- Whether control fell through the end of the piece. -/
def Res.fellThrough (r : Res) : Bool :=
  match r with
  | .next none _ => true
  | _ => false

/-- The machine state at the end of the piece, if there is one. -/
def Res.state? : Res → Option State
  | .next _ s => some s
  | .ret s => some s
  | .fault => none
  | .called _ s _ => some s
  | .jumped _ s => some s
  | .timeout => none

/-- Sequencing: continue with `k` when the first part reached its end. -/
def Res.andThen (r : Res) (k : Option Label → State → Res) : Res :=
  match r with
  | .next p s => k p s
  | .ret s => .ret s
  | .fault => .fault
  | .called t s resume => .called t s (fun s' => (resume s').andThen k)
  | .jumped a s => .jumped a s
  | .timeout => .timeout

/-- Effect of an ABI call on the machine state: the callee may change every
caller-saved register (and the link register), leaves its result in the return
register, and `GrowBacktrackStack` leaves the arena's `limit` and `base` fields with
the values of its outcome. -/
def State.afterCall (env : Env) (s : State) : State :=
  let g := env.grow s.calls
  let m1 := storeBytes s.mem (env.symAddr .regexpStack_limit) env.arch.ptrBytes g.limit
  let m2 := storeBytes m1 (env.symAddr .regexpStack_base) env.arch.ptrBytes g.base
  { s with
    reg := fun r => if r ≠ Reg.StackPointer ∧ (env.volatile r = true ∨ r = Reg.lr)
                    then g.junk r % 2 ^ env.arch.ptrBits else s.reg r,
    flags := none, mem := m2, retReg := g.ret % 2 ^ env.arch.ptrBits, calls := s.calls + 1 }

/-- Effect of a call of `CaseInsensitiveCompareStrings` on the machine state: the callee
may change every caller-saved register (and the link register) and leaves its result in
the return register; it writes no memory.  The result and the register contents are those
of the outcome of the call with this number. -/
def State.afterCompare (env : Env) (s : State) : State :=
  let g := env.grow s.calls
  { s with
    reg := fun r => if r ≠ Reg.StackPointer ∧ (env.volatile r = true ∨ r = Reg.lr)
                    then g.junk r % 2 ^ env.arch.ptrBits else s.reg r,
    flags := none, retReg := g.ret % 2 ^ env.arch.ptrBits, calls := s.calls + 1 }

/-- Saving of the registers by `PushRegsInMask`: the register file is recorded; which of
its registers are restored is decided by the matching `PopRegsInMask`. -/
def State.pushRegs (s : State) : State :=
  { s with saved := s.reg :: s.saved }

/-- Restoring by `PopRegsInMask` of the registers selected by `sel` from the recorded
register file `old`. -/
def State.popRegs (s : State) (sel : Reg → Bool) (old : Reg → Nat) (rest : List (Reg → Nat)) :
    State :=
  { s with reg := fun r => if sel r = true then old r else s.reg r, saved := rest }

/-- Modelled from the spec: the portable assembler primitives (the `masm` object, not
part of the source under study).  Each primitive has its usual meaning: 32-bit
operations work on the low 32 bits and zero-extend their result, pointer-wide ones
work modulo `2 ^ ptrBits`; comparisons and tests set the flags, moves, loads, stores
and address computations keep them, other arithmetic leaves them unspecified. -/
def step (env : Env) (i : Instr) (s : State) : Res :=
  let W := env.arch.ptrBits
  let P := env.arch.ptrBytes
  match i with
  | .computeEffectiveAddress src dest => .next none (s.setReg dest (ea env s src))
  | .cmp32 lhs rhs => .next none (s.setFlags (some ⟨32, s.reg lhs % 2 ^ 32, wrap 32 rhs⟩))
  | .cmpPtr lhs rhs => .next none (s.setFlags (some ⟨W, s.reg lhs % 2 ^ W, wrap W rhs⟩))
  | .test32 lhs rhs =>
      .next none (s.setFlags (some ⟨32, (s.reg lhs &&& s.reg rhs) % 2 ^ 32, 0⟩))
  | .j cond target =>
      match s.flags with
      | none => .fault
      | some f => if evalCond cond f = true then .next (some target) s else .next none s
  | .jump target => .next (some target) s
  | .bind _ => .next none s
  | .mov src dest => .next none (s.setReg dest (s.reg src))
  | .movImmWord imm dest => .next none (s.setReg dest (wrap W imm))
  | .movImmPtr sym dest => .next none (s.setReg dest (env.symAddr sym % 2 ^ W))
  | .movImmPtrValue ptr dest => .next none (s.setReg dest (ptr % 2 ^ W))
  | .xor32 imm dest =>
      .next none ((s.setReg dest ((s.reg dest % 2 ^ 32) ^^^ wrap 32 imm)).setFlags none)
  | .sub32 imm dest =>
      .next none ((s.setReg dest (wrap 32 ((s.reg dest % 2 ^ 32 : Nat) - imm))).setFlags none)
  | .load8ZeroExtend src dest =>
      .next none ((s.logRead (ea env s src) 1).setReg dest (loadBytes s.mem (ea env s src) 1))
  | .loadPtr src dest =>
      .next none ((s.logRead (ea env s src) P).setReg dest (loadBytes s.mem (ea env s src) P))
  | .storePtr src dest => .next none (s.store (ea env s dest) P (s.reg src))
  | .store32 src dest => .next none (s.store (ea env s dest) 4 (s.reg src))
  | .addPtr src dest =>
      .next none ((s.setReg dest ((s.reg dest + s.reg src) % 2 ^ W)).setFlags none)
  | .addPtrMem src dest =>
      .next none (((s.logRead (ea env s src) P).setReg dest
        ((s.reg dest + loadBytes s.mem (ea env s src) P) % 2 ^ W)).setFlags none)
  | .subPtr src dest =>
      .next none ((s.setReg dest (wrap W ((s.reg dest : Int) - s.reg src))).setFlags none)
  | .subPtrMem src dest =>
      .next none (((s.logRead (ea env s src) P).setReg dest
        (wrap W ((s.reg dest : Int) - loadBytes s.mem (ea env s src) P))).setFlags none)
  | .rshiftPtrArithmetic imm dest =>
      .next none ((s.setReg dest (wrap W (toSigned W (s.reg dest) / (2 : Int) ^ imm))).setFlags none)
  | .branchTest32 cond lhs rhs target =>
      let f : Flags := ⟨32, (s.reg lhs &&& s.reg rhs) % 2 ^ 32, 0⟩
      if evalCond cond f = true then .next (some target) (s.setFlags (some f))
      else .next none (s.setFlags (some f))
  | .PushRegsInMask _ => .next none s.pushRegs
  | .PopRegsInMask set =>
      match s.saved with
      | [] => .fault
      | old :: rest => .next none (s.popRegs (set.has env) old rest)
  | .setupUnalignedABICall _ scratch => .next none (s.setReg scratch (s.reg .StackPointer))
  | .passABIArg _ => .next none s
  | .callWithABI f =>
      match f with
      | .GrowBacktrackStack => .next none (s.afterCall env)
      | .CaseInsensitiveCompareStrings => .next none (s.afterCompare env)
  | .storeCallResult dest => .next none (s.setReg dest s.retReg)
  | .abiret => .ret s
  | .cmpPtrMem lhs rhs =>
      .next none ((s.logRead (ea env s lhs) P).setFlags
        (some ⟨W, loadBytes s.mem (ea env s lhs) P % 2 ^ W, wrap W rhs⟩))
  | .cmpPtrMemReg lhs rhs =>
      .next none ((s.logRead (ea env s lhs) P).setFlags
        (some ⟨W, loadBytes s.mem (ea env s lhs) P % 2 ^ W, s.reg rhs % 2 ^ W⟩))
  | .test32Imm lhs rhs =>
      .next none (s.setFlags (some ⟨32, (s.reg lhs &&& wrap 32 rhs) % 2 ^ 32, 0⟩))
  | .testPtr lhs rhs =>
      .next none (s.setFlags (some ⟨W, (s.reg lhs &&& s.reg rhs) % 2 ^ W, 0⟩))
  | .and32 src dest =>
      .next none ((s.setReg dest ((s.reg dest &&& s.reg src) % 2 ^ 32)).setFlags none)
  | .and32Imm imm dest =>
      .next none ((s.setReg dest ((s.reg dest &&& wrap 32 imm) % 2 ^ 32)).setFlags none)
  | .movWithPatch label dest => .next none (s.setReg dest (env.labelAddr label % 2 ^ W))
  | .jumpReg target => .jumped (s.reg target) s
  | .call target => .called target s (fun s' => .next none s')
  | .load16ZeroExtend src dest =>
      .next none ((s.logRead (ea env s src) 2).setReg dest (loadBytes s.mem (ea env s src) 2))
  | .load32 src dest =>
      .next none ((s.logRead (ea env s src) 4).setReg dest (loadBytes s.mem (ea env s src) 4))
  | .storePtrImm imm dest => .next none (s.store (ea env s dest) P (wrap W imm))
  | .addPtrImm imm dest =>
      .next none ((s.setReg dest (wrap W ((s.reg dest : Int) + imm))).setFlags none)
  | .addPtrImmMem imm dest =>
      .next none (((s.logRead (ea env s dest) P).store (ea env s dest) P
        (wrap W ((loadBytes s.mem (ea env s dest) P : Int) + imm))).setFlags none)
  | .subPtrImm imm dest =>
      .next none ((s.setReg dest (wrap W ((s.reg dest : Int) - imm))).setFlags none)
  | .add32ImmMem imm dest =>
      .next none (((s.logRead (ea env s dest) 4).store (ea env s dest) 4
        (wrap 32 ((loadBytes s.mem (ea env s dest) 4 : Int) + imm))).setFlags none)
  | .lshiftPtr imm dest =>
      .next none ((s.setReg dest ((s.reg dest * 2 ^ imm) % 2 ^ W)).setFlags none)
  | .branch32 cond lhs rhs target =>
      let f : Flags := ⟨32, s.reg lhs % 2 ^ 32, s.reg rhs % 2 ^ 32⟩
      if evalCond cond f = true then .next (some target) (s.setFlags (some f))
      else .next none (s.setFlags (some f))
  | .branch32Imm cond lhs rhs target =>
      let f : Flags := ⟨32, s.reg lhs % 2 ^ 32, wrap 32 rhs⟩
      if evalCond cond f = true then .next (some target) (s.setFlags (some f))
      else .next none (s.setFlags (some f))
  | .branchPtr cond lhs rhs target =>
      let f : Flags := ⟨W, s.reg lhs % 2 ^ W, s.reg rhs % 2 ^ W⟩
      if evalCond cond f = true then .next (some target) (s.setFlags (some f))
      else .next none (s.setFlags (some f))
  | .branchPtrMem cond lhs rhs target =>
      let f : Flags := ⟨W, loadBytes s.mem (ea env s lhs) P % 2 ^ W, s.reg rhs % 2 ^ W⟩
      if evalCond cond f = true then
        .next (some target) ((s.logRead (ea env s lhs) P).setFlags (some f))
      else .next none ((s.logRead (ea env s lhs) P).setFlags (some f))
  | .Push r =>
      .next none ((s.store (wrap W ((s.reg .StackPointer : Int) - P)) P (s.reg r)).setReg
        .StackPointer (wrap W ((s.reg .StackPointer : Int) - P)))
  | .push r =>
      .next none ((s.store (wrap W ((s.reg .StackPointer : Int) - P)) P (s.reg r)).setReg
        .StackPointer (wrap W ((s.reg .StackPointer : Int) - P)))
  | .Pop r =>
      .next none (((s.logRead (s.reg .StackPointer) P).setReg r
        (loadBytes s.mem (s.reg .StackPointer) P)).setReg
        .StackPointer ((s.reg .StackPointer + P) % 2 ^ W))
  | .pop r =>
      .next none (((s.logRead (s.reg .StackPointer) P).setReg r
        (loadBytes s.mem (s.reg .StackPointer) P)).setReg
        .StackPointer ((s.reg .StackPointer + P) % 2 ^ W))
  | .reserveStack amount =>
      .next none ((s.setReg .StackPointer (wrap W ((s.reg .StackPointer : Int) - amount))).setFlags
        none)
  | .freeStack amount =>
      .next none ((s.setReg .StackPointer ((s.reg .StackPointer + amount) % 2 ^ W)).setFlags none)
  | .checkStackAlignment => .next none s
  | .assumeUnreachable _ => .fault

/-- Execution of a piece of generated code whose branches go forward.  While a
branch to `l` is pending, instructions are skipped up to the place where `l` is bound. -/
def exec (env : Env) : List Instr → Option Label → State → Res
  | [], p, s => .next p s
  | i :: rest, some l, s =>
      match i with
      | .bind l' => if l' = l then exec env rest none s else exec env rest (some l) s
      | _ => exec env rest (some l) s
  | i :: rest, none, s => (step env i s).andThen (fun p s' => exec env rest p s')

/-! ## Macro operations -/

/-- `BranchOrBacktrack(condition, to)`: a null label means the backtrack label. -/
def BranchOrBacktrack (condition : Cond) (to_ : Option Label) : List Instr :=
  match to_ with
  | some l => [.j condition l]
  | none => [.j condition .backtrack_label_]

/-- `CheckCharacterInRange(from, to, on_in_range)`. -/
def CheckCharacterInRange (from_ to_ : Nat) (on_in_range : Option Label) : List Instr :=
  [.computeEffectiveAddress (.Address .current_character (-(from_ : Int))) .temp0,
   .cmp32 .temp0 ((to_ : Int) - from_)]
  ++ BranchOrBacktrack .BelowOrEqual on_in_range

/-- `CheckCharacterNotInRange(from, to, on_not_in_range)`. -/
def CheckCharacterNotInRange (from_ to_ : Nat) (on_not_in_range : Option Label) : List Instr :=
  [.computeEffectiveAddress (.Address .current_character (-(from_ : Int))) .temp0,
   .cmp32 .temp0 ((to_ : Int) - from_)]
  ++ BranchOrBacktrack .Above on_not_in_range

/-- The table `word_character_map` of the source, row by row. -/
def word_character_map : List Nat :=
  [0x00, 0x00, 0x00, 0x00, 0x00, 0x00, 0x00, 0x00,
   0x00, 0x00, 0x00, 0x00, 0x00, 0x00, 0x00, 0x00,
   0x00, 0x00, 0x00, 0x00, 0x00, 0x00, 0x00, 0x00,
   0x00, 0x00, 0x00, 0x00, 0x00, 0x00, 0x00, 0x00,

   0x00, 0x00, 0x00, 0x00, 0x00, 0x00, 0x00, 0x00,
   0x00, 0x00, 0x00, 0x00, 0x00, 0x00, 0x00, 0x00,
   0xff, 0xff, 0xff, 0xff, 0xff, 0xff, 0xff, 0xff,  -- '0' - '7'
   0xff, 0xff, 0x00, 0x00, 0x00, 0x00, 0x00, 0x00,  -- '8' - '9'

   0x00, 0xff, 0xff, 0xff, 0xff, 0xff, 0xff, 0xff,  -- 'A' - 'G'
   0xff, 0xff, 0xff, 0xff, 0xff, 0xff, 0xff, 0xff,  -- 'H' - 'O'
   0xff, 0xff, 0xff, 0xff, 0xff, 0xff, 0xff, 0xff,  -- 'P' - 'W'
   0xff, 0xff, 0xff, 0x00, 0x00, 0x00, 0x00, 0xff,  -- 'X' - 'Z', '_'

   0x00, 0xff, 0xff, 0xff, 0xff, 0xff, 0xff, 0xff,  -- 'a' - 'g'
   0xff, 0xff, 0xff, 0xff, 0xff, 0xff, 0xff, 0xff,  -- 'h' - 'o'
   0xff, 0xff, 0xff, 0xff, 0xff, 0xff, 0xff, 0xff,  -- 'p' - 'w'
   0xff, 0xff, 0xff, 0x00, 0x00, 0x00, 0x00, 0x00,  -- 'x' - 'z'

   -- Latin-1 range
   0x00, 0x00, 0x00, 0x00, 0x00, 0x00, 0x00, 0x00,
   0x00, 0x00, 0x00, 0x00, 0x00, 0x00, 0x00, 0x00,
   0x00, 0x00, 0x00, 0x00, 0x00, 0x00, 0x00, 0x00,
   0x00, 0x00, 0x00, 0x00, 0x00, 0x00, 0x00, 0x00,

   0x00, 0x00, 0x00, 0x00, 0x00, 0x00, 0x00, 0x00,
   0x00, 0x00, 0x00, 0x00, 0x00, 0x00, 0x00, 0x00,
   0x00, 0x00, 0x00, 0x00, 0x00, 0x00, 0x00, 0x00,
   0x00, 0x00, 0x00, 0x00, 0x00, 0x00, 0x00, 0x00,

   0x00, 0x00, 0x00, 0x00, 0x00, 0x00, 0x00, 0x00,
   0x00, 0x00, 0x00, 0x00, 0x00, 0x00, 0x00, 0x00,
   0x00, 0x00, 0x00, 0x00, 0x00, 0x00, 0x00, 0x00,
   0x00, 0x00, 0x00, 0x00, 0x00, 0x00, 0x00, 0x00,

   0x00, 0x00, 0x00, 0x00, 0x00, 0x00, 0x00, 0x00,
   0x00, 0x00, 0x00, 0x00, 0x00, 0x00, 0x00, 0x00,
   0x00, 0x00, 0x00, 0x00, 0x00, 0x00, 0x00, 0x00,
   0x00, 0x00, 0x00, 0x00, 0x00, 0x00, 0x00, 0x00]

/-- What an emitter hits instead of returning: `MOZ_ASSUME_UNREACHABLE(reason)`. -/
structure Unreachable where
  reason : String
  deriving DecidableEq, Repr

/-- `CheckSpecialCharacterClass(type, on_no_match)`: the value returned and the
instructions emitted, or the unreachable-trap hit.  `done` is the local label of the
`'W'` and `'n'` cases. -/
def CheckSpecialCharacterClass (mode_ : Mode) (type : Nat) (on_no_match : Option Label) :
    Except Unreachable (Bool × List Instr) :=
  let done : Label := .loc 0
  -- Range checks (c in min..max) are generally implemented by an unsigned
  -- (c - min) <= (max - min) check
  if type = 's'.toNat then
    -- Match space-characters
    if mode_ = .ASCII then .error ⟨"Ascii version not implemented"⟩
    else .ok (false, [])
  else if type = 'S'.toNat then
    -- The emitted code for generic character classes is good enough.
    .ok (false, [])
  else if type = 'd'.toNat then
    -- Match ASCII digits ('0'..'9')
    .ok (true,
      [.computeEffectiveAddress (.Address .current_character (-('0'.toNat : Int))) .temp0,
       .cmp32 .temp0 (('9'.toNat : Int) - '0'.toNat)]
      ++ BranchOrBacktrack .Above on_no_match)
  else if type = 'D'.toNat then
    -- Match non ASCII-digits
    .ok (true,
      [.computeEffectiveAddress (.Address .current_character (-('0'.toNat : Int))) .temp0,
       .cmp32 .temp0 (('9'.toNat : Int) - '0'.toNat)]
      ++ BranchOrBacktrack .BelowOrEqual on_no_match)
  else if type = '.'.toNat then
    -- Match non-newlines (not 0x0a('\n'), 0x0d('\r'), 0x2028 and 0x2029)
    .ok (true,
      [.mov .current_character .temp0,
       .xor32 0x01 .temp0,
       -- See if current character is '\n'^1 or '\r'^1, i.e., 0x0b or 0x0c
       .sub32 0x0b .temp0,
       .cmp32 .temp0 (0x0c - 0x0b)]
      ++ BranchOrBacktrack .BelowOrEqual on_no_match
      ++ (if mode_ = .JSCHAR then
            -- Compare original value to 0x2028 and 0x2029, using the already
            -- computed (current_char ^ 0x01 - 0x0b). I.e., check for
            -- 0x201d (0x2028 - 0x0b) or 0x201e.
            [.sub32 (0x2028 - 0x0b) .temp0,
             .cmp32 .temp0 (0x2029 - 0x2028)]
            ++ BranchOrBacktrack .BelowOrEqual on_no_match
          else []))
  else if type = 'w'.toNat then
    .ok (true,
      (if mode_ ≠ .ASCII then
         -- Table is 128 entries, so all ASCII characters can be tested.
         [.cmp32 .current_character 'z'.toNat]
         ++ BranchOrBacktrack .Above on_no_match
       else [])
      ++ [.movImmPtr .word_character_map .temp0,
          .load8ZeroExtend (.BaseIndex .temp0 .current_character .TimesOne 0) .temp0,
          .test32 .temp0 .temp0]
      ++ BranchOrBacktrack .Zero on_no_match)
  else if type = 'W'.toNat then
    .ok (true,
      (if mode_ ≠ .ASCII then
         -- Table is 128 entries, so all ASCII characters can be tested.
         [.cmp32 .current_character 'z'.toNat,
          .j .Above done]
       else [])
      ++ [.movImmPtr .word_character_map .temp0,
          .load8ZeroExtend (.BaseIndex .temp0 .current_character .TimesOne 0) .temp0,
          .test32 .temp0 .temp0]
      ++ BranchOrBacktrack .NonZero on_no_match
      ++ (if mode_ ≠ .ASCII then [.bind done] else []))
  else if type = '*'.toNat then
    -- Non-standard classes (with no syntactic shorthand) used internally.
    -- Match any character.
    .ok (true, [])
  else if type = 'n'.toNat then
    -- Match newlines (0x0a('\n'), 0x0d('\r'), 0x2028 or 0x2029).
    -- The opposite of '.'.
    .ok (true,
      [.mov .current_character .temp0,
       .xor32 0x01 .temp0,
       -- See if current character is '\n'^1 or '\r'^1, i.e., 0x0b or 0x0c
       .sub32 0x0b .temp0,
       .cmp32 .temp0 (0x0c - 0x0b)]
      ++ (if mode_ = .ASCII then
            BranchOrBacktrack .Above on_no_match
          else
            BranchOrBacktrack .BelowOrEqual (some done)
            -- Compare original value to 0x2028 and 0x2029, using the already
            -- computed (current_char ^ 0x01 - 0x0b). I.e., check for
            -- 0x201d (0x2028 - 0x0b) or 0x201e.
            ++ [.sub32 (0x2028 - 0x0b) .temp0,
                .cmp32 .temp0 1]
            ++ BranchOrBacktrack .Above on_no_match
            ++ [.bind done]))
  else
    -- No custom implementation (yet):
    .ok (false, [])

/-- The table `word_character_map` is in memory at its address, inside the address
space of the target. -/
def MapLoaded (env : Env) (s : State) : Prop :=
  env.symAddr .word_character_map + 256 ≤ 2 ^ env.arch.ptrBits ∧
  ∀ i : Fin 256, s.mem (env.symAddr .word_character_map + i.val) = word_character_map.getD i.val 0

/-- Character codes of `'0'..'9'`, `'A'..'Z'`, `'_'` and `'a'..'z'`. -/
def isWordCode (c : Nat) : Prop :=
  ('0'.toNat ≤ c ∧ c ≤ '9'.toNat) ∨ ('A'.toNat ≤ c ∧ c ≤ 'Z'.toNat) ∨ c = '_'.toNat ∨
  ('a'.toNat ≤ c ∧ c ≤ 'z'.toNat)

/-- Character codes of the four line terminators. -/
def isNewlineCode (c : Nat) : Prop :=
  c = 0x0a ∨ c = 0x0d ∨ c = 0x2028 ∨ c = 0x2029

instance (env : Env) (s : State) : Decidable (MapLoaded env s) := by
  unfold MapLoaded; infer_instance

instance (c : Nat) : Decidable (isWordCode c) := by
  unfold isWordCode; infer_instance

instance (c : Nat) : Decidable (isNewlineCode c) := by
  unfold isNewlineCode; infer_instance

/-! ## Frame layout and the members of the assembler -/

/-- Modelled from the spec: byte offsets of the fields of `FrameData` and of
`InputOutputData`, the size of `FrameData`, the offsets of the pair array and the pair
count in `MatchPairs`, and the values of the run statuses.  All are declared in headers
that are not part of the source; the code only uses them by name. -/
structure Layout where
  sizeof_FrameData : Nat
  FrameData_inputStart : Nat
  FrameData_startIndex : Nat
  FrameData_outputRegisters : Nat
  FrameData_numOutputRegisters : Nat
  FrameData_inputStartMinusOne : Nat
  FrameData_backtrackStackBase : Nat
  FrameData_successfulCaptures : Nat
  InputOutputData_inputStart : Nat
  InputOutputData_inputEnd : Nat
  InputOutputData_startIndex : Nat
  InputOutputData_matches : Nat
  InputOutputData_result : Nat
  /-- `MatchPairs::offsetOfPairs()`. -/
  MatchPairs_pairs : Nat
  /-- `MatchPairs::offsetOfPairCount()`. -/
  MatchPairs_pairCount : Nat
  RegExpRunStatus_Error : Int
  RegExpRunStatus_Success : Int
  RegExpRunStatus_Success_NotFound : Int

/-- Modelled from the spec: the global mode of the regexp (not global, global with the
zero-length check, global without it). -/
inductive GlobalMode
  | NOT_GLOBAL
  | GLOBAL
  | GLOBAL_NO_ZERO_LENGTH_CHECK
  deriving DecidableEq, Repr

/-- The members of the assembler and the platform constants that the emitters read. -/
structure Assembler where
  arch : Arch
  layout : Layout
  mode_ : Mode
  global_mode_ : GlobalMode
  /-- Already rounded up to an even number, as `GenerateCode` does first. -/
  num_registers_ : Nat
  num_saved_registers_ : Nat
  /-- The registers of `savedNonVolatileRegisters`, in forward iteration order: the logical
  registers that were allocated to callee-saved physical registers (and `lr` on ARM). -/
  savedNonVolatileRegisters : List Reg
  StackAlignment : Nat
  /-- Whether the build defines `XP_WIN`. -/
  XP_WIN : Bool
  /-- Whether the build defines `DEBUG`. -/
  DEBUG : Bool

/-- The count `pushedNonVolatileRegisters` of `GenerateCode`. -/
def Assembler.pushedNonVolatileRegisters (m : Assembler) : Nat :=
  m.savedNonVolatileRegisters.length

/-- Modelled from the spec: `global()`. -/
def Assembler.global (m : Assembler) : Bool := decide (m.global_mode_ ≠ .NOT_GLOBAL)

/-- Modelled from the spec: `global_with_zero_length_check()`. -/
def Assembler.global_with_zero_length_check (m : Assembler) : Bool :=
  decide (m.global_mode_ = .GLOBAL)

/-- Modelled from the spec: `register_offset(register_index)`, the register file sits
immediately above `FrameData`, one pointer-sized slot per register. -/
def Assembler.register_offset (m : Assembler) (register_index : Nat) : Nat :=
  m.layout.sizeof_FrameData + register_index * m.arch.ptrBytes

/-- Modelled from the spec: `register_location(register_index)`. -/
def Assembler.register_location (m : Assembler) (register_index : Nat) : Operand :=
  .Address .StackPointer (m.register_offset register_index)

/-- Modelled from the spec: `factor()`, the index scale of one character. -/
def Assembler.factor (m : Assembler) : Scale :=
  if m.mode_ = .JSCHAR then .TimesTwo else .TimesOne

/-- `JS_ROUNDUP(x, y)`. -/
def JS_ROUNDUP (x y : Nat) : Nat := ((x + y - 1) / y) * y

/-- `masm.framePushed()` when the frame is reserved: the saved non-volatile registers
and, except on x86, the pushed `InputOutputData*`. -/
def Assembler.framePushed (m : Assembler) : Nat :=
  (m.pushedNonVolatileRegisters + (if m.arch = .x86 then 0 else 1)) * m.arch.ptrBytes

/-- The `frameSize` computed by `GenerateCode`. -/
def Assembler.frameSize (m : Assembler) : Nat :=
  JS_ROUNDUP (m.layout.sizeof_FrameData + m.num_registers_ * m.arch.ptrBytes + m.framePushed)
    m.StackAlignment - m.framePushed

/-- The operand `inputOutputAddress` of `GenerateCode`. -/
def Assembler.inputOutputAddress (m : Assembler) : Operand :=
  if m.arch ≠ .x86 then
    -- The InputOutputData* is stored on the stack immediately above the frame.
    .Address .StackPointer m.frameSize
  else
    -- The InputOutputData* is left in its original on stack location.
    .Address .StackPointer (m.frameSize + (m.pushedNonVolatileRegisters + 1) * m.arch.ptrBytes)

/-- `for (int i = 0; i < n; i++) body(i)` at emission time: the bodies in order. -/
def emitFor : Nat → (Nat → List Instr) → List Instr
  | 0, _ => []
  | n + 1, body => emitFor n body ++ body n

/-- `ReadBacktrackStackPointerFromRegister(reg)`. -/
def ReadBacktrackStackPointerFromRegister (m : Assembler) (reg : Nat) : List Instr :=
  [.loadPtr (m.register_location reg) .backtrack_stack_pointer,
   .addPtrMem (.Address .StackPointer m.layout.FrameData_backtrackStackBase)
     .backtrack_stack_pointer]

/-- `WriteBacktrackStackPointerToRegister(reg)`. -/
def WriteBacktrackStackPointerToRegister (m : Assembler) (reg : Nat) : List Instr :=
  [.mov .backtrack_stack_pointer .temp0,
   .subPtrMem (.Address .StackPointer m.layout.FrameData_backtrackStackBase) .temp0,
   .storePtr .temp0 (m.register_location reg)]

/-- `ClearRegisters(reg_from, reg_to)`. -/
def ClearRegisters (m : Assembler) (reg_from reg_to : Nat) : List Instr :=
  [.loadPtr (.Address .StackPointer m.layout.FrameData_inputStartMinusOne) .temp0]
  ++ emitFor (reg_to + 1 - reg_from) (fun k => [.storePtr .temp0 (m.register_location (reg_from + k))])

/-! ## Pieces of `GenerateCode` -/

/-- `GenerateCode`, prologue, from "Load string end pointer" to "Update current position
based on start index": `temp0` holds the `InputOutputData*` on entry. -/
def GenerateCode_positions (m : Assembler) : List Instr :=
  -- Load string end pointer.
  [.loadPtr (.Address .temp0 m.layout.InputOutputData_inputEnd) .input_end_pointer,
   -- Load input start pointer, and copy to FrameData.
   .loadPtr (.Address .temp0 m.layout.InputOutputData_inputStart) .current_position,
   .storePtr .current_position (.Address .StackPointer m.layout.FrameData_inputStart),
   -- Load start index, and copy to FrameData.
   .loadPtr (.Address .temp0 m.layout.InputOutputData_startIndex) .temp1,
   .storePtr .temp1 (.Address .StackPointer m.layout.FrameData_startIndex),
   -- Set up input position to be negative offset from string end.
   .subPtr .input_end_pointer .current_position,
   -- Set temp0 to address of char before start of the string.
   -- (effectively string position -1).
   .computeEffectiveAddress (.Address .current_position (-(char_size m.mode_ : Int))) .temp0,
   -- Store this value on the frame, for use when clearing
   -- position registers.
   .storePtr .temp0 (.Address .StackPointer m.layout.FrameData_inputStartMinusOne),
   -- Update current position based on start index.
   .computeEffectiveAddress
     (.BaseIndex .current_position .temp1 m.factor 0) .current_position]

/-- `GenerateCode`, success path: the body of the loop "Copy captures to output" for the
saved register `i`; `outputRegisters` is `temp1`, `inputByteLength` is
`backtrack_stack_pointer`, and `sizeof(int32_t)` is 4. -/
def GenerateCode_capture (m : Assembler) (i : Nat) : List Instr :=
  let outputRegisters := Reg.temp1
  let inputByteLength := Reg.backtrack_stack_pointer
  [.loadPtr (m.register_location i) .temp0]
  ++ (if i = 0 ∧ m.global_with_zero_length_check = true then
        -- Keep capture start in current_character for the zero-length check later.
        [.mov .temp0 .current_character]
      else [])
  -- Convert to index from start of string, not end.
  ++ [.addPtr inputByteLength .temp0]
  -- Convert byte index to character index.
  ++ (if m.mode_ = .JSCHAR then [.rshiftPtrArithmetic 1 .temp0] else [])
  ++ [.store32 .temp0 (.Address outputRegisters ((i * 4 : Nat) : Int))]

/-- `GenerateCode`, success path, "Save captures when successful": the block that copies
the saved registers to the output. -/
def GenerateCode_captures (m : Assembler) : List Instr :=
  let outputRegisters := Reg.temp1
  let inputByteLength := Reg.backtrack_stack_pointer
  [.loadPtr (.Address .StackPointer m.layout.FrameData_outputRegisters) outputRegisters,
   .loadPtr m.inputOutputAddress .temp0,
   .loadPtr (.Address .temp0 m.layout.InputOutputData_inputEnd) inputByteLength,
   .subPtrMem (.Address .temp0 m.layout.InputOutputData_inputStart) inputByteLength]
  -- Copy captures to output. Note that registers on the C stack are pointer width
  -- so that they might hold pointers, but output registers are int32_t.
  ++ emitFor m.num_saved_registers_ (GenerateCode_capture m)

/-- `GenerateCode`, "Backtrack stack overflow code": the trampoline bound at
`stack_overflow_label_`.  `temp2` holds the `StackPointer` to use for accessing
`FrameData`; `return_from_overflow_handler` is a local label. -/
def GenerateCode_stack_overflow (m : Assembler) : List Instr :=
  let return_from_overflow_handler : Label := .loc 1
  -- Save registers before calling C function
  let volatileRegs0 : RegSet := if m.arch = .arm then RegSet.Volatile.add .lr else RegSet.Volatile
  let volatileRegs : RegSet := (volatileRegs0.takeUnchecked .temp0).takeUnchecked .temp1
  let backtrackStackBaseAddress : Operand := .Address .temp2 m.layout.FrameData_backtrackStackBase
  [.bind .stack_overflow_label_,
   .movImmPtr .runtime .temp1,
   .PushRegsInMask volatileRegs,
   .setupUnalignedABICall 1 .temp0,
   .passABIArg .temp1,
   .callWithABI .GrowBacktrackStack,
   .storeCallResult .temp0,
   .PopRegsInMask volatileRegs,
   -- If return false, we have failed to grow the stack, and
   -- must exit with a stack-overflow exception. Do this in the caller
   -- so that the stack is adjusted by our return instruction.
   .branchTest32 .Zero .temp0 .temp0 return_from_overflow_handler,
   -- Otherwise, store the new backtrack stack base and recompute the new
   -- top of the stack.
   .subPtrMem backtrackStackBaseAddress .backtrack_stack_pointer,
   .loadPtr (.AbsoluteAddress .regexpStack_base) .temp1,
   .storePtr .temp1 backtrackStackBaseAddress,
   .addPtr .temp1 .backtrack_stack_pointer,
   -- Resume execution in calling code.
   .bind return_from_overflow_handler,
   .abiret]

/-- Content of a pointer-sized memory cell. -/
def State.loadPtr (env : Env) (s : State) (a : Nat) : Nat :=
  loadBytes s.mem a env.arch.ptrBytes

/-- Content of the pointer-sized field at offset `off` of the object at address `base`. -/
def State.field (env : Env) (s : State) (base off : Nat) : Nat :=
  s.loadPtr env (wrap env.arch.ptrBits ((base : Int) + (off : Int)))

/-- Content of the pointer-sized cell designated by a memory operand. -/
def State.cell (env : Env) (s : State) (o : Operand) : Nat :=
  s.loadPtr env (ea env s o)

/-! ## Concrete machine used to evaluate the definitions -/

/-- A 64-bit environment: the external objects at fixed addresses, the scratch
registers caller-saved, and a `GrowBacktrackStack` that succeeds and moves the arena. -/
def sampleEnv : Env where
  arch := .x64
  symAddr := fun
    | .word_character_map => 0x1000
    | .runtime => 0x2000
    | .regexpStack_base => 0x3000
    | .regexpStack_limit => 0x3008
    | .jitStackLimit => 0x3010
  volatile := fun r => decide (r = .temp0 ∨ r = .temp1 ∨ r = .temp2 ∨ r = .current_character)
  grow := fun _ => ⟨1, 0x90000, 0xA0000, fun _ => 0xdead⟩
  labelAddr := fun _ => 0

/-- A state with `current_character = c`, the other registers zero, and memory that
holds `word_character_map` at its address and zero elsewhere. -/
def sampleState (c : Nat) : State where
  reg := fun r => if r = .current_character then c else 0
  flags := none
  mem := fun a => if 0x1000 ≤ a ∧ a < 0x1100 then word_character_map.getD (a - 0x1000) 0 else 0
  trace := []
  saved := []
  retReg := 0
  calls := 0

/-- A 64-bit layout: the fields in the order the spec lists them, eight bytes each. -/
def sampleLayout : Layout where
  sizeof_FrameData := 56
  FrameData_inputStart := 0
  FrameData_startIndex := 8
  FrameData_outputRegisters := 16
  FrameData_numOutputRegisters := 24
  FrameData_inputStartMinusOne := 32
  FrameData_backtrackStackBase := 40
  FrameData_successfulCaptures := 48
  InputOutputData_inputStart := 0
  InputOutputData_inputEnd := 8
  InputOutputData_startIndex := 16
  InputOutputData_matches := 24
  InputOutputData_result := 32
  MatchPairs_pairs := 8
  MatchPairs_pairCount := 0
  RegExpRunStatus_Error := 0
  RegExpRunStatus_Success := 1
  RegExpRunStatus_Success_NotFound := 2

/-- A 16-bit, non-global assembler with two saved registers on the 64-bit target. -/
def sampleAsm : Assembler where
  arch := .x64
  layout := sampleLayout
  mode_ := .JSCHAR
  global_mode_ := .NOT_GLOBAL
  num_registers_ := 2
  num_saved_registers_ := 2
  savedNonVolatileRegisters := [.input_end_pointer, .current_position]
  StackAlignment := 16
  XP_WIN := false
  DEBUG := false

/-- Memory that holds the given eight-byte cells and zero elsewhere. -/
def cellsMem (cells : List (Nat × Nat)) : Nat → Nat :=
  cells.foldl (fun m c => storeBytes m c.1 8 c.2) (fun _ => 0)

/-- A state with the given registers and memory cells. -/
def cellsState (regs : Reg → Nat) (cells : List (Nat × Nat)) : State where
  reg := regs
  flags := none
  mem := cellsMem cells
  trace := []
  saved := []
  retReg := 0
  calls := 0


/-- A state at the success label for `sampleAsm`: the frame at 0x7000 with
`outputRegisters = 0x8000` and the `InputOutputData*` 0x6000 saved above the frame; the
input is the six bytes from 0x4000 to 0x4006; register 0 holds the offset -6 and
register 1 the offset -4. -/
def sampleSuccessState : State :=
  cellsState (fun r => if r = .StackPointer then 0x7000 else 0)
    [(0x7010, 0x8000), (0x7048, 0x6000), (0x6000, 0x4000), (0x6008, 0x4006),
     (0x7038, 2 ^ 64 - 6), (0x7040, 2 ^ 64 - 4)]


/-- A state at the start of the position set-up of the prologue for `sampleAsm`: `temp0`
points to the `InputOutputData` at 0x6000, whose input runs from 0x4000 to 0x4006. -/
def samplePrologueState : State :=
  cellsState (fun r => if r = .StackPointer then 0x7000 else if r = .temp0 then 0x6000 else 0)
    [(0x6000, 0x4000), (0x6008, 0x4006)]

/-- A state in the body for `sampleAsm`, `FrameData.inputStartMinusOne` holding the
offset -8 that the prologue stores for the input of `samplePrologueState`. -/
def sampleBodyState : State :=
  cellsState (fun r => if r = .StackPointer then 0x7000 else 0) [(0x7020, 2 ^ 64 - 8)]

/-- The state `sampleSuccessState` with register 1 left unset (offset -8). -/
def sampleUnsetState : State :=
  cellsState (fun r => if r = .StackPointer then 0x7000 else 0)
    [(0x7010, 0x8000), (0x7048, 0x6000), (0x6000, 0x4000), (0x6008, 0x4006),
     (0x7038, 2 ^ 64 - 6), (0x7040, 2 ^ 64 - 8)]


/-! ## More macro operations -/

/-- `AdvanceCurrentPosition(by)`. -/
def AdvanceCurrentPosition (m : Assembler) (by_ : Int) : List Instr :=
  if by_ ≠ 0 then [.addPtrImm (by_ * char_size m.mode_) .current_position] else []

/-- `PushBacktrack(Register source)`. -/
def PushBacktrack (m : Assembler) (source : Reg) : List Instr :=
  -- Notice: This updates flags, unlike normal Push.
  [.storePtr source (.Address .backtrack_stack_pointer 0),
   .addPtrImm m.arch.ptrBytes .backtrack_stack_pointer]

/-- `PushBacktrack(int32_t value)`. -/
def PushBacktrackValue (m : Assembler) (value : Int) : List Instr :=
  -- Notice: This updates flags, unlike normal Push.
  [.storePtrImm value (.Address .backtrack_stack_pointer 0),
   .addPtrImm m.arch.ptrBytes .backtrack_stack_pointer]

/-- `PopBacktrack(Register target)`. -/
def PopBacktrack (m : Assembler) (target : Reg) : List Instr :=
  -- Notice: This updates flags, unlike normal Pop.
  [.subPtrImm m.arch.ptrBytes .backtrack_stack_pointer,
   .loadPtr (.Address .backtrack_stack_pointer 0) target]

/-- `Backtrack()`: pop code location from backtrack stack and jump to location. -/
def Backtrack (m : Assembler) : List Instr :=
  PopBacktrack m .temp0 ++ [.jumpReg .temp0]

/-- `JumpOrBacktrack(to)`. -/
def JumpOrBacktrack (m : Assembler) (to_ : Option Label) : List Instr :=
  match to_ with
  | some l => [.jump l]
  | none => Backtrack m

/-- `CheckBacktrackStackLimit()`; `no_stack_overflow` is a local label. -/
def CheckBacktrackStackLimit : List Instr :=
  let no_stack_overflow : Label := .loc 2
  [.branchPtrMem .AboveOrEqual (.AbsoluteAddress .regexpStack_limit) .backtrack_stack_pointer
     no_stack_overflow,
   -- Copy the stack pointer before the call() instruction modifies it.
   .mov .StackPointer .temp2,
   .call .stack_overflow_label_,
   .bind no_stack_overflow,
   -- Exit with an exception if the call failed.
   .test32 .temp0 .temp0,
   .j .Zero .exit_with_exception_label_]

/-- `PushCurrentPosition()`. -/
def PushCurrentPosition (m : Assembler) : List Instr :=
  PushBacktrack m .current_position

/-- `PushRegister(register_index, check_stack_limit)`. -/
def PushRegister (m : Assembler) (register_index : Nat) (check_stack_limit : Bool) :
    List Instr :=
  [.loadPtr (m.register_location register_index) .temp0]
  ++ PushBacktrack m .temp0
  ++ (if check_stack_limit then CheckBacktrackStackLimit else [])

/-- `CheckPosition(cp_offset, on_outside_input)`. -/
def CheckPosition (m : Assembler) (cp_offset : Int) (on_outside_input : Option Label) :
    List Instr :=
  [.cmpPtr .current_position (-cp_offset * char_size m.mode_)]
  ++ BranchOrBacktrack .GreaterThanOrEqual on_outside_input

/-- `LoadCurrentCharacterUnchecked(cp_offset, characters)`, `sizeof(jschar)` being 2. -/
def LoadCurrentCharacterUnchecked (m : Assembler) (cp_offset : Int) (characters : Nat) :
    Except Unreachable (List Instr) :=
  if m.mode_ = .ASCII then .error ⟨"Ascii loading not implemented"⟩
  else
    let address : Operand := .BaseIndex .input_end_pointer .current_position .TimesOne (cp_offset * 2)
    if characters = 2 then .ok [.load32 address .current_character]
    else .ok [.load16ZeroExtend address .current_character]

/-- `LoadCurrentCharacter(cp_offset, on_end_of_input, check_bounds, characters)`. -/
def LoadCurrentCharacter (m : Assembler) (cp_offset : Int) (on_end_of_input : Option Label)
    (check_bounds : Bool) (characters : Nat) : Except Unreachable (List Instr) :=
  (LoadCurrentCharacterUnchecked m cp_offset characters).map fun load =>
    (if check_bounds then CheckPosition m (cp_offset + characters - 1) on_end_of_input else [])
    ++ load

/-- `CheckCharacter(c, on_equal)`. -/
def CheckCharacter (c : Nat) (on_equal : Option Label) : List Instr :=
  [.cmp32 .current_character c] ++ BranchOrBacktrack .Equal on_equal

/-- `CheckNotCharacter(c, on_not_equal)`. -/
def CheckNotCharacter (c : Nat) (on_not_equal : Option Label) : List Instr :=
  [.cmp32 .current_character c] ++ BranchOrBacktrack .NotEqual on_not_equal

/-- `CheckAtStart(on_at_start)`; `not_at_start` is a local label. -/
def CheckAtStart (m : Assembler) (on_at_start : Option Label) : List Instr :=
  let not_at_start : Label := .loc 3
  -- Did we start the match at the start of the string at all?
  [.cmpPtrMem (.Address .StackPointer m.layout.FrameData_startIndex) 0]
  ++ BranchOrBacktrack .NotEqual (some not_at_start)
  -- If we did, are we still at the start of the input?
  ++ [.computeEffectiveAddress (.BaseIndex .input_end_pointer .current_position .TimesOne 0) .temp0,
      .cmpPtrMemReg (.Address .StackPointer m.layout.FrameData_inputStart) .temp0]
  ++ BranchOrBacktrack .Equal on_at_start
  ++ [.bind not_at_start]

/-- `CheckNotAtStart(on_not_at_start)`. -/
def CheckNotAtStart (m : Assembler) (on_not_at_start : Option Label) : List Instr :=
  -- Did we start the match at the start of the string at all?
  [.cmpPtrMem (.Address .StackPointer m.layout.FrameData_startIndex) 0]
  ++ BranchOrBacktrack .NotEqual on_not_at_start
  -- If we did, are we still at the start of the input?
  ++ [.computeEffectiveAddress (.BaseIndex .input_end_pointer .current_position .TimesOne 0) .temp0,
      .cmpPtrMemReg (.Address .StackPointer m.layout.FrameData_inputStart) .temp0]
  ++ BranchOrBacktrack .NotEqual on_not_at_start

/-- `ReadCurrentPositionFromRegister(reg)`. -/
def ReadCurrentPositionFromRegister (m : Assembler) (reg : Nat) : List Instr :=
  [.loadPtr (m.register_location reg) .current_position]

/-- `WriteCurrentPositionToRegister(reg, cp_offset)`. -/
def WriteCurrentPositionToRegister (m : Assembler) (reg : Nat) (cp_offset : Int) : List Instr :=
  if cp_offset = 0 then
    [.storePtr .current_position (m.register_location reg)]
  else
    [.computeEffectiveAddress (.Address .current_position (cp_offset * char_size m.mode_)) .temp0,
     .storePtr .temp0 (m.register_location reg)]

/-- `SetCurrentPositionFromEnd(by)`; `after_position` is a local label. -/
def SetCurrentPositionFromEnd (m : Assembler) (by_ : Int) : Except Unreachable (List Instr) :=
  let after_position : Label := .loc 4
  (LoadCurrentCharacterUnchecked m (-1) 1).map fun load =>
    [.cmpPtr .current_position (-by_ * char_size m.mode_),
     .j .GreaterThanOrEqual after_position,
     .movImmWord (-by_ * char_size m.mode_) .current_position]
    -- On RegExp code entry (where this operation is used), the character before
    -- the current position is expected to be already loaded.
    -- We have advanced the position, so it's safe to read backwards.
    ++ load
    ++ [.bind after_position]

/-- `Succeed()`: the emitted jump; the value returned is `global()`. -/
def Succeed : List Instr :=
  [.jump .success_label_]

/-- `Fail()`. -/
def Fail (m : Assembler) : List Instr :=
  (if !m.global then [.movImmWord m.layout.RegExpRunStatus_Success_NotFound .temp0] else [])
  ++ [.jump .exit_label_]

/-! ## The rest of `GenerateCode` -/

/-- The label an instruction refers to as a branch or call target. -/
def Instr.target? : Instr → Option Label
  | .j _ l => some l
  | .jump l => some l
  | .call l => some l
  | .branchTest32 _ _ _ l => some l
  | .branch32 _ _ _ l => some l
  | .branch32Imm _ _ _ l => some l
  | .branchPtr _ _ _ l => some l
  | .branchPtrMem _ _ _ l => some l
  | .movWithPatch l _ => some l
  | _ => none

/-- `label.used()`: some emitted instruction refers to the label. -/
def used (l : Label) (code : List Instr) : Bool :=
  code.any fun i => decide (i.target? = some l)

/-- Whether the code binds the label. -/
def binds (l : Label) (code : List Instr) : Bool :=
  code.any fun i => match i with
    | .bind l' => decide (l' = l)
    | _ => false

/-- `for (int i = frameSize - sizeof(void *); i >= 0; i -= kPageSize) body(i)` at emission
time, `n` being the number of rounds left to emit. -/
def emitPageTouch (m : Assembler) : Nat → Nat → List Instr
  | 0, _ => []
  | n + 1, i => .storePtr .temp0 (.Address .StackPointer i) ::
      (if 4096 ≤ i then emitPageTouch m n (i - 4096) else [])

/-- `GenerateCode`, from the binding of `entry_label_` to the loading of the
`InputOutputData*`: saving of registers, frame reservation, native stack check. -/
def GenerateCode_entry (m : Assembler) : List Instr :=
  [.bind .entry_label_]
  -- Push non-volatile registers which might be modified by jitcode.
  ++ m.savedNonVolatileRegisters.map .Push
  -- The InputOutputData* is stored as an argument, save it on the stack
  -- above the frame.
  ++ (if m.arch ≠ .x86 then [.Push .IntArgReg0] else [])
  -- Actually emit code to start a new stack frame.
  ++ [.reserveStack m.frameSize,
      .checkStackAlignment,
      -- Check if we have space on the stack.
      .branchPtrMem .Below (.AbsoluteAddress .jitStackLimit) .StackPointer .stack_ok,
      -- Exit with an exception. There is not enough space on the stack
      -- for our working registers.
      .movImmWord m.layout.RegExpRunStatus_Error .temp0,
      .jump .return_temp0,
      .bind .stack_ok]
  -- Ensure that we write to each stack page, in order. Skipping a page
  -- on Windows can cause segmentation faults. Assuming page size is 4k.
  ++ (if m.XP_WIN ∧ m.arch.ptrBytes ≤ m.frameSize then
        emitPageTouch m (m.frameSize / 4096 + 1) (m.frameSize - m.arch.ptrBytes)
      else [])
  ++ [.loadPtr m.inputOutputAddress .temp0]

/-- `GenerateCode`, "Copy output registers to FrameData"; `matchPairsRegister` is
`input_end_pointer`. -/
def GenerateCode_outputRegisters (m : Assembler) : List Instr :=
  let matchPairsRegister := Reg.input_end_pointer
  [.loadPtr (.Address .temp0 m.layout.InputOutputData_matches) matchPairsRegister,
   .loadPtr (.Address matchPairsRegister m.layout.MatchPairs_pairs) .temp1,
   .storePtr .temp1 (.Address .StackPointer m.layout.FrameData_outputRegisters),
   .load32 (.Address matchPairsRegister m.layout.MatchPairs_pairCount) .temp1,
   .lshiftPtr 1 .temp1,
   .store32 .temp1 (.Address .StackPointer m.layout.FrameData_numOutputRegisters)]
  ++ (if m.DEBUG then
        -- Bounds check numOutputRegisters.
        [.cmpPtr .temp1 m.num_saved_registers_,
         .j .GreaterThanOrEqual .enoughRegisters,
         .assumeUnreachable "Not enough output registers for RegExp",
         .bind .enoughRegisters]
      else [])

/-- `GenerateCode`, the choice of the initial current character, the initialisation of the
saved registers and of the backtrack stack pointer, and the jump to the body.  The
character load is the code of `LoadCurrentCharacterUnchecked(-1, 1)`. -/
def GenerateCode_start (m : Assembler) (load : List Instr) : List Instr :=
  -- Load newline if index is at start, previous character otherwise.
  [.cmpPtrMem (.Address .StackPointer m.layout.FrameData_startIndex) 0,
   .j .NotEqual .load_char_start_regexp,
   .movImmWord '\n'.toNat .current_character,
   .jump .start_regexp,
   -- Global regexp restarts matching here.
   .bind .load_char_start_regexp]
  -- Load previous char as initial value of current character register.
  ++ load
  ++ [.bind .start_regexp]
  -- Fill saved registers with initial value = start offset - 1
  -- Fill in stack push order, to avoid accessing across an unwritten
  -- page (a problem on Windows).
  ++ (if m.num_saved_registers_ > 8 then
        [.movImmWord (m.register_offset 0) .temp1,
         .bind .init_loop,
         .storePtr .temp0 (.BaseIndex .StackPointer .temp1 .TimesOne 0),
         .addPtrImm m.arch.ptrBytes .temp1,
         .cmpPtr .temp1 (m.register_offset m.num_saved_registers_),
         .j .LessThan .init_loop]
      else
        -- Unroll the loop.
        emitFor m.num_saved_registers_ (fun i => [.storePtr .temp0 (m.register_location i)]))
  -- Initialize backtrack stack pointer.
  ++ [.loadPtr (.AbsoluteAddress .regexpStack_base) .backtrack_stack_pointer,
      .storePtr .backtrack_stack_pointer
        (.Address .StackPointer m.layout.FrameData_backtrackStackBase),
      .jump .start_label_]

/-- `GenerateCode`, success path in global mode, once the capture set is recorded and room
remains: the special case for zero-length matches and the jump that restarts matching. -/
def GenerateCode_zero_length (m : Assembler) : List Instr :=
  (if m.global_with_zero_length_check then
     -- Special case for zero-length matches.
     -- The capture start index was loaded into current_character above.
     [.branchPtr .NotEqual .current_position .current_character .load_char_start_regexp,
      -- edi (offset from the end) is zero if we already reached the end.
      .testPtr .current_position .current_position,
      .j .Zero .exit_label_,
      -- Advance current position after a zero-length match.
      .addPtrImm (char_size m.mode_) .current_position]
   else [])
  ++ [.jump .load_char_start_regexp]

/-- `GenerateCode`, success path after the captures are saved: "Restart matching if the
regular expression is flagged as global", otherwise the success status. -/
def GenerateCode_restart (m : Assembler) : List Instr :=
  let outputRegistersAddress : Operand := .Address .StackPointer m.layout.FrameData_outputRegisters
  let numOutputRegistersAddress : Operand :=
    .Address .StackPointer m.layout.FrameData_numOutputRegisters
  if m.global then
    -- Increment success counter.
    [.add32ImmMem 1 (.Address .StackPointer m.layout.FrameData_successfulCaptures),
     -- Capture results have been stored, so the number of remaining global
     -- output registers is reduced by the number of stored captures.
     .load32 numOutputRegistersAddress .temp0,
     .sub32 m.num_saved_registers_ .temp0,
     -- Check whether we have enough room for another set of capture results.
     .branch32Imm .LessThan .temp0 m.num_saved_registers_ .exit_label_,
     .store32 .temp0 numOutputRegistersAddress,
     -- Advance the location for output.
     .add32ImmMem (m.num_saved_registers_ * m.arch.ptrBytes : Nat) outputRegistersAddress,
     -- Prepare temp0 to initialize registers with its value in the next run.
     .loadPtr (.Address .StackPointer m.layout.FrameData_inputStartMinusOne) .temp0]
    ++ GenerateCode_zero_length m
  else
    [.movImmWord m.layout.RegExpRunStatus_Success .temp0]

/-- `GenerateCode`, from the binding of `exit_label_` to the return. -/
def GenerateCode_exit (m : Assembler) : List Instr :=
  [.bind .exit_label_]
  ++ (if m.global then
        -- Return the number of successful captures.
        [.load32 (.Address .StackPointer m.layout.FrameData_successfulCaptures) .temp0]
      else [])
  ++ [.bind .return_temp0,
      -- Store the result to the input structure.
      .loadPtr m.inputOutputAddress .temp1,
      .storePtr .temp0 (.Address .temp1 m.layout.InputOutputData_result),
      -- Include the InputOutputData* when adjusting the stack size.
      (if m.arch ≠ .x86 then .freeStack (m.frameSize + m.arch.ptrBytes)
       else .freeStack m.frameSize)]
  -- Restore non-volatile registers which were saved on entry.
  ++ m.savedNonVolatileRegisters.reverse.map .Pop
  ++ [.abiret]

/-- `GenerateCode`, "If any of the code above needed to exit with an exception". -/
def GenerateCode_exception (m : Assembler) : List Instr :=
  [.bind .exit_with_exception_label_,
   -- Exit with an error result to signal thrown exception.
   .movImmWord m.layout.RegExpRunStatus_Error .temp0,
   .jump .return_temp0]

/-- The code buffer after `GenerateCode`: the two instructions the constructor emits, the
body emitted by the regexp compiler, and the code `GenerateCode` adds; or the unreachable
trap hit by the character load in ASCII mode. -/
def GenerateCode (m : Assembler) (body : List Instr) : Except Unreachable (List Instr) :=
  (LoadCurrentCharacterUnchecked m (-1) 1).map fun load =>
    let code0 := [.jump .entry_label_, .bind .start_label_] ++ body
    let code1 := code0 ++ GenerateCode_entry m ++ GenerateCode_outputRegisters m
      ++ GenerateCode_positions m ++ GenerateCode_start m load
    -- Exit code:
    let code2 := code1 ++
      (if used .success_label_ code1 then
        -- Save captures when successful.
        [.bind .success_label_] ++ GenerateCode_captures m ++ GenerateCode_restart m
       else [])
      ++ GenerateCode_exit m
    -- Backtrack code (branch target for conditional backtracks).
    let code3 := code2 ++
      (if used .backtrack_label_ code2 then [.bind .backtrack_label_] ++ Backtrack m else [])
    -- Backtrack stack overflow code.
    let code4 := code3 ++
      (if used .stack_overflow_label_ code3 then GenerateCode_stack_overflow m else [])
    code4 ++ (if used .exit_with_exception_label_ code4 then GenerateCode_exception m else [])

/-- Whether control left the piece by a call to label `l`. -/
def Res.calledTo (r : Res) (l : Label) : Bool :=
  match r with
  | .called l' _ _ => decide (l' = l)
  | _ => false

/-- Execution of a whole code buffer: a branch to a label bound in the buffer continues
at that label, a call runs the callee up to its return and then resumes the caller, a
jump through a register continues at the label whose address the register holds.  Each
of these costs one unit of `fuel`. -/
def run (env : Env) (code : List Instr) (labelAt : Nat → Option Label) : Nat → Res → Res
  | 0, _ => .timeout
  | fuel + 1, r =>
      match r with
      | .next (some l) s =>
          if binds l code then run env code labelAt fuel (exec env code (some l) s) else r
      | .called t s resume =>
          if binds t code then
            match run env code labelAt fuel (exec env code (some t) s) with
            | .ret s' => run env code labelAt fuel (resume s')
            | r' => r'
          else r
      | .jumped a s =>
          match labelAt a with
          | some l => run env code labelAt fuel (exec env code (some l) s)
          | none => r
      | r => r


/-- A state for `sampleEnv` with the backtrack stack pointer at `bsp`, `temp0` holding
`t0`, the arena limit field holding 0xA0000, and register 0 of the frame at 0x7000 holding
zero. -/
def sampleLimitState (bsp t0 : Nat) : State :=
  cellsState (fun r => if r = .StackPointer then 0x7000 else
      if r = .backtrack_stack_pointer then bsp else if r = .temp0 then t0 else 0)
    [(0x3008, 0xA0000), (0x7038, 0)]


/-! ## Label patches -/

/-- Modelled from the spec: a `LabelPatch` record of the header: the label that a
patchable move refers to (cleared once the label is bound), the bound offset of that
label (zero in a new record), and the offset of the move. -/
structure LabelPatch where
  label : Option Label
  labelOffset : Nat
  patchOffset : Nat
  deriving DecidableEq, Repr

/-- The emitter while the body is emitted: the instructions emitted so far and the vector
`labelPatches`.  The offset of a place in the buffer is the number of instructions
emitted before it. -/
structure Emitter where
  code : List Instr
  labelPatches : List LabelPatch

/-- `PushBacktrack(Label *label)`. -/
def Emitter.PushBacktrackLabel (m : Assembler) (e : Emitter) (label : Label) : Emitter :=
  let patchOffset := e.code.length
  { code := e.code ++ [.movWithPatch label .temp0] ++ PushBacktrack m .temp0
      ++ CheckBacktrackStackLimit,
    labelPatches := e.labelPatches ++ [⟨some label, 0, patchOffset⟩] }

/-- The loop of `BindBacktrack` over `labelPatches`, `offset` being `label->offset()`. -/
def BindBacktrack_loop (label : Label) (offset : Nat) : List LabelPatch → List LabelPatch
  | [] => []
  | v :: rest =>
      if v.label = some label then
        -- v.labelOffset = label->offset(); v.label = nullptr; break;
        { v with labelOffset := offset, label := none } :: rest
      else v :: BindBacktrack_loop label offset rest

/-- `BindBacktrack(label)`. -/
def Emitter.BindBacktrack (e : Emitter) (label : Label) : Emitter :=
  { code := e.code ++ [.bind label],
    labelPatches := BindBacktrack_loop label e.code.length e.labelPatches }

/-- `GenerateCode`, the loop over `labelPatches` after linking: the pairs (patch offset,
value written there), `raw` being `code->raw()`; `JS_ASSERT` is checked in `DEBUG` builds.
Modelled from the spec: `actualOffset` and `fixup` leave offsets as they are. -/
def GenerateCode_patches (m : Assembler) (raw : Nat) :
    List LabelPatch → Except Unreachable (List (Nat × Nat))
  | [] => .ok []
  | v :: rest =>
      if m.DEBUG = true ∧ v.label ≠ none then .error ⟨"JS_ASSERT(!v.label)"⟩
      else (GenerateCode_patches m raw rest).map fun l => (v.patchOffset, raw + v.labelOffset) :: l

/-! ## Whole-routine samples -/

/-- The assembler `sampleAsm` in global mode with the zero-length check. -/
def sampleGlobalAsm : Assembler := { sampleAsm with global_mode_ := .GLOBAL }

/-- A state at the call of the routine generated for `sampleGlobalAsm`: the stack pointer
at 0x7060, so that the frame is at 0x7000 with `FrameData.successfulCaptures` at 0x7030
holding `stale` from earlier use of the stack; the `InputOutputData` at 0x6000 describes
the 16-bit input "aaa" at 0x4000 with start index 0 and a `MatchPairs` at 0x6100 with room
for four pairs at 0x8000; the backtrack arena runs from 0x5000 to 0xA0000 and the native
stack limit is 0x100. -/
def sampleEntryState (stale : Nat) : State :=
  cellsState (fun r => if r = .StackPointer then 0x7060 else if r = .IntArgReg0 then 0x6000 else 0)
    [(0x6000, 0x4000), (0x6008, 0x4006), (0x6010, 0), (0x6018, 0x6100),
     (0x6100, 4), (0x6108, 0x8000),
     (0x3000, 0x5000), (0x3008, 0xA0000), (0x3010, 0x100),
     (0x4000, 0x006100610061), (0x7030, stale)]

/-- A body that behaves as the greedy `a*` with capture 0 around it: record the start,
consume `a` while there is one, record the end, succeed. -/
def sampleStarBody (m : Assembler) : Except Unreachable (List Instr) :=
  let loop : Label := .user 1
  let done : Label := .user 2
  (LoadCurrentCharacter m 0 (some done) true 1).map fun load =>
    WriteCurrentPositionToRegister m 0 0
    ++ [.bind loop]
    ++ load
    ++ CheckNotCharacter 'a'.toNat (some done)
    ++ AdvanceCurrentPosition m 1
    ++ JumpOrBacktrack m (some loop)
    ++ [.bind done]
    ++ WriteCurrentPositionToRegister m 1 0
    ++ Succeed

/-- The machine state with which the piece returned to its caller, if it did. -/
def Res.returned? : Res → Option State
  | .ret s => some s
  | _ => none

/-! ## Back references -/

/-- `CheckNotBackReference`, "Find length of back-referenced capture". -/
def CheckNotBackReference_length (m : Assembler) (start_reg : Nat) : List Instr :=
  [.loadPtr (m.register_location start_reg) .current_character,
   .loadPtr (m.register_location (start_reg + 1)) .temp0,
   -- Length to check.
   .subPtr .current_character .temp0]

/-- `CheckNotBackReference`, from the test of the length to the computation of the end of
the match; `fallthrough` is a local label. -/
def CheckNotBackReference_setup (on_no_match : Option Label) : List Instr :=
  let fallthrough : Label := .loc 5
  [.cmpPtr .temp0 0]
  -- Fail on partial or illegal capture (start of capture after end of capture).
  ++ BranchOrBacktrack .LessThan on_no_match
  -- Succeed on empty capture (including no capture).
  ++ [.j .Equal fallthrough,
      -- Check that there are sufficient characters left in the input.
      .mov .current_position .temp1,
      .addPtr .temp0 .temp1,
      .cmpPtr .temp1 0]
  ++ BranchOrBacktrack .GreaterThan on_no_match
  -- Save register to make it available below.
  ++ [.push .backtrack_stack_pointer,
      -- Compute pointers to match string and capture string
      -- Start of match.
      .computeEffectiveAddress (.BaseIndex .input_end_pointer .current_position .TimesOne 0) .temp1,
      -- Start of capture.
      .addPtr .input_end_pointer .current_character,
      -- End of match.
      .computeEffectiveAddress (.BaseIndex .temp0 .temp1 .TimesOne 0) .backtrack_stack_pointer]

/-- `CheckNotBackReference` in 16-bit mode, from the instruction after the binding of
`loop` to the end; `fallthrough`, `success`, `fail` and `loop` are local labels. -/
def CheckNotBackReference_compare (m : Assembler) (on_no_match : Option Label) : List Instr :=
  let fallthrough : Label := .loc 5
  let success : Label := .loc 6
  let fail : Label := .loc 7
  let loop : Label := .loc 8
  [.load16ZeroExtend (.Address .current_character 0) .temp0,
   .load16ZeroExtend (.Address .temp1 0) .temp2,
   .branch32 .NotEqual .temp0 .temp2 fail,
   -- Increment pointers into capture and match string.
   .addPtrImm (char_size m.mode_) .current_character,
   .addPtrImm (char_size m.mode_) .temp1,
   -- Check if we have reached end of match area.
   .branchPtr .Below .temp1 .backtrack_stack_pointer loop,
   .jump success,
   .bind fail,
   -- Restore backtrack stack pointer.
   .pop .backtrack_stack_pointer]
  ++ JumpOrBacktrack m on_no_match
  ++ [.bind success,
      -- Move current character position to position after match.
      .mov .backtrack_stack_pointer .current_position,
      .subPtr .input_end_pointer .current_position,
      -- Restore backtrack stack pointer.
      .pop .backtrack_stack_pointer,
      .bind fallthrough]

/-- `CheckNotBackReference(start_reg, on_no_match)`. -/
def CheckNotBackReference (m : Assembler) (start_reg : Nat) (on_no_match : Option Label) :
    Except Unreachable (List Instr) :=
  let loop : Label := .loc 8
  if m.mode_ = .ASCII then .error ⟨"Ascii loading not implemented"⟩
  else
    .ok (CheckNotBackReference_length m start_reg ++ CheckNotBackReference_setup on_no_match
      ++ [.bind loop] ++ CheckNotBackReference_compare m on_no_match)

/-- Whether the `n` 16-bit units at address `a` equal those at address `b`. -/
def sameUnits (mem : Nat → Nat) (a b : Nat) : Nat → Bool
  | 0 => true
  | n + 1 => decide (loadBytes mem a 2 = loadBytes mem b 2) && sameUnits mem (a + 2) (b + 2) n

/-- A state in the body for `sampleAsm`: the input "aaa" at 0x4000, the position at the
second character (offset -4), capture 0 recorded as the first character (from offset -6
to offset -4), the frame at 0x7000 and the backtrack stack pointer at 0x5000. -/
def sampleBackRefState : State :=
  cellsState (fun r => if r = .StackPointer then 0x7000 else
      if r = .input_end_pointer then 0x4006 else
      if r = .current_position then 2 ^ 64 - 4 else
      if r = .backtrack_stack_pointer then 0x5000 else 0)
    [(0x7038, 2 ^ 64 - 6), (0x7040, 2 ^ 64 - 4), (0x4000, 0x006100610061)]

/-! ## Character tests, greedy loops and case-independent back references -/

/-- The `frameSize` of `GenerateCode` as a function of the unrounded size
`sizeof(FrameData) + num_registers_ * sizeof(void *)`, of `masm.framePushed()` and of
`StackAlignment`. -/
def GenerateCode_frameSize (unrounded framePushed StackAlignment : Nat) : Nat :=
  JS_ROUNDUP (unrounded + framePushed) StackAlignment - framePushed

/-- `CheckCharacterGT(c, on_greater)`. -/
def CheckCharacterGT (c : Nat) (on_greater : Option Label) : List Instr :=
  [.cmp32 .current_character c] ++ BranchOrBacktrack .GreaterThan on_greater

/-- `CheckCharacterLT(c, on_less)`. -/
def CheckCharacterLT (c : Nat) (on_less : Option Label) : List Instr :=
  [.cmp32 .current_character c] ++ BranchOrBacktrack .LessThan on_less

/-- `CheckCharacterAfterAnd`, the sequence emitted when `c != 0`. -/
def CheckCharacterAfterAnd_general (c and_with : Nat) (on_equal : Option Label) : List Instr :=
  [.movImmWord and_with .temp0,
   .and32 .current_character .temp0,
   .cmp32 .temp0 c]
  ++ BranchOrBacktrack .Equal on_equal

/-- `CheckCharacterAfterAnd(c, and_with, on_equal)`. -/
def CheckCharacterAfterAnd (c and_with : Nat) (on_equal : Option Label) : List Instr :=
  if c = 0 then
    [.test32Imm .current_character and_with] ++ BranchOrBacktrack .Zero on_equal
  else CheckCharacterAfterAnd_general c and_with on_equal

/-- `CheckNotCharacterAfterAnd`, the sequence emitted when `c != 0`. -/
def CheckNotCharacterAfterAnd_general (c and_with : Nat) (on_not_equal : Option Label) :
    List Instr :=
  [.movImmWord and_with .temp0,
   .and32 .current_character .temp0,
   .cmp32 .temp0 c]
  ++ BranchOrBacktrack .NotEqual on_not_equal

/-- `CheckNotCharacterAfterAnd(c, and_with, on_not_equal)`. -/
def CheckNotCharacterAfterAnd (c and_with : Nat) (on_not_equal : Option Label) : List Instr :=
  if c = 0 then
    [.test32Imm .current_character and_with] ++ BranchOrBacktrack .NonZero on_not_equal
  else CheckNotCharacterAfterAnd_general c and_with on_not_equal

/-- `CheckNotCharacterAfterMinusAnd(c, minus, and_with, on_not_equal)`. -/
def CheckNotCharacterAfterMinusAnd (c minus and_with : Nat) (on_not_equal : Option Label) :
    List Instr :=
  [.computeEffectiveAddress (.Address .current_character (-(minus : Int))) .temp0]
  ++ (if c = 0 then
        [.test32Imm .temp0 and_with] ++ BranchOrBacktrack .NonZero on_not_equal
      else
        [.and32Imm and_with .temp0,
         .cmp32 .temp0 c]
        ++ BranchOrBacktrack .NotEqual on_not_equal)

/-- `CheckGreedyLoop(on_tos_equals_current_position)`; `fallthrough` is a local label. -/
def CheckGreedyLoop (m : Assembler) (on_tos_equals_current_position : Option Label) :
    List Instr :=
  let fallthrough : Label := .loc 9
  [.cmpPtrMemReg (.Address .backtrack_stack_pointer (-(m.arch.ptrBytes : Int))) .current_position,
   .j .NotEqual fallthrough,
   -- Pop.
   .subPtrImm m.arch.ptrBytes .backtrack_stack_pointer]
  ++ JumpOrBacktrack m on_tos_equals_current_position
  ++ [.bind fallthrough]

/-- `CheckNotBackReferenceIgnoreCase(start_reg, on_no_match)`; `fallthrough` is a local
label. -/
def CheckNotBackReferenceIgnoreCase (m : Assembler) (start_reg : Nat)
    (on_no_match : Option Label) : Except Unreachable (List Instr) :=
  let fallthrough : Label := .loc 10
  let volatileRegs : RegSet := (RegSet.Volatile.takeUnchecked .temp0).takeUnchecked .temp2
  if m.mode_ = .ASCII then .error ⟨"Ascii case not implemented"⟩
  else
    .ok (
      -- Index of start of capture
      [.loadPtr (m.register_location start_reg) .current_character,
       -- Index of end of capture
       .loadPtr (m.register_location (start_reg + 1)) .temp1,
       -- Length of capture.
       .subPtr .current_character .temp1,
       .cmpPtr .temp1 0]
      -- The length of a capture should not be negative. This can only happen
      -- if the end of the capture is unrecorded, or at a point earlier than
      -- the start of the capture.
      ++ BranchOrBacktrack .LessThan on_no_match
      -- If length is zero, either the capture is empty or it is completely
      -- uncaptured. In either case succeed immediately.
      ++ [.j .Equal fallthrough,
          -- Check that there are sufficient characters left in the input.
          .mov .current_position .temp0,
          .addPtr .temp1 .temp0,
          .cmpPtr .temp0 0]
      ++ BranchOrBacktrack .GreaterThan on_no_match
      -- Note: temp1 needs to be saved/restored if it is volatile, as it is used after the call.
      ++ [.PushRegsInMask volatileRegs,
          -- Set byte_offset1.
          -- Start of capture, where current_character already holds string-end negative offset.
          .addPtr .input_end_pointer .current_character,
          -- Set byte_offset2.
          -- Found by adding negative string-end offset of current position
          -- to end of string.
          .addPtr .input_end_pointer .current_position,
          -- Parameters are
          --   Address byte_offset1 - Address captured substring's start.
          --   Address byte_offset2 - Address of current character position.
          --   size_t byte_length - length of capture in bytes(!)
          .setupUnalignedABICall 3 .temp0,
          .passABIArg .current_character,
          .passABIArg .current_position,
          .passABIArg .temp1,
          .callWithABI .CaseInsensitiveCompareStrings,
          .storeCallResult .temp0,
          .PopRegsInMask volatileRegs,
          -- Check if function returned non-zero for success or zero for failure.
          .test32 .temp0 .temp0]
      ++ BranchOrBacktrack .Zero on_no_match
      -- On success, increment position by length of capture.
      ++ [.addPtr .temp1 .current_position,
          .bind fallthrough])

/-- Modelled from the spec: `kTableSize` of the header, the number of entries of the
tables handed to `CheckBitInTable`. -/
def kTableSize : Nat := 128

/-- `CheckBitInTable(table, on_bit_set)`, `table` being the address of the table.  The
source asserts `mode_ != ASCII`. -/
def CheckBitInTable (table : Nat) (on_bit_set : Option Label) : List Instr :=
  [.movImmPtrValue table .temp0,
   .movImmWord (kTableSize - 1 : Nat) .temp1,
   .and32 .current_character .temp1,
   .load8ZeroExtend (.BaseIndex .temp0 .temp1 .TimesOne 0) .temp0,
   .test32 .temp0 .temp0]
  ++ BranchOrBacktrack .NotEqual on_bit_set

/-- The state `sampleSuccessState` with room for eight output registers in
`FrameData.numOutputRegisters`. -/
def sampleRoomState : State :=
  cellsState (fun r => if r = .StackPointer then 0x7000 else 0)
    [(0x7010, 0x8000), (0x7018, 8), (0x7048, 0x6000), (0x6000, 0x4000), (0x6008, 0x4006),
     (0x7038, 2 ^ 64 - 6), (0x7040, 2 ^ 64 - 4)]


/-! ## Initialisation of the saved registers -/

/-- `GenerateCode`, "Fill saved registers with initial value = start offset - 1": the loop
emitted for more than eight saved registers. -/
def GenerateCode_init_loop (m : Assembler) : List Instr :=
  [.movImmWord (m.register_offset 0) .temp1,
   .bind .init_loop,
   .storePtr .temp0 (.BaseIndex .StackPointer .temp1 .TimesOne 0),
   .addPtrImm m.arch.ptrBytes .temp1,
   .cmpPtr .temp1 (m.register_offset m.num_saved_registers_),
   .j .LessThan .init_loop]

/-- `GenerateCode`, "Unroll the loop": one store for each saved register. -/
def GenerateCode_init_unrolled (m : Assembler) : List Instr :=
  emitFor m.num_saved_registers_ (fun i => [.storePtr .temp0 (m.register_location i)])

/-- `GenerateCode`, the initialisation of the saved registers as it is emitted. -/
def GenerateCode_init (m : Assembler) : List Instr :=
  if m.num_saved_registers_ > 8 then GenerateCode_init_loop m else GenerateCode_init_unrolled m

/-- Memory in which the `k` slots of `P` bytes from `base` upwards were written with `v`,
lowest address first. -/
def fillSlots (mem : Nat → Nat) (base P v : Nat) : Nat → Nat → Nat
  | 0 => mem
  | k + 1 => storeBytes (fillSlots mem base P v k) (base + k * P) P v

/-- The trace after these `k` writes. -/
def fillTrace (tr : List Access) (base P : Nat) : Nat → List Access
  | 0 => tr
  | k + 1 => ⟨true, base + k * P, P⟩ :: fillTrace tr base P k


/-- The content of `FrameData.numOutputRegisters`, an int32 field of the frame at
`StackPointer`. -/
def State.numOutputRegisters (s : State) (m : Assembler) : Nat :=
  loadBytes s.mem (s.reg .StackPointer + m.layout.FrameData_numOutputRegisters) 4


/-- The state at the `i`-th entry to the restart code of `sampleGlobalAsm` in a run that
started with room for eight output registers: the frame at 0x7000, a match that is not
empty (capture start -6, position -4). -/
def sampleRestartState (i : Nat) : State :=
  cellsState (fun r => if r = .StackPointer then 0x7000 else
      if r = .current_character then 2 ^ 64 - 6 else
      if r = .current_position then 2 ^ 64 - 4 else 0)
    [(0x7010, 0x8000 + 16 * i), (0x7018, 8 - 2 * i), (0x7030, i)]


/-- A state at the success label for `sampleGlobalAsm`: the frame at 0x7000 with
`outputRegisters = 0x8000`, room for eight output registers and the `InputOutputData*`
0x6000 saved above the frame; the input is the six bytes from 0x4000 to 0x4006; register 0
(the capture start) holds `start`, and register 1 and `current_position` hold `pos`. -/
def sampleMatchState (start pos : Nat) : State :=
  cellsState (fun r => if r = .StackPointer then 0x7000 else
      if r = .current_position then pos else 0)
    [(0x7010, 0x8000), (0x7018, 8), (0x7048, 0x6000), (0x6000, 0x4000), (0x6008, 0x4006),
     (0x7038, start), (0x7040, pos)]


/-- Modelled from the spec: the fields of `FrameData` in the order the spec lists them
(`inputStart, startIndex, outputRegisters, numOutputRegisters, inputStartMinusOne,
backtrackStackBase, successfulCaptures`), each inside the `sizeof(FrameData)` bytes and
none overlapping the next; the pointer-sized fields take `P` bytes, the `int32_t` fields
four. -/
def Layout.frameDataFits (L : Layout) (P : Nat) : Bool :=
  decide (L.FrameData_inputStart + P ≤ L.FrameData_startIndex) &&
  decide (L.FrameData_startIndex + P ≤ L.FrameData_outputRegisters) &&
  decide (L.FrameData_outputRegisters + P ≤ L.FrameData_numOutputRegisters) &&
  decide (L.FrameData_numOutputRegisters + 4 ≤ L.FrameData_inputStartMinusOne) &&
  decide (L.FrameData_inputStartMinusOne + P ≤ L.FrameData_backtrackStackBase) &&
  decide (L.FrameData_backtrackStackBase + P ≤ L.FrameData_successfulCaptures) &&
  decide (L.FrameData_successfulCaptures + 4 ≤ L.sizeof_FrameData)


section Basics

variable (s : State) (r r' : Reg) (v a n : Nat) (f : Option Flags)

@[simp] theorem setReg_reg : (s.setReg r v).reg r' = if r' = r then v else s.reg r' := rfl
@[simp] theorem setReg_flags : (s.setReg r v).flags = s.flags := rfl
@[simp] theorem setReg_mem : (s.setReg r v).mem = s.mem := rfl
@[simp] theorem setReg_trace : (s.setReg r v).trace = s.trace := rfl
@[simp] theorem setReg_saved : (s.setReg r v).saved = s.saved := rfl
@[simp] theorem setReg_retReg : (s.setReg r v).retReg = s.retReg := rfl
@[simp] theorem setReg_calls : (s.setReg r v).calls = s.calls := rfl
@[simp] theorem setFlags_reg : (s.setFlags f).reg = s.reg := rfl
@[simp] theorem setFlags_flags : (s.setFlags f).flags = f := rfl
@[simp] theorem setFlags_mem : (s.setFlags f).mem = s.mem := rfl
@[simp] theorem setFlags_trace : (s.setFlags f).trace = s.trace := rfl
@[simp] theorem setFlags_saved : (s.setFlags f).saved = s.saved := rfl
@[simp] theorem setFlags_retReg : (s.setFlags f).retReg = s.retReg := rfl
@[simp] theorem setFlags_calls : (s.setFlags f).calls = s.calls := rfl
@[simp] theorem logRead_reg : (s.logRead a n).reg = s.reg := rfl
@[simp] theorem logRead_flags : (s.logRead a n).flags = s.flags := rfl
@[simp] theorem logRead_mem : (s.logRead a n).mem = s.mem := rfl
@[simp] theorem logRead_trace : (s.logRead a n).trace = ⟨false, a, n⟩ :: s.trace := rfl
@[simp] theorem logRead_saved : (s.logRead a n).saved = s.saved := rfl
@[simp] theorem logRead_retReg : (s.logRead a n).retReg = s.retReg := rfl
@[simp] theorem logRead_calls : (s.logRead a n).calls = s.calls := rfl
@[simp] theorem store_reg : (s.store a n v).reg = s.reg := rfl
@[simp] theorem store_flags : (s.store a n v).flags = s.flags := rfl
@[simp] theorem store_mem : (s.store a n v).mem = storeBytes s.mem a n v := rfl
@[simp] theorem store_trace : (s.store a n v).trace = ⟨true, a, n⟩ :: s.trace := rfl
@[simp] theorem store_saved : (s.store a n v).saved = s.saved := rfl
@[simp] theorem store_retReg : (s.store a n v).retReg = s.retReg := rfl
@[simp] theorem store_calls : (s.store a n v).calls = s.calls := rfl

@[simp] theorem pushRegs_reg : s.pushRegs.reg = s.reg := rfl
@[simp] theorem pushRegs_flags : s.pushRegs.flags = s.flags := rfl
@[simp] theorem pushRegs_mem : s.pushRegs.mem = s.mem := rfl
@[simp] theorem pushRegs_trace : s.pushRegs.trace = s.trace := rfl
@[simp] theorem pushRegs_saved : s.pushRegs.saved = s.reg :: s.saved := rfl
@[simp] theorem pushRegs_retReg : s.pushRegs.retReg = s.retReg := rfl
@[simp] theorem pushRegs_calls : s.pushRegs.calls = s.calls := rfl

variable (sel : Reg → Bool) (old : Reg → Nat) (rest : List (Reg → Nat)) (env : Env)

@[simp] theorem popRegs_reg :
    (s.popRegs sel old rest).reg r = if sel r = true then old r else s.reg r := rfl
@[simp] theorem popRegs_flags : (s.popRegs sel old rest).flags = s.flags := rfl
@[simp] theorem popRegs_mem : (s.popRegs sel old rest).mem = s.mem := rfl
@[simp] theorem popRegs_trace : (s.popRegs sel old rest).trace = s.trace := rfl
@[simp] theorem popRegs_saved : (s.popRegs sel old rest).saved = rest := rfl
@[simp] theorem popRegs_retReg : (s.popRegs sel old rest).retReg = s.retReg := rfl
@[simp] theorem popRegs_calls : (s.popRegs sel old rest).calls = s.calls := rfl

@[simp] theorem afterCall_reg :
    (s.afterCall env).reg r =
      if r ≠ Reg.StackPointer ∧ (env.volatile r = true ∨ r = Reg.lr)
      then (env.grow s.calls).junk r % 2 ^ env.arch.ptrBits else s.reg r := rfl
@[simp] theorem afterCall_flags : (s.afterCall env).flags = none := rfl
@[simp] theorem afterCall_mem :
    (s.afterCall env).mem =
      storeBytes
        (storeBytes s.mem (env.symAddr .regexpStack_limit) env.arch.ptrBytes (env.grow s.calls).limit)
        (env.symAddr .regexpStack_base) env.arch.ptrBytes (env.grow s.calls).base := rfl
@[simp] theorem afterCall_trace : (s.afterCall env).trace = s.trace := rfl
@[simp] theorem afterCall_saved : (s.afterCall env).saved = s.saved := rfl
@[simp] theorem afterCall_retReg :
    (s.afterCall env).retReg = (env.grow s.calls).ret % 2 ^ env.arch.ptrBits := rfl
@[simp] theorem afterCall_calls : (s.afterCall env).calls = s.calls + 1 := rfl

@[simp] theorem afterCompare_reg :
    (s.afterCompare env).reg r =
      if r ≠ Reg.StackPointer ∧ (env.volatile r = true ∨ r = Reg.lr)
      then (env.grow s.calls).junk r % 2 ^ env.arch.ptrBits else s.reg r := rfl
@[simp] theorem afterCompare_flags : (s.afterCompare env).flags = none := rfl
@[simp] theorem afterCompare_mem : (s.afterCompare env).mem = s.mem := rfl
@[simp] theorem afterCompare_trace : (s.afterCompare env).trace = s.trace := rfl
@[simp] theorem afterCompare_saved : (s.afterCompare env).saved = s.saved := rfl
@[simp] theorem afterCompare_retReg :
    (s.afterCompare env).retReg = (env.grow s.calls).ret % 2 ^ env.arch.ptrBits := rfl
@[simp] theorem afterCompare_calls : (s.afterCompare env).calls = s.calls + 1 := rfl

end Basics

section Sequencing

variable (k : Option Label → State → Res)

@[simp] theorem andThen_next (p : Option Label) (s : State) : (Res.next p s).andThen k = k p s := rfl
@[simp] theorem andThen_ret (s : State) : (Res.ret s).andThen k = .ret s := rfl
@[simp] theorem andThen_fault : Res.fault.andThen k = .fault := rfl
@[simp] theorem andThen_called (t : Label) (s : State) (resume : State → Res) :
    (Res.called t s resume).andThen k = .called t s (fun s' => (resume s').andThen k) := rfl
@[simp] theorem andThen_jumped (a : Nat) (s : State) :
    (Res.jumped a s).andThen k = .jumped a s := rfl
@[simp] theorem andThen_timeout : Res.timeout.andThen k = .timeout := rfl

@[simp] theorem andThen_ite (c : Prop) [Decidable c] (x y : Res) :
    (if c then x else y).andThen k = if c then x.andThen k else y.andThen k := by
  split <;> rfl

@[simp] theorem branchedTo_ite (c : Prop) [Decidable c] (x y : Res) (l : Label) :
    (if c then x else y).branchedTo l = if c then x.branchedTo l else y.branchedTo l := by
  split <;> rfl

@[simp] theorem fellThrough_ite (c : Prop) [Decidable c] (x y : Res) :
    (if c then x else y).fellThrough = if c then x.fellThrough else y.fellThrough := by
  split <;> rfl

@[simp] theorem branchedTo_next_some (l l' : Label) (s : State) :
    (Res.next (some l') s).branchedTo l = decide (l' = l) := rfl
@[simp] theorem branchedTo_next_none (l : Label) (s : State) :
    (Res.next none s).branchedTo l = false := rfl
@[simp] theorem fellThrough_next_some (l' : Label) (s : State) :
    (Res.next (some l') s).fellThrough = false := rfl
@[simp] theorem fellThrough_next_none (s : State) : (Res.next none s).fellThrough = true := rfl

/-- A null label stands for the backtrack label. -/
theorem BranchOrBacktrack_eq (c : Cond) (lbl : Option Label) :
    BranchOrBacktrack c lbl = [.j c (lbl.getD .backtrack_label_)] := by
  cases lbl <;> rfl

end Sequencing

/-- Exclusive-or with one flips the lowest bit. -/
theorem xor_one_eq (n : Nat) : n ^^^ 1 = if n % 2 = 0 then n + 1 else n - 1 := by
  have h := Nat.xor_bit (Nat.bodd n) (Nat.div2 n) true 0
  rw [Nat.bit_decomp] at h
  have h1 : Nat.bit true 0 = 1 := by simp [Nat.bit]
  rw [h1] at h
  rw [h]
  have h3 := Nat.mod_two_of_bodd n
  have h4 := Nat.div2_val n
  cases hb : Nat.bodd n <;> simp [hb, Nat.bit_val] at h3 ⊢ <;> simp [h3] <;> omega

set_option maxRecDepth 100000 in
/-- The table entries are bytes, nonzero exactly at the word characters. -/
theorem word_character_map_nonzero_iff :
    ∀ i : Fin 256, word_character_map.getD i.val 0 < 256 ∧
      (word_character_map.getD i.val 0 ≠ 0 ↔ isWordCode i.val) := by
  decide

/-- The sample memory holds the table at the address the sample environment gives it. -/
theorem sampleState_MapLoaded (c : Nat) : MapLoaded sampleEnv (sampleState c) := by
  refine ⟨by decide, fun i => ?_⟩
  have hi := i.isLt
  have h1 : 0x1000 ≤ 0x1000 + i.val ∧ 0x1000 + i.val < 0x1100 := by omega
  simp only [sampleState, sampleEnv, h1, and_self, if_true, Nat.add_sub_cancel_left]

/-- C1: for 16-bit `from ≤ to` and every 32-bit `current_character`, the code of
`CheckCharacterInRange(from, to, L)` branches to `L` exactly when
`from ≤ current_character ≤ to` and falls through otherwise, and the code of
`CheckCharacterNotInRange(from, to, L)` branches to `L` exactly when
`current_character` is outside `[from, to]` and falls through otherwise. -/
theorem CheckCharacterInRange_branches_iff (env : Env) (from_ to_ : Nat) (lbl : Option Label)
    (s : State) (hft : from_ ≤ to_) (hto : to_ < 2 ^ 16)
    (hcc : s.reg .current_character < 2 ^ 32) :
    ((exec env (CheckCharacterInRange from_ to_ lbl) none s).branchedTo
        (lbl.getD .backtrack_label_) = true ↔
      (from_ ≤ s.reg .current_character ∧ s.reg .current_character ≤ to_)) ∧
    ((exec env (CheckCharacterInRange from_ to_ lbl) none s).fellThrough = true ↔
      ¬ (from_ ≤ s.reg .current_character ∧ s.reg .current_character ≤ to_)) ∧
    ((exec env (CheckCharacterNotInRange from_ to_ lbl) none s).branchedTo
        (lbl.getD .backtrack_label_) = true ↔
      ¬ (from_ ≤ s.reg .current_character ∧ s.reg .current_character ≤ to_)) ∧
    ((exec env (CheckCharacterNotInRange from_ to_ lbl) none s).fellThrough = true ↔
      (from_ ≤ s.reg .current_character ∧ s.reg .current_character ≤ to_)) := by
  generalize hc : s.reg .current_character = c at hcc
  rcases harch : env.arch with _ | _ | _ <;>
    simp [CheckCharacterInRange, CheckCharacterNotInRange, BranchOrBacktrack_eq, exec, step,
      evalCond, ea, hc, wrap, harch, Arch.ptrBits, Arch.ptrBytes] <;>
    refine ⟨?_, ?_, ?_, ?_⟩ <;> omega

/-- C1, evaluated: the digit range `'0'..'9'` on the character `'5'`. -/
theorem CheckCharacterInRange_branches_iff_witness :
    (48 ≤ 57 ∧ 57 < 2 ^ 16 ∧ (sampleState 53).reg .current_character < 2 ^ 32) ∧
    (exec sampleEnv (CheckCharacterInRange 48 57 none) none (sampleState 53)).branchedTo
      .backtrack_label_ = true :=
  ⟨by decide,
   (CheckCharacterInRange_branches_iff sampleEnv 48 57 none (sampleState 53)
      (by decide) (by decide) (by decide)).1.mpr (by decide)⟩

/-- Address of the table entry read by the `'w'` and `'W'` cases: `temp0` holds the
address of the table and `current_character` the index. -/
theorem ea_wordmap (env : Env) (s : State)
    (h0 : s.reg .temp0 = env.symAddr .word_character_map % 2 ^ env.arch.ptrBits)
    (hc : s.reg .current_character < 256)
    (hb : env.symAddr .word_character_map + 256 ≤ 2 ^ env.arch.ptrBits) :
    ea env s (.BaseIndex .temp0 .current_character .TimesOne 0)
      = env.symAddr .word_character_map + s.reg .current_character := by
  have h1 : env.symAddr .word_character_map % 2 ^ env.arch.ptrBits
      = env.symAddr .word_character_map := Nat.mod_eq_of_lt (by omega)
  simp only [ea, h0, h1, Scale.mult, wrap]
  have h2 : ((env.symAddr .word_character_map : Int) + (s.reg .current_character : Int) * (1 : Nat) + 0)
      = ((env.symAddr .word_character_map + s.reg .current_character : Nat) : Int) := by
    push_cast; ring
  rw [h2]
  have h3 : ((2 : Int) ^ env.arch.ptrBits) = ((2 ^ env.arch.ptrBits : Nat) : Int) := by
    push_cast; rfl
  rw [h3, ← Int.natCast_mod, Int.toNat_natCast]
  exact Nat.mod_eq_of_lt (by omega)

/-- The `'.'` class in 16-bit mode branches exactly on the four line terminators. -/
theorem exec_class_dot (env : Env) (lbl : Option Label) (s : State)
    (hcc : s.reg .current_character < 2 ^ 32) :
    ∃ code, CheckSpecialCharacterClass .JSCHAR '.'.toNat lbl = .ok (true, code) ∧
      ((exec env code none s).branchedTo (lbl.getD .backtrack_label_) = true ↔
        isNewlineCode (s.reg .current_character)) ∧
      ((exec env code none s).fellThrough = true ↔
        ¬ isNewlineCode (s.reg .current_character)) := by
  refine ⟨_, by simp [CheckSpecialCharacterClass]; rfl, ?_⟩
  generalize hc : s.reg .current_character = c at hcc
  simp [BranchOrBacktrack_eq, exec, step, evalCond, hc, wrap, xor_one_eq, isNewlineCode]
  constructor <;> split_ifs <;> omega

/-- The `'n'` class in 16-bit mode falls through exactly on the four line terminators. -/
theorem exec_class_n (env : Env) (lbl : Option Label) (s : State)
    (hcc : s.reg .current_character < 2 ^ 32)
    (hl : (lbl.getD .backtrack_label_).isLocal = false) :
    ∃ code, CheckSpecialCharacterClass .JSCHAR 'n'.toNat lbl = .ok (true, code) ∧
      ((exec env code none s).branchedTo (lbl.getD .backtrack_label_) = true ↔
        ¬ isNewlineCode (s.reg .current_character)) ∧
      ((exec env code none s).fellThrough = true ↔
        isNewlineCode (s.reg .current_character)) := by
  refine ⟨_, by simp [CheckSpecialCharacterClass]; rfl, ?_⟩
  generalize hc : s.reg .current_character = c at hcc
  simp only [BranchOrBacktrack_eq]
  generalize lbl.getD .backtrack_label_ = l at hl
  have hne : ¬ (Label.loc 0 = l) := by rintro rfl; simp [Label.isLocal] at hl
  simp [Option.getD, exec, step, evalCond, hc, wrap, xor_one_eq, isNewlineCode, hne]
  constructor <;> split_ifs <;> omega

/-- The `'d'` class branches exactly on the characters outside `'0'..'9'`. -/
theorem exec_class_d (env : Env) (lbl : Option Label) (s : State)
    (hcc : s.reg .current_character < 2 ^ 32) :
    ∃ code, CheckSpecialCharacterClass .JSCHAR 'd'.toNat lbl = .ok (true, code) ∧
      ((exec env code none s).branchedTo (lbl.getD .backtrack_label_) = true ↔
        ¬ ('0'.toNat ≤ s.reg .current_character ∧ s.reg .current_character ≤ '9'.toNat)) ∧
      ((exec env code none s).fellThrough = true ↔
        ('0'.toNat ≤ s.reg .current_character ∧ s.reg .current_character ≤ '9'.toNat)) := by
  refine ⟨_, by simp [CheckSpecialCharacterClass]; rfl, ?_⟩
  generalize hc : s.reg .current_character = c at hcc
  rcases harch : env.arch with _ | _ | _ <;>
    simp [BranchOrBacktrack_eq, exec, step, evalCond, ea, hc, wrap, harch, Arch.ptrBits,
      Arch.ptrBytes] <;>
    constructor <;> omega

/-- The `'D'` class branches exactly on the characters `'0'..'9'`. -/
theorem exec_class_D (env : Env) (lbl : Option Label) (s : State)
    (hcc : s.reg .current_character < 2 ^ 32) :
    ∃ code, CheckSpecialCharacterClass .JSCHAR 'D'.toNat lbl = .ok (true, code) ∧
      ((exec env code none s).branchedTo (lbl.getD .backtrack_label_) = true ↔
        ('0'.toNat ≤ s.reg .current_character ∧ s.reg .current_character ≤ '9'.toNat)) ∧
      ((exec env code none s).fellThrough = true ↔
        ¬ ('0'.toNat ≤ s.reg .current_character ∧ s.reg .current_character ≤ '9'.toNat)) := by
  refine ⟨_, by simp [CheckSpecialCharacterClass]; rfl, ?_⟩
  generalize hc : s.reg .current_character = c at hcc
  rcases harch : env.arch with _ | _ | _ <;>
    simp [BranchOrBacktrack_eq, exec, step, evalCond, ea, hc, wrap, harch, Arch.ptrBits,
      Arch.ptrBytes] <;>
    constructor <;> omega

/-- The `'w'` class in 16-bit mode: the code of
`CheckSpecialCharacterClass('w', L)` falls through exactly when the character is in
`'0'..'9'`, `'A'..'Z'`, `'_'` or `'a'..'z'` and otherwise branches to `L`; the only memory
access it can make is the read of one table byte at an index that is at most `'z'`. -/
theorem exec_class_w (env : Env) (lbl : Option Label) (s : State)
    (hmap : MapLoaded env s) (hcc : s.reg .current_character < 2 ^ 32) :
    ∃ code, CheckSpecialCharacterClass .JSCHAR 'w'.toNat lbl = .ok (true, code) ∧
      ((exec env code none s).fellThrough = true ↔ isWordCode (s.reg .current_character)) ∧
      ((exec env code none s).branchedTo (lbl.getD .backtrack_label_) = true ↔
        ¬ isWordCode (s.reg .current_character)) ∧
      ∃ s', (exec env code none s).state? = some s' ∧
        (s'.trace = s.trace ∨
         (s.reg .current_character ≤ 'z'.toNat ∧
          s'.trace = ⟨false, env.symAddr .word_character_map + s.reg .current_character, 1⟩
            :: s.trace)) := by
  refine ⟨_, by simp [CheckSpecialCharacterClass]; rfl, ?_⟩
  generalize hc : s.reg .current_character = c at hcc
  by_cases hz : c ≤ 122
  · have hm := hmap.2 ⟨c, by omega⟩
    have hw := word_character_map_nonzero_iff ⟨c, by omega⟩
    simp only at hm hw
    have hlt : c % 4294967296 = c := Nat.mod_eq_of_lt (by omega)
    have hnz : ¬ (122 < c) := by omega
    have h256 : c < 256 := by omega
    have hlt2 : ∀ x : Nat, x % 256 % 4294967296 = x % 256 := fun x => Nat.mod_eq_of_lt (by omega)
    generalize word_character_map.getD c 0 = t at hm hw
    have ht : t % 256 = t := Nat.mod_eq_of_lt hw.1
    have ht32 : t % 4294967296 = t := Nat.mod_eq_of_lt (by omega)
    simp only [BranchOrBacktrack_eq, exec, step, andThen_next, andThen_ite, setFlags_flags,
      setReg_flags, logRead_flags, hc, evalCond, wrap, loadBytes, setReg_reg, setFlags_reg,
      logRead_reg, logRead_mem, setReg_mem, setFlags_mem]
    simp [hc, hlt, hnz, ea_wordmap, hmap.1, h256, hm, hlt2, ht]
    by_cases h0 : t = 0
    · have hnw : ¬ isWordCode c := fun h => (hw.2.mpr h) h0
      simp [h0, hnw, Res.state?, hz]
    · have hnw : isWordCode c := hw.2.mp h0
      simp [h0, hnw, Res.state?, hz, ht32]
  · have hlt : c % 4294967296 = c := Nat.mod_eq_of_lt (by omega)
    have hnz : (122 < c) := by omega
    have hnw : ¬ isWordCode c := by simp [isWordCode]; omega
    simp [BranchOrBacktrack_eq, exec, step, evalCond, ea, hc, wrap, hlt, hnz, hnw, Res.state?]

/-- The `'W'` class in 16-bit mode branches exactly on the word characters. -/
theorem exec_class_W (env : Env) (lbl : Option Label) (s : State)
    (hmap : MapLoaded env s) (hcc : s.reg .current_character < 2 ^ 32)
    (hl : (lbl.getD .backtrack_label_).isLocal = false) :
    ∃ code, CheckSpecialCharacterClass .JSCHAR 'W'.toNat lbl = .ok (true, code) ∧
      ((exec env code none s).branchedTo (lbl.getD .backtrack_label_) = true ↔
        isWordCode (s.reg .current_character)) ∧
      ((exec env code none s).fellThrough = true ↔
        ¬ isWordCode (s.reg .current_character)) := by
  refine ⟨_, by simp [CheckSpecialCharacterClass]; rfl, ?_⟩
  generalize hc : s.reg .current_character = c at hcc
  simp only [BranchOrBacktrack_eq]
  generalize lbl.getD .backtrack_label_ = l at hl
  have hne : ¬ (Label.loc 0 = l) := by rintro rfl; simp [Label.isLocal] at hl
  by_cases hz : c ≤ 122
  · have hm := hmap.2 ⟨c, by omega⟩
    have hw := word_character_map_nonzero_iff ⟨c, by omega⟩
    simp only at hm hw
    have hlt : c % 4294967296 = c := Nat.mod_eq_of_lt (by omega)
    have hnz : ¬ (122 < c) := by omega
    have h256 : c < 256 := by omega
    have hlt2 : ∀ x : Nat, x % 256 % 4294967296 = x % 256 := fun x => Nat.mod_eq_of_lt (by omega)
    generalize word_character_map.getD c 0 = t at hm hw
    have ht : t % 256 = t := Nat.mod_eq_of_lt hw.1
    have ht32 : t % 4294967296 = t := Nat.mod_eq_of_lt (by omega)
    simp only [BranchOrBacktrack_eq, exec, step, andThen_next, andThen_ite, setFlags_flags,
      setReg_flags, logRead_flags, hc, evalCond, wrap, loadBytes, setReg_reg, setFlags_reg,
      logRead_reg, logRead_mem, setReg_mem, setFlags_mem]
    simp [hc, hlt, hnz, ea_wordmap, hmap.1, h256, hm, hlt2, ht]
    by_cases h0 : t = 0
    · have hnw : ¬ isWordCode c := fun h => (hw.2.mpr h) h0
      simp [h0, hnw, hne]
    · have hnw : isWordCode c := hw.2.mp h0
      simp [h0, hnw, ht32, hne]
  · have hlt : c % 4294967296 = c := Nat.mod_eq_of_lt (by omega)
    have hnz : (122 < c) := by omega
    have hnw : ¬ isWordCode c := by simp [isWordCode]; omega
    simp [BranchOrBacktrack_eq, exec, step, evalCond, ea, hc, wrap, hlt, hnz, hnw]

/-- C2: in 16-bit mode, for every 32-bit `current_character`, the code of
`CheckSpecialCharacterClass('.', L)` branches to `L` exactly when the character is one of
0x0a, 0x0d, 0x2028, 0x2029, and falls through otherwise. -/
theorem CheckSpecialCharacterClass_dot (env : Env) (lbl : Option Label) (s : State)
    (hcc : s.reg .current_character < 2 ^ 32) :
    ∃ code, CheckSpecialCharacterClass .JSCHAR '.'.toNat lbl = .ok (true, code) ∧
      ((exec env code none s).branchedTo (lbl.getD .backtrack_label_) = true ↔
        isNewlineCode (s.reg .current_character)) ∧
      ((exec env code none s).fellThrough = true ↔
        ¬ isNewlineCode (s.reg .current_character)) :=
  exec_class_dot env lbl s hcc

/-- C2, evaluated: the line separator 0x2028 is refused. -/
theorem CheckSpecialCharacterClass_dot_witness :
    (sampleState 0x2028).reg .current_character < 2 ^ 32 ∧
    ∃ code, CheckSpecialCharacterClass .JSCHAR '.'.toNat none = .ok (true, code) ∧
      ((exec sampleEnv code none (sampleState 0x2028)).branchedTo
          ((none : Option Label).getD .backtrack_label_) = true ↔
        isNewlineCode ((sampleState 0x2028).reg .current_character)) ∧
      ((exec sampleEnv code none (sampleState 0x2028)).fellThrough = true ↔
        ¬ isNewlineCode ((sampleState 0x2028).reg .current_character)) :=
  ⟨by decide, CheckSpecialCharacterClass_dot sampleEnv none (sampleState 0x2028) (by decide)⟩

/-- C3: in 16-bit mode, for every 32-bit `current_character`, the code of
`CheckSpecialCharacterClass('w', L)` falls through exactly when the character is in
`'0'..'9'`, `'A'..'Z'`, `'_'` or `'a'..'z'` and otherwise branches to `L`; the only memory
access it can make is the read of one table byte at an index that is at most `'z'`. -/
theorem CheckSpecialCharacterClass_w (env : Env) (lbl : Option Label) (s : State)
    (hmap : MapLoaded env s) (hcc : s.reg .current_character < 2 ^ 32) :
    ∃ code, CheckSpecialCharacterClass .JSCHAR 'w'.toNat lbl = .ok (true, code) ∧
      ((exec env code none s).fellThrough = true ↔ isWordCode (s.reg .current_character)) ∧
      ((exec env code none s).branchedTo (lbl.getD .backtrack_label_) = true ↔
        ¬ isWordCode (s.reg .current_character)) ∧
      ∃ s', (exec env code none s).state? = some s' ∧
        (s'.trace = s.trace ∨
         (s.reg .current_character ≤ 'z'.toNat ∧
          s'.trace = ⟨false, env.symAddr .word_character_map + s.reg .current_character, 1⟩
            :: s.trace)) :=
  exec_class_w env lbl s hmap hcc

/-- C3, evaluated: the underscore is a word character. -/
theorem CheckSpecialCharacterClass_w_witness :
    (MapLoaded sampleEnv (sampleState 95) ∧ (sampleState 95).reg .current_character < 2 ^ 32) ∧
    ∃ code, CheckSpecialCharacterClass .JSCHAR 'w'.toNat none = .ok (true, code) ∧
      ((exec sampleEnv code none (sampleState 95)).fellThrough = true ↔
        isWordCode ((sampleState 95).reg .current_character)) ∧
      ((exec sampleEnv code none (sampleState 95)).branchedTo
          ((none : Option Label).getD .backtrack_label_) = true ↔
        ¬ isWordCode ((sampleState 95).reg .current_character)) ∧
      ∃ s', (exec sampleEnv code none (sampleState 95)).state? = some s' ∧
        (s'.trace = (sampleState 95).trace ∨
         ((sampleState 95).reg .current_character ≤ 'z'.toNat ∧
          s'.trace = ⟨false, sampleEnv.symAddr .word_character_map
              + (sampleState 95).reg .current_character, 1⟩ :: (sampleState 95).trace)) :=
  ⟨⟨sampleState_MapLoaded 95, by decide⟩,
   CheckSpecialCharacterClass_w sampleEnv none (sampleState 95) (sampleState_MapLoaded 95)
     (by decide)⟩

/-- C4: in 16-bit mode the class pairs are exact complements: for every 32-bit
`current_character`, `'n'` branches to its no-match label exactly when `'.'` does not,
`'D'` exactly when `'d'` does not, and `'W'` exactly when `'w'` does not; each of the six
pieces of code either branches to that label or falls through. -/
theorem CheckSpecialCharacterClass_complements (env : Env) (lbl : Option Label) (s : State)
    (hmap : MapLoaded env s) (hcc : s.reg .current_character < 2 ^ 32)
    (hl : (lbl.getD .backtrack_label_).isLocal = false) :
    ∃ cdot cn cd cD cw cW,
      CheckSpecialCharacterClass .JSCHAR '.'.toNat lbl = .ok (true, cdot) ∧
      CheckSpecialCharacterClass .JSCHAR 'n'.toNat lbl = .ok (true, cn) ∧
      CheckSpecialCharacterClass .JSCHAR 'd'.toNat lbl = .ok (true, cd) ∧
      CheckSpecialCharacterClass .JSCHAR 'D'.toNat lbl = .ok (true, cD) ∧
      CheckSpecialCharacterClass .JSCHAR 'w'.toNat lbl = .ok (true, cw) ∧
      CheckSpecialCharacterClass .JSCHAR 'W'.toNat lbl = .ok (true, cW) ∧
      ((exec env cn none s).branchedTo (lbl.getD .backtrack_label_) = true ↔
        ¬ (exec env cdot none s).branchedTo (lbl.getD .backtrack_label_) = true) ∧
      ((exec env cD none s).branchedTo (lbl.getD .backtrack_label_) = true ↔
        ¬ (exec env cd none s).branchedTo (lbl.getD .backtrack_label_) = true) ∧
      ((exec env cW none s).branchedTo (lbl.getD .backtrack_label_) = true ↔
        ¬ (exec env cw none s).branchedTo (lbl.getD .backtrack_label_) = true) ∧
      ((exec env cn none s).fellThrough = true ↔
        ¬ (exec env cn none s).branchedTo (lbl.getD .backtrack_label_) = true) ∧
      ((exec env cdot none s).fellThrough = true ↔
        ¬ (exec env cdot none s).branchedTo (lbl.getD .backtrack_label_) = true) ∧
      ((exec env cD none s).fellThrough = true ↔
        ¬ (exec env cD none s).branchedTo (lbl.getD .backtrack_label_) = true) ∧
      ((exec env cd none s).fellThrough = true ↔
        ¬ (exec env cd none s).branchedTo (lbl.getD .backtrack_label_) = true) ∧
      ((exec env cW none s).fellThrough = true ↔
        ¬ (exec env cW none s).branchedTo (lbl.getD .backtrack_label_) = true) ∧
      ((exec env cw none s).fellThrough = true ↔
        ¬ (exec env cw none s).branchedTo (lbl.getD .backtrack_label_) = true) := by
  obtain ⟨cdot, e1, b1, f1⟩ := exec_class_dot env lbl s hcc
  obtain ⟨cn, e2, b2, f2⟩ := exec_class_n env lbl s hcc hl
  obtain ⟨cd, e3, b3, f3⟩ := exec_class_d env lbl s hcc
  obtain ⟨cD, e4, b4, f4⟩ := exec_class_D env lbl s hcc
  obtain ⟨cw, e5, f5, b5, -⟩ := exec_class_w env lbl s hmap hcc
  obtain ⟨cW, e6, b6, f6⟩ := exec_class_W env lbl s hmap hcc hl
  exact ⟨cdot, cn, cd, cD, cw, cW, e1, e2, e3, e4, e5, e6,
    by rw [b2, b1], by rw [b4, b3]; exact not_not.symm, by rw [b6, b5]; exact not_not.symm,
    by rw [f2, b2]; exact not_not.symm, by rw [f1, b1], by rw [f4, b4],
    by rw [f3, b3]; exact not_not.symm, by rw [f6, b6], by rw [f5, b5]; exact not_not.symm⟩

/-- C4, evaluated: on a line feed `'n'` matches and `'.'` refuses. -/
theorem CheckSpecialCharacterClass_complements_witness :
    (MapLoaded sampleEnv (sampleState 10) ∧ (sampleState 10).reg .current_character < 2 ^ 32 ∧
      ((none : Option Label).getD .backtrack_label_).isLocal = false) ∧
    ∃ cdot cn cd cD cw cW,
      CheckSpecialCharacterClass .JSCHAR '.'.toNat none = .ok (true, cdot) ∧
      CheckSpecialCharacterClass .JSCHAR 'n'.toNat none = .ok (true, cn) ∧
      CheckSpecialCharacterClass .JSCHAR 'd'.toNat none = .ok (true, cd) ∧
      CheckSpecialCharacterClass .JSCHAR 'D'.toNat none = .ok (true, cD) ∧
      CheckSpecialCharacterClass .JSCHAR 'w'.toNat none = .ok (true, cw) ∧
      CheckSpecialCharacterClass .JSCHAR 'W'.toNat none = .ok (true, cW) ∧
      ((exec sampleEnv cn none (sampleState 10)).branchedTo
          ((none : Option Label).getD .backtrack_label_) = true ↔
        ¬ (exec sampleEnv cdot none (sampleState 10)).branchedTo
          ((none : Option Label).getD .backtrack_label_) = true) ∧
      ((exec sampleEnv cD none (sampleState 10)).branchedTo
          ((none : Option Label).getD .backtrack_label_) = true ↔
        ¬ (exec sampleEnv cd none (sampleState 10)).branchedTo
          ((none : Option Label).getD .backtrack_label_) = true) ∧
      ((exec sampleEnv cW none (sampleState 10)).branchedTo
          ((none : Option Label).getD .backtrack_label_) = true ↔
        ¬ (exec sampleEnv cw none (sampleState 10)).branchedTo
          ((none : Option Label).getD .backtrack_label_) = true) ∧
      ((exec sampleEnv cn none (sampleState 10)).fellThrough = true ↔
        ¬ (exec sampleEnv cn none (sampleState 10)).branchedTo
          ((none : Option Label).getD .backtrack_label_) = true) ∧
      ((exec sampleEnv cdot none (sampleState 10)).fellThrough = true ↔
        ¬ (exec sampleEnv cdot none (sampleState 10)).branchedTo
          ((none : Option Label).getD .backtrack_label_) = true) ∧
      ((exec sampleEnv cD none (sampleState 10)).fellThrough = true ↔
        ¬ (exec sampleEnv cD none (sampleState 10)).branchedTo
          ((none : Option Label).getD .backtrack_label_) = true) ∧
      ((exec sampleEnv cd none (sampleState 10)).fellThrough = true ↔
        ¬ (exec sampleEnv cd none (sampleState 10)).branchedTo
          ((none : Option Label).getD .backtrack_label_) = true) ∧
      ((exec sampleEnv cW none (sampleState 10)).fellThrough = true ↔
        ¬ (exec sampleEnv cW none (sampleState 10)).branchedTo
          ((none : Option Label).getD .backtrack_label_) = true) ∧
      ((exec sampleEnv cw none (sampleState 10)).fellThrough = true ↔
        ¬ (exec sampleEnv cw none (sampleState 10)).branchedTo
          ((none : Option Label).getD .backtrack_label_) = true) :=
  ⟨⟨sampleState_MapLoaded 10, by decide, by decide⟩,
   CheckSpecialCharacterClass_complements sampleEnv none (sampleState 10)
     (sampleState_MapLoaded 10) (by decide) (by decide)⟩

set_option maxRecDepth 10000 in
/-- C5: `word_character_map` has exactly 256 entries; for every index below 256 the entry
is nonzero exactly when the index is the code of `'0'..'9'`, `'A'..'Z'`, `'_'` or
`'a'..'z'`; every entry at an index from 128 on is zero. -/
theorem word_character_map_contents :
    word_character_map.length = 256 ∧
    (∀ i : Fin 256, word_character_map.getD i.val 0 ≠ 0 ↔ isWordCode i.val) ∧
    (∀ j : Fin 128, word_character_map.getD (128 + j.val) 0 = 0) := by
  refine ⟨rfl, fun i => (word_character_map_nonzero_iff i).2, fun j => ?_⟩
  have hj := j.isLt
  have h := (word_character_map_nonzero_iff ⟨128 + j.val, by omega⟩).2
  simp only at h
  by_contra hne
  have hw := h.mp hne
  simp [isWordCode] at hw
  omega

/-- C6 as stated fails: for the kind `'*'` the function returns true and emits nothing. -/
theorem CheckSpecialCharacterClass_star_emits_nothing :
    CheckSpecialCharacterClass .JSCHAR '*'.toNat none = .ok (true, []) :=
  rfl

/-- C6, amended: in 16-bit mode `CheckSpecialCharacterClass` returns true exactly for the
kinds `'d'`, `'D'`, `'.'`, `'w'`, `'W'`, `'*'` and `'n'` and false for every other kind, and
it emits at least one instruction exactly for `'d'`, `'D'`, `'.'`, `'w'`, `'W'` and `'n'`:
for `'*'` it returns true without emitting code. -/
theorem CheckSpecialCharacterClass_returns (type : Nat) (lbl : Option Label) :
    ∃ code, CheckSpecialCharacterClass .JSCHAR type lbl =
        .ok (decide (type ∈ ['d'.toNat, 'D'.toNat, '.'.toNat, 'w'.toNat, 'W'.toNat, '*'.toNat,
                              'n'.toNat]), code) ∧
      (0 < code.length ↔
        type ∈ ['d'.toNat, 'D'.toNat, '.'.toNat, 'w'.toNat, 'W'.toNat, 'n'.toNat]) := by
  by_cases hs : type = 's'.toNat
  · subst hs; exact ⟨_, rfl, by simp⟩
  by_cases hS : type = 'S'.toNat
  · subst hS; exact ⟨_, rfl, by simp⟩
  by_cases hd : type = 'd'.toNat
  · subst hd; exact ⟨_, rfl, by simp⟩
  by_cases hD : type = 'D'.toNat
  · subst hD; exact ⟨_, rfl, by simp⟩
  by_cases hdot : type = '.'.toNat
  · subst hdot; exact ⟨_, rfl, by simp⟩
  by_cases hw : type = 'w'.toNat
  · subst hw; exact ⟨_, rfl, by simp⟩
  by_cases hW : type = 'W'.toNat
  · subst hW; exact ⟨_, rfl, by simp⟩
  by_cases hstar : type = '*'.toNat
  · subst hstar; exact ⟨_, rfl, by simp⟩
  by_cases hn : type = 'n'.toNat
  · subst hn; exact ⟨_, rfl, by simp⟩
  · refine ⟨[], ?_, ?_⟩
    · simp only [CheckSpecialCharacterClass, hs, hS, hd, hD, hdot, hw, hW, hstar, hn, if_false]
      simp only [List.mem_cons, List.mem_singleton, hd, hD, hdot, hw, hW, hstar, hn, or_self,
        decide_False, List.not_mem_nil]
    · simp only [List.mem_cons, List.mem_singleton, hd, hD, hdot, hw, hW, hn, or_self,
        List.length_nil, lt_self_iff_false, List.not_mem_nil]

/-! ### Memory and sequencing lemmas -/

/-- A pointer is `ptrBytes` bytes wide. -/
theorem pow_ptrBytes (a : Arch) : 256 ^ a.ptrBytes = 2 ^ a.ptrBits := by
  cases a <;> decide

/-- Reading `n` bytes inside the range of a write returns the matching bytes of the value. -/
theorem loadBytes_storeBytes_within (m : Nat → Nat) (a N v : Nat) :
    ∀ n j, j + n ≤ N → loadBytes (storeBytes m a N v) (a + j) n = (v / 256 ^ j) % 256 ^ n := by
  intro n
  induction n with
  | zero => intro j _; simp [loadBytes, Nat.mod_one]
  | succ n ih =>
    intro j hj
    have h1 : a ≤ a + j ∧ a + j < a + N := by omega
    have h2 := ih (j + 1) (by omega)
    rw [← Nat.add_assoc] at h2
    simp only [loadBytes, h2]
    simp only [storeBytes, h1, and_self, if_true, Nat.add_sub_cancel_left, Nat.mod_mod]
    rw [pow_succ 256 n, Nat.mul_comm (256 ^ n) 256, Nat.mod_mul, pow_succ 256 j,
      Nat.div_div_eq_div_mul]

/-- Reading back what was just written. -/
theorem loadBytes_storeBytes_same (m : Nat → Nat) (a n v : Nat) :
    loadBytes (storeBytes m a n v) a n = v % 256 ^ n := by
  have h := loadBytes_storeBytes_within m a n v n 0 (by omega)
  simpa using h

/-- A read only depends on the bytes it covers. -/
theorem loadBytes_congr (m m' : Nat → Nat) :
    ∀ n a, (∀ x, a ≤ x → x < a + n → m x = m' x) → loadBytes m a n = loadBytes m' a n := by
  intro n
  induction n with
  | zero => intro a _; rfl
  | succ n ih =>
    intro a h
    simp only [loadBytes]
    rw [h a (by omega) (by omega), ih (a + 1) (fun x h1 h2 => h x (by omega) (by omega))]

/-- A write does not change a read of a disjoint range. -/
theorem loadBytes_storeBytes_disjoint (m : Nat → Nat) (a n b k v : Nat)
    (h : a + n ≤ b ∨ b + k ≤ a) :
    loadBytes (storeBytes m b k v) a n = loadBytes m a n := by
  apply loadBytes_congr
  intro x h1 h2
  have h3 : ¬ (b ≤ x ∧ x < b + k) := by omega
  simp only [storeBytes, h3, if_false]

/-- A read of `n` bytes is below `256 ^ n`. -/
theorem loadBytes_lt (m : Nat → Nat) : ∀ n a, loadBytes m a n < 256 ^ n := by
  intro n
  induction n with
  | zero => intro a; simp [loadBytes]
  | succ n ih =>
    intro a
    have h1 := ih (a + 1)
    have h2 : m a % 256 < 256 := Nat.mod_lt _ (by decide)
    simp only [loadBytes, pow_succ]
    omega

/-- Sequencing is associative. -/
theorem andThen_assoc (r : Res) (k1 k2 : Option Label → State → Res) :
    (r.andThen k1).andThen k2 = r.andThen (fun p s => (k1 p s).andThen k2) := by
  induction r with
  | called t s resume ih => simp only [andThen_called, ih]
  | _ => rfl

/-- Running two pieces of code one after the other. -/
theorem exec_append (env : Env) (c1 c2 : List Instr) :
    ∀ (p : Option Label) (s : State),
      exec env (c1 ++ c2) p s = (exec env c1 p s).andThen (fun p' s' => exec env c2 p' s') := by
  induction c1 with
  | nil => intro p s; rfl
  | cons i rest ih =>
    intro p s
    cases p with
    | none =>
      simp only [List.cons_append, exec, andThen_assoc]
      congr 1
      funext p' s'
      exact ih p' s'
    | some l =>
      cases i <;> simp only [List.cons_append, exec] <;>
        first
          | exact ih _ _
          | (split <;> exact ih _ _)

/-- A wrapped value fits the word. -/
theorem wrap_lt (bits : Nat) (v : Int) : wrap bits v < 2 ^ bits := by
  unfold wrap
  have h0 : (0 : Int) < (2 : Int) ^ bits := by positivity
  have h1 := Int.emod_lt_of_pos v h0
  have h2 := Int.emod_nonneg v (ne_of_gt h0)
  have h3 : ((2 : Int) ^ bits) = ((2 ^ bits : Nat) : Int) := by push_cast; rfl
  omega

/-- Wrapping twice is wrapping once. -/
theorem wrap_mod (bits : Nat) (v : Int) : wrap bits v % 2 ^ bits = wrap bits v :=
  Nat.mod_eq_of_lt (wrap_lt bits v)

/-- Wrapping is additive up to wrapping. -/
theorem wrap_add_wrap (bits : Nat) (a : Int) (b : Nat) :
    (wrap bits a + b) % 2 ^ bits = wrap bits (b + a) := by
  unfold wrap
  have h0 : (0 : Int) < (2 : Int) ^ bits := by positivity
  have h2 := Int.emod_nonneg a (ne_of_gt h0)
  have h3 : ((2 : Int) ^ bits) = ((2 ^ bits : Nat) : Int) := by push_cast; rfl
  apply Int.ofNat.inj
  simp only [Int.ofNat_eq_coe, Int.natCast_mod, Int.natCast_add]
  rw [Int.toNat_of_nonneg h2, Int.toNat_of_nonneg (Int.emod_nonneg _ (ne_of_gt h0)), ← h3,
    Int.emod_add_emod, Int.add_comm]

/-- What `WriteBacktrackStackPointerToRegister` leaves in the register slot. -/
theorem exec_WriteBacktrackStackPointerToRegister (env : Env) (m : Assembler) (reg : Nat)
    (s : State) :
    ∃ s1, exec env (WriteBacktrackStackPointerToRegister m reg) none s = .next none s1 ∧
      s1.reg .StackPointer = s.reg .StackPointer ∧
      s1.cell env (m.register_location reg) =
        wrap env.arch.ptrBits ((s.reg .backtrack_stack_pointer : Int)
          - s.cell env (.Address .StackPointer m.layout.FrameData_backtrackStackBase)) := by
  refine ⟨_, by simp [WriteBacktrackStackPointerToRegister, exec, step]; rfl, ?_, ?_⟩
  · simp
  · simp [State.cell, State.loadPtr, ea, Assembler.register_location, loadBytes_storeBytes_same,
      pow_ptrBytes, wrap_mod]

/-- What `ReadBacktrackStackPointerFromRegister` computes. -/
theorem exec_ReadBacktrackStackPointerFromRegister (env : Env) (m : Assembler) (reg : Nat)
    (s : State) :
    ∃ s3, exec env (ReadBacktrackStackPointerFromRegister m reg) none s = .next none s3 ∧
      s3.reg .backtrack_stack_pointer =
        (s.cell env (m.register_location reg)
          + s.cell env (.Address .StackPointer m.layout.FrameData_backtrackStackBase))
          % 2 ^ env.arch.ptrBits := by
  refine ⟨_, by simp [ReadBacktrackStackPointerFromRegister, exec, step]; rfl, ?_⟩
  simp [State.cell, State.loadPtr, ea, Assembler.register_location]

/-- C10: `WriteBacktrackStackPointerToRegister(reg)` stores in the register slot the
offset `p - B` of `backtrack_stack_pointer = p` from the arena base `B` held in
`FrameData.backtrackStackBase`, not an absolute address; in any later state in which the
slot still holds that offset and `FrameData.backtrackStackBase` holds `B'`,
`ReadBacktrackStackPointerFromRegister(reg)` sets `backtrack_stack_pointer` to
`B' + (p - B)` (pointer arithmetic, modulo the pointer width). -/
theorem backtrack_stack_pointer_register_round_trip (env : Env) (m : Assembler) (reg : Nat)
    (s s2 : State)
    (hkept : s2.cell env (m.register_location reg) =
      wrap env.arch.ptrBits ((s.reg .backtrack_stack_pointer : Int)
        - s.cell env (.Address .StackPointer m.layout.FrameData_backtrackStackBase))) :
    (∃ s1, exec env (WriteBacktrackStackPointerToRegister m reg) none s = .next none s1 ∧
      s1.cell env (m.register_location reg) =
        wrap env.arch.ptrBits ((s.reg .backtrack_stack_pointer : Int)
          - s.cell env (.Address .StackPointer m.layout.FrameData_backtrackStackBase))) ∧
    (∃ s3, exec env (ReadBacktrackStackPointerFromRegister m reg) none s2 = .next none s3 ∧
      s3.reg .backtrack_stack_pointer =
        wrap env.arch.ptrBits
          ((s2.cell env (.Address .StackPointer m.layout.FrameData_backtrackStackBase) : Int)
            + ((s.reg .backtrack_stack_pointer : Int)
                - s.cell env (.Address .StackPointer m.layout.FrameData_backtrackStackBase)))) := by
  obtain ⟨s1, h1, _, h2⟩ := exec_WriteBacktrackStackPointerToRegister env m reg s
  obtain ⟨s3, h3, h4⟩ := exec_ReadBacktrackStackPointerFromRegister env m reg s2
  refine ⟨⟨s1, h1, h2⟩, ⟨s3, h3, ?_⟩⟩
  rw [h4, hkept, wrap_add_wrap]

/-- C10, evaluated: written at base 0x5000 with the pointer at 0x5010, read back after
the arena moved to 0x9000. -/
theorem backtrack_stack_pointer_register_round_trip_witness :
    ∃ s3, exec sampleEnv (ReadBacktrackStackPointerFromRegister sampleAsm 1) none
        (cellsState (fun r => if r = .StackPointer then 0x7000 else 0)
          [(0x7040, 0x10), (0x7028, 0x9000)]) = .next none s3 ∧
      s3.reg .backtrack_stack_pointer = 0x9010 :=
  (backtrack_stack_pointer_register_round_trip sampleEnv sampleAsm 1
    (cellsState (fun r => if r = .StackPointer then 0x7000 else
      if r = .backtrack_stack_pointer then 0x5010 else 0) [(0x7028, 0x5000)])
    (cellsState (fun r => if r = .StackPointer then 0x7000 else 0)
      [(0x7040, 0x10), (0x7028, 0x9000)])
    (by decide)).2

/-- The register set saved around the call holds every caller-saved logical register
except `temp0` and `temp1`. -/
theorem volatileRegs_has (env : Env) (m : Assembler) (r : Reg) :
    RegSet.has env
      (((if m.arch = .arm then RegSet.Volatile.add .lr else RegSet.Volatile).takeUnchecked
        .temp0).takeUnchecked .temp1) r
      = (!decide (r = .temp1) && (!decide (r = .temp0) &&
          ((decide (m.arch = .arm) && decide (r = .lr)) || env.volatile r))) := by
  split <;> simp_all [RegSet.has]

/-- The first half of the stack-overflow trampoline, up to the restoring of the saved
registers: the call result is in `temp0`, the other registers the trampoline uses are
unchanged, and memory is what the call left. -/
theorem exec_stack_overflow_call (env : Env) (m : Assembler) (s : State) :
    ∃ sA, exec env
        [.bind .stack_overflow_label_,
         .movImmPtr .runtime .temp1,
         .PushRegsInMask (((if m.arch = .arm then RegSet.Volatile.add .lr
            else RegSet.Volatile).takeUnchecked .temp0).takeUnchecked .temp1),
         .setupUnalignedABICall 1 .temp0,
         .passABIArg .temp1,
         .callWithABI .GrowBacktrackStack,
         .storeCallResult .temp0,
         .PopRegsInMask (((if m.arch = .arm then RegSet.Volatile.add .lr
            else RegSet.Volatile).takeUnchecked .temp0).takeUnchecked .temp1)] none s
        = .next none sA ∧
      sA.reg .temp0 = (env.grow s.calls).ret % 2 ^ env.arch.ptrBits ∧
      sA.reg .backtrack_stack_pointer = s.reg .backtrack_stack_pointer ∧
      sA.reg .temp2 = s.reg .temp2 ∧
      sA.mem = storeBytes
        (storeBytes s.mem (env.symAddr .regexpStack_limit) env.arch.ptrBytes (env.grow s.calls).limit)
        (env.symAddr .regexpStack_base) env.arch.ptrBytes (env.grow s.calls).base := by
  refine ⟨_, by simp [exec, step]; rfl, ?_, ?_, ?_, ?_⟩
  · simp [volatileRegs_has]
  · simp [volatileRegs_has]
    cases env.volatile .backtrack_stack_pointer <;> simp
  · simp [volatileRegs_has]
    cases env.volatile .temp2 <;> simp
  · simp

/-- Subtraction from a wrapped value, wrapped. -/
theorem wrap_wrap_sub (bits : Nat) (a b : Int) :
    wrap bits ((wrap bits a : Int) - b) = wrap bits (a - b) := by
  unfold wrap
  have h0 : (0 : Int) < (2 : Int) ^ bits := by positivity
  rw [Int.toNat_of_nonneg (Int.emod_nonneg a (ne_of_gt h0))]
  congr 1
  rw [Int.sub_emod, Int.emod_emod, ← Int.sub_emod]

/-- The low 32 bits of a word tested against itself. -/
theorem and_self_mod (x : Nat) : (x &&& x) % 4294967296 = x % 4294967296 := by
  rw [Nat.and_self]

/-- C9: the stack-overflow trampoline returns to its caller with the result of
`GrowBacktrackStack` in `temp0`.  When that result is zero (as a 32-bit value),
`backtrack_stack_pointer` and `FrameData.backtrackStackBase` are unchanged.  When it is
nonzero, with `B` the old content of `FrameData.backtrackStackBase` and `B'` the new arena
base, `backtrack_stack_pointer` becomes `backtrack_stack_pointer - B + B'` and
`FrameData.backtrackStackBase` becomes `B'`, so the offset of the pointer from the base is
unchanged.  `FrameData` is addressed through `temp2` and does not overlap the arena's
`base` and `limit` fields. -/
theorem stack_overflow_trampoline (env : Env) (m : Assembler) (s : State)
    (hsep1 : ea env s (.Address .temp2 m.layout.FrameData_backtrackStackBase) + env.arch.ptrBytes
        ≤ env.symAddr .regexpStack_base ∨
      env.symAddr .regexpStack_base + env.arch.ptrBytes
        ≤ ea env s (.Address .temp2 m.layout.FrameData_backtrackStackBase))
    (hsep2 : ea env s (.Address .temp2 m.layout.FrameData_backtrackStackBase) + env.arch.ptrBytes
        ≤ env.symAddr .regexpStack_limit ∨
      env.symAddr .regexpStack_limit + env.arch.ptrBytes
        ≤ ea env s (.Address .temp2 m.layout.FrameData_backtrackStackBase)) :
    ∃ s', exec env (GenerateCode_stack_overflow m) none s = .ret s' ∧
      s'.reg .temp0 = (env.grow s.calls).ret % 2 ^ env.arch.ptrBits ∧
      if s'.reg .temp0 % 2 ^ 32 = 0 then
        s'.reg .backtrack_stack_pointer = s.reg .backtrack_stack_pointer ∧
        s'.cell env (.Address .temp2 m.layout.FrameData_backtrackStackBase)
          = s.cell env (.Address .temp2 m.layout.FrameData_backtrackStackBase)
      else
        s'.reg .backtrack_stack_pointer =
          wrap env.arch.ptrBits ((s.reg .backtrack_stack_pointer : Int)
            - s.cell env (.Address .temp2 m.layout.FrameData_backtrackStackBase)
            + s'.loadPtr env (env.symAddr .regexpStack_base)) ∧
        s'.cell env (.Address .temp2 m.layout.FrameData_backtrackStackBase)
          = s'.loadPtr env (env.symAddr .regexpStack_base) ∧
        wrap env.arch.ptrBits ((s'.reg .backtrack_stack_pointer : Int)
            - s'.cell env (.Address .temp2 m.layout.FrameData_backtrackStackBase))
          = wrap env.arch.ptrBits ((s.reg .backtrack_stack_pointer : Int)
            - s.cell env (.Address .temp2 m.layout.FrameData_backtrackStackBase)) := by
  obtain ⟨sA, hA, h0, hb, h2, hm⟩ := exec_stack_overflow_call env m s
  have hsplit : GenerateCode_stack_overflow m =
      [.bind .stack_overflow_label_,
       .movImmPtr .runtime .temp1,
       .PushRegsInMask (((if m.arch = .arm then RegSet.Volatile.add .lr
          else RegSet.Volatile).takeUnchecked .temp0).takeUnchecked .temp1),
       .setupUnalignedABICall 1 .temp0,
       .passABIArg .temp1,
       .callWithABI .GrowBacktrackStack,
       .storeCallResult .temp0,
       .PopRegsInMask (((if m.arch = .arm then RegSet.Volatile.add .lr
          else RegSet.Volatile).takeUnchecked .temp0).takeUnchecked .temp1)]
      ++ [.branchTest32 .Zero .temp0 .temp0 (.loc 1),
          .subPtrMem (.Address .temp2 m.layout.FrameData_backtrackStackBase)
            .backtrack_stack_pointer,
          .loadPtr (.AbsoluteAddress .regexpStack_base) .temp1,
          .storePtr .temp1 (.Address .temp2 m.layout.FrameData_backtrackStackBase),
          .addPtr .temp1 .backtrack_stack_pointer,
          .bind (.loc 1),
          .abiret] := rfl
  rw [hsplit, exec_append, hA, andThen_next]
  -- the address of `FrameData.backtrackStackBase` is the same before and after the call
  have hea : ∀ t : State, t.reg .temp2 = s.reg .temp2 →
      ea env t (.Address .temp2 m.layout.FrameData_backtrackStackBase)
        = ea env s (.Address .temp2 m.layout.FrameData_backtrackStackBase) := by
    intro t ht; simp only [ea, ht]
  generalize hfa : ea env s (.Address .temp2 m.layout.FrameData_backtrackStackBase) = fa
    at hsep1 hsep2 hea
  -- the call leaves `FrameData.backtrackStackBase` alone
  have hB : loadBytes sA.mem fa env.arch.ptrBytes = loadBytes s.mem fa env.arch.ptrBytes := by
    rw [hm, loadBytes_storeBytes_disjoint _ _ _ _ _ _ hsep1,
      loadBytes_storeBytes_disjoint _ _ _ _ _ _ hsep2]
  have hea' : ∀ t : State, ea env t (.AbsoluteAddress .regexpStack_base)
      = env.symAddr .regexpStack_base := fun _ => rfl
  by_cases hz : (env.grow s.calls).ret % 2 ^ env.arch.ptrBits % 4294967296 = 0
  · refine ⟨_, by simp [exec, step, evalCond, h0, hz, and_self_mod]; rfl, ?_, ?_⟩
    · simp [h0]
    · simp [h0, hz, hb, State.cell, State.loadPtr, hea, h2, hfa, hB]
  · refine ⟨_, by simp [exec, step, evalCond, h0, hz, and_self_mod]; rfl, ?_, ?_⟩
    · simp [h0]
    · have hlt := loadBytes_lt sA.mem env.arch.ptrBytes (env.symAddr .regexpStack_base)
      rw [pow_ptrBytes] at hlt
      have hmod := Nat.mod_eq_of_lt hlt
      simp only [setReg_reg, setFlags_reg, logRead_reg, store_reg, h0, hz, if_false, if_true,
        reduceCtorEq, State.cell, State.loadPtr, hea, hea', h2, hb, hB, setReg_mem, setFlags_mem,
        logRead_mem, store_mem, loadBytes_storeBytes_same, pow_ptrBytes, hmod,
        loadBytes_storeBytes_disjoint _ _ _ _ _ _ hsep1.symm, wrap_add_wrap, Nat.reducePow]
      refine ⟨by congr 1; ring, trivial, ?_⟩
      rw [wrap_wrap_sub]
      congr 1
      ring

/-- C9, evaluated: the arena grows and moves to 0x90000; the trampoline returns the
nonzero result of the call. -/
theorem stack_overflow_trampoline_witness :
    ((ea sampleEnv (cellsState (fun r => if r = .temp2 then 0x7000 else
          if r = .backtrack_stack_pointer then 0x5010 else 0) [(0x7028, 0x5000)])
        (.Address .temp2 sampleAsm.layout.FrameData_backtrackStackBase) + sampleEnv.arch.ptrBytes
        ≤ sampleEnv.symAddr .regexpStack_base ∨
      sampleEnv.symAddr .regexpStack_base + sampleEnv.arch.ptrBytes
        ≤ ea sampleEnv (cellsState (fun r => if r = .temp2 then 0x7000 else
          if r = .backtrack_stack_pointer then 0x5010 else 0) [(0x7028, 0x5000)])
        (.Address .temp2 sampleAsm.layout.FrameData_backtrackStackBase)) ∧
     (ea sampleEnv (cellsState (fun r => if r = .temp2 then 0x7000 else
          if r = .backtrack_stack_pointer then 0x5010 else 0) [(0x7028, 0x5000)])
        (.Address .temp2 sampleAsm.layout.FrameData_backtrackStackBase) + sampleEnv.arch.ptrBytes
        ≤ sampleEnv.symAddr .regexpStack_limit ∨
      sampleEnv.symAddr .regexpStack_limit + sampleEnv.arch.ptrBytes
        ≤ ea sampleEnv (cellsState (fun r => if r = .temp2 then 0x7000 else
          if r = .backtrack_stack_pointer then 0x5010 else 0) [(0x7028, 0x5000)])
        (.Address .temp2 sampleAsm.layout.FrameData_backtrackStackBase))) ∧
    ∃ s', exec sampleEnv (GenerateCode_stack_overflow sampleAsm) none
        (cellsState (fun r => if r = .temp2 then 0x7000 else
          if r = .backtrack_stack_pointer then 0x5010 else 0) [(0x7028, 0x5000)]) = .ret s' ∧
      s'.reg .temp0 = 1 :=
  ⟨⟨by decide, by decide⟩,
   let ⟨s', h1, h2, _⟩ := stack_overflow_trampoline sampleEnv sampleAsm
      (cellsState (fun r => if r = .temp2 then 0x7000 else
          if r = .backtrack_stack_pointer then 0x5010 else 0) [(0x7028, 0x5000)])
      (by decide) (by decide)
   ⟨s', h1, h2⟩⟩

/-- A natural number below the modulus is not changed by wrapping. -/
theorem wrap_natCast (bits n : Nat) (h : n < 2 ^ bits) : wrap bits (n : Int) = n := by
  unfold wrap
  have h3 : ((2 : Int) ^ bits) = ((2 ^ bits : Nat) : Int) := by push_cast; rfl
  rw [h3, ← Int.natCast_mod, Int.toNat_natCast]
  exact Nat.mod_eq_of_lt h

/-- The conversion the success path applies to a saved register: add the input length,
shift right arithmetically by one, keep the low 32 bits. -/
theorem exec_GenerateCode_capture (env : Env) (m : Assembler) (k : Nat) (t : State)
    (hmode : m.mode_ = .JSCHAR) :
    ∃ t', exec env (GenerateCode_capture m k) none t = .next none t' ∧
      t'.reg .temp1 = t.reg .temp1 ∧
      t'.reg .backtrack_stack_pointer = t.reg .backtrack_stack_pointer ∧
      t'.reg .StackPointer = t.reg .StackPointer ∧
      t'.mem = storeBytes t.mem (ea env t (.Address .temp1 ((k * 4 : Nat) : Int))) 4
        (wrap env.arch.ptrBits
          (toSigned env.arch.ptrBits
            ((loadBytes t.mem (ea env t (m.register_location k)) env.arch.ptrBytes
              + t.reg .backtrack_stack_pointer) % 2 ^ env.arch.ptrBits) / 2)) := by
  by_cases h : k = 0 ∧ m.global_with_zero_length_check = true
  · obtain ⟨rfl, hg⟩ := h
    refine ⟨_, by simp [GenerateCode_capture, exec, step, hmode, hg]; rfl, ?_, ?_, ?_, ?_⟩ <;>
      simp [ea, Assembler.register_location]
  · refine ⟨_, by simp [GenerateCode_capture, exec, step, hmode, h]; rfl, ?_, ?_, ?_, ?_⟩ <;>
      simp [ea, Assembler.register_location]

/-- A sum of two naturals that stays below the modulus is not changed by wrapping. -/
theorem wrap_natCast_add (bits a b : Nat) (h : a + b < 2 ^ bits) :
    wrap bits ((a : Int) + (b : Int)) = a + b := by
  rw [← Int.natCast_add]
  exact wrap_natCast bits (a + b) h

/-- The loop "Copy captures to output", after `k` rounds: the registers the loop relies on
are unchanged, memory is unchanged outside the first `k` output slots, and each of these
holds the converted value of its saved register. -/
theorem exec_captures_loop (env : Env) (m : Assembler) (t0 : State)
    (hmode : m.mode_ = .JSCHAR) (harch : m.arch = env.arch)
    (hout : t0.reg .temp1 + 4 * m.num_saved_registers_ ≤ 2 ^ env.arch.ptrBits)
    (hregs : t0.reg .StackPointer + m.register_offset m.num_saved_registers_
      ≤ 2 ^ env.arch.ptrBits)
    (hsep : t0.reg .temp1 + 4 * m.num_saved_registers_ ≤ t0.reg .StackPointer + m.register_offset 0 ∨
      t0.reg .StackPointer + m.register_offset m.num_saved_registers_ ≤ t0.reg .temp1) :
    ∀ k, k ≤ m.num_saved_registers_ →
      ∃ tk, exec env (emitFor k (GenerateCode_capture m)) none t0 = .next none tk ∧
        tk.reg .temp1 = t0.reg .temp1 ∧
        tk.reg .backtrack_stack_pointer = t0.reg .backtrack_stack_pointer ∧
        tk.reg .StackPointer = t0.reg .StackPointer ∧
        (∀ x, ¬ (t0.reg .temp1 ≤ x ∧ x < t0.reg .temp1 + 4 * k) → tk.mem x = t0.mem x) ∧
        (∀ j, j < k → loadBytes tk.mem (t0.reg .temp1 + 4 * j) 4 =
          wrap env.arch.ptrBits
            (toSigned env.arch.ptrBits
              ((loadBytes t0.mem (t0.reg .StackPointer + m.register_offset j) env.arch.ptrBytes
                + t0.reg .backtrack_stack_pointer) % 2 ^ env.arch.ptrBits) / 2) % 256 ^ 4) := by
  have hP : 0 < env.arch.ptrBytes := by cases env.arch <;> decide
  have hmul : ∀ j, j < m.num_saved_registers_ →
      j * env.arch.ptrBytes + env.arch.ptrBytes ≤ m.num_saved_registers_ * env.arch.ptrBytes := by
    intro j hj
    have := Nat.mul_le_mul_right env.arch.ptrBytes (Nat.succ_le_of_lt hj)
    rw [Nat.succ_mul] at this
    exact this
  simp only [Assembler.register_offset, harch] at hregs hsep
  intro k
  induction k with
  | zero =>
    intro _
    exact ⟨t0, rfl, rfl, rfl, rfl, fun _ _ => rfl, fun j hj => absurd hj (Nat.not_lt_zero j)⟩
  | succ k ih =>
    intro hk
    obtain ⟨tk, hex, h1, hb, hsp, hmem, hval⟩ := ih (by omega)
    obtain ⟨t', hex', h1', hb', hsp', hmem'⟩ := exec_GenerateCode_capture env m k tk hmode
    have hkm := hmul k (by omega)
    have heaOut : ea env tk (.Address .temp1 ((k * 4 : Nat) : Int)) = t0.reg .temp1 + 4 * k := by
      simp only [ea, h1]
      rw [wrap_natCast_add _ _ _ (by omega)]
      omega
    have heaReg : ea env tk (m.register_location k)
        = t0.reg .StackPointer + m.register_offset k := by
      simp only [ea, Assembler.register_location, hsp]
      rw [wrap_natCast_add _ _ _ (by simp only [Assembler.register_offset, harch]; omega)]
    have hslot : loadBytes tk.mem (t0.reg .StackPointer + m.register_offset k) env.arch.ptrBytes
        = loadBytes t0.mem (t0.reg .StackPointer + m.register_offset k) env.arch.ptrBytes := by
      apply loadBytes_congr
      intro x hx1 hx2
      apply hmem
      simp only [Assembler.register_offset, harch] at hx1 hx2
      omega
    rw [heaOut, heaReg, hslot, hb] at hmem'
    refine ⟨t', ?_, by rw [h1', h1], by rw [hb', hb], by rw [hsp', hsp], ?_, ?_⟩
    · show exec env (emitFor k (GenerateCode_capture m) ++ GenerateCode_capture m k) none t0 = _
      rw [exec_append, hex, andThen_next, hex']
    · intro x hx
      rw [hmem']
      have h3 : ¬ (t0.reg .temp1 + 4 * k ≤ x ∧ x < t0.reg .temp1 + 4 * k + 4) := by omega
      simp only [storeBytes, h3, if_false]
      exact hmem x (by omega)
    · intro j hj
      rw [hmem']
      by_cases hjk : j = k
      · subst hjk
        rw [loadBytes_storeBytes_same]
      · rw [loadBytes_storeBytes_disjoint _ _ _ _ _ _ (by omega)]
        exact hval j (by omega)

/-- The four instructions before the loop "Copy captures to output": `temp1` becomes
`FrameData.outputRegisters` and `backtrack_stack_pointer` becomes `inputEnd - inputStart`,
both read through the `InputOutputData*` saved at `inputOutputAddress`. -/
theorem exec_captures_prelude (env : Env) (m : Assembler) (s : State) :
    ∃ t0, exec env
        [.loadPtr (.Address .StackPointer m.layout.FrameData_outputRegisters) .temp1,
         .loadPtr m.inputOutputAddress .temp0,
         .loadPtr (.Address .temp0 m.layout.InputOutputData_inputEnd) .backtrack_stack_pointer,
         .subPtrMem (.Address .temp0 m.layout.InputOutputData_inputStart)
           .backtrack_stack_pointer] none s = .next none t0 ∧
      t0.reg .temp1 = s.cell env (.Address .StackPointer m.layout.FrameData_outputRegisters) ∧
      t0.reg .backtrack_stack_pointer =
        wrap env.arch.ptrBits
          ((s.field env (s.cell env m.inputOutputAddress) m.layout.InputOutputData_inputEnd : Int)
            - s.field env (s.cell env m.inputOutputAddress) m.layout.InputOutputData_inputStart) ∧
      t0.reg .StackPointer = s.reg .StackPointer ∧
      t0.mem = s.mem ∧
      (∀ r, r ≠ .temp0 → r ≠ .temp1 → r ≠ .backtrack_stack_pointer → t0.reg r = s.reg r) := by
  by_cases hx : m.arch = .x86
  · refine ⟨_, by simp [exec, step]; rfl, ?_, ?_, ?_, ?_, fun r h0 h1 hb => by simp [h0, h1, hb]⟩ <;>
      simp [ea, State.cell, State.loadPtr, State.field, Assembler.inputOutputAddress, hx]
  · refine ⟨_, by simp [exec, step]; rfl, ?_, ?_, ?_, ?_, fun r h0 h1 hb => by simp [h0, h1, hb]⟩ <;>
      simp [ea, State.cell, State.loadPtr, State.field, Assembler.inputOutputAddress, hx]

/-- The whole block "Save captures when successful": every output slot holds the
converted value of its saved register. -/
theorem exec_GenerateCode_captures (env : Env) (m : Assembler) (s : State)
    (hmode : m.mode_ = .JSCHAR) (harch : m.arch = env.arch)
    (hout : s.cell env (.Address .StackPointer m.layout.FrameData_outputRegisters)
      + 4 * m.num_saved_registers_ ≤ 2 ^ env.arch.ptrBits)
    (hregs : s.reg .StackPointer + m.register_offset m.num_saved_registers_
      ≤ 2 ^ env.arch.ptrBits)
    (hsep : s.cell env (.Address .StackPointer m.layout.FrameData_outputRegisters)
        + 4 * m.num_saved_registers_ ≤ s.reg .StackPointer + m.register_offset 0 ∨
      s.reg .StackPointer + m.register_offset m.num_saved_registers_
        ≤ s.cell env (.Address .StackPointer m.layout.FrameData_outputRegisters)) :
    ∃ s', exec env (GenerateCode_captures m) none s = .next none s' ∧
      ∀ j, j < m.num_saved_registers_ →
        loadBytes s'.mem
          (s.cell env (.Address .StackPointer m.layout.FrameData_outputRegisters) + 4 * j) 4 =
        wrap env.arch.ptrBits
          (toSigned env.arch.ptrBits
            ((loadBytes s.mem (s.reg .StackPointer + m.register_offset j) env.arch.ptrBytes
              + wrap env.arch.ptrBits
                  ((s.field env (s.cell env m.inputOutputAddress)
                      m.layout.InputOutputData_inputEnd : Int)
                    - s.field env (s.cell env m.inputOutputAddress)
                      m.layout.InputOutputData_inputStart)) % 2 ^ env.arch.ptrBits) / 2)
          % 256 ^ 4 := by
  obtain ⟨t0, h0, h1, hb, hsp, hmem, -⟩ := exec_captures_prelude env m s
  rw [← h1] at hout hsep
  rw [← hsp] at hsep hregs
  obtain ⟨s', hex, -, -, -, -, hval⟩ :=
    exec_captures_loop env m t0 hmode harch hout hregs hsep m.num_saved_registers_ (le_refl _)
  refine ⟨s', ?_, ?_⟩
  · show exec env (_ ++ emitFor m.num_saved_registers_ (GenerateCode_capture m)) none s = _
    rw [exec_append, h0, andThen_next, hex]
  · intro j hj
    have := hval j hj
    rw [h1, hsp, hb, hmem] at this
    exact this

/-- Arithmetic of the conversion for a register that holds a byte offset `r` from the end
of an input of fewer than `2 ^ 31` bytes. -/
theorem converted_offset (a : Arch) (r : Int) (iStart iEnd : Nat)
    (hs : iStart ≤ iEnd) (hE : iEnd < 2 ^ a.ptrBits) (hl : iEnd - iStart < 2 ^ 31)
    (hr1 : (iStart : Int) - iEnd ≤ r) (hr2 : r ≤ 0) (hr3 : r % 2 = 0) :
    toSigned 32
      (wrap a.ptrBits
        (toSigned a.ptrBits
          ((wrap a.ptrBits r + wrap a.ptrBits ((iEnd : Int) - iStart)) % 2 ^ a.ptrBits) / 2)
        % 256 ^ 4)
      = (r + ((iEnd : Int) - iStart)) / 2 := by
  cases a <;> simp only [wrap, toSigned, Arch.ptrBits, Arch.ptrBytes] <;> norm_num <;>
    split_ifs <;> omega

/-- Arithmetic of the conversion for a register that holds the value of
`inputStartMinusOne`. -/
theorem converted_sentinel (a : Arch) (iStart iEnd : Nat) :
    toSigned 32
      (wrap a.ptrBits
        (toSigned a.ptrBits
          ((wrap a.ptrBits ((iStart : Int) - iEnd - 2)
            + wrap a.ptrBits ((iEnd : Int) - iStart)) % 2 ^ a.ptrBits) / 2)
        % 256 ^ 4)
      = -1 := by
  cases a <;> simp only [wrap, toSigned, Arch.ptrBits, Arch.ptrBytes] <;> norm_num <;>
    split_ifs <;> omega

/-- C7: success-trampoline capture conversion in 16-bit mode.  For every saved register
`i` that holds a byte offset `r` from the end of the input with
`inputStart - inputEnd ≤ r ≤ 0` and `r` even, the int32 written to output slot `i` is
`(r + (inputEnd - inputStart)) / 2`.  The input is shorter than `2 ^ 31` bytes, and the
output array and the register file lie inside the address space and do not overlap. -/
theorem capture_conversion (env : Env) (m : Assembler) (s : State) (i : Nat) (r : Int)
    (hmode : m.mode_ = .JSCHAR) (harch : m.arch = env.arch)
    (hi : i < m.num_saved_registers_)
    (hout : s.cell env (.Address .StackPointer m.layout.FrameData_outputRegisters)
      + 4 * m.num_saved_registers_ ≤ 2 ^ env.arch.ptrBits)
    (hregs : s.reg .StackPointer + m.register_offset m.num_saved_registers_
      ≤ 2 ^ env.arch.ptrBits)
    (hsep : s.cell env (.Address .StackPointer m.layout.FrameData_outputRegisters)
        + 4 * m.num_saved_registers_ ≤ s.reg .StackPointer + m.register_offset 0 ∨
      s.reg .StackPointer + m.register_offset m.num_saved_registers_
        ≤ s.cell env (.Address .StackPointer m.layout.FrameData_outputRegisters))
    (hstart : s.field env (s.cell env m.inputOutputAddress) m.layout.InputOutputData_inputStart
      ≤ s.field env (s.cell env m.inputOutputAddress) m.layout.InputOutputData_inputEnd)
    (hlen : s.field env (s.cell env m.inputOutputAddress) m.layout.InputOutputData_inputEnd
      - s.field env (s.cell env m.inputOutputAddress) m.layout.InputOutputData_inputStart
      < 2 ^ 31)
    (hr : s.loadPtr env (s.reg .StackPointer + m.register_offset i) = wrap env.arch.ptrBits r)
    (hr1 : (s.field env (s.cell env m.inputOutputAddress) m.layout.InputOutputData_inputStart
        : Int)
      - s.field env (s.cell env m.inputOutputAddress) m.layout.InputOutputData_inputEnd ≤ r)
    (hr2 : r ≤ 0) (hr3 : r % 2 = 0) :
    ∃ s', exec env (GenerateCode_captures m) none s = .next none s' ∧
      toSigned 32 (loadBytes s'.mem
        (s.cell env (.Address .StackPointer m.layout.FrameData_outputRegisters) + 4 * i) 4)
      = (r + ((s.field env (s.cell env m.inputOutputAddress)
                m.layout.InputOutputData_inputEnd : Int)
              - s.field env (s.cell env m.inputOutputAddress)
                m.layout.InputOutputData_inputStart)) / 2 := by
  obtain ⟨s', hex, hval⟩ := exec_GenerateCode_captures env m s hmode harch hout hregs hsep
  refine ⟨s', hex, ?_⟩
  have hE : s.field env (s.cell env m.inputOutputAddress) m.layout.InputOutputData_inputEnd
      < 2 ^ env.arch.ptrBits := by
    have := loadBytes_lt s.mem env.arch.ptrBytes
      (wrap env.arch.ptrBits ((s.cell env m.inputOutputAddress : Int)
        + (m.layout.InputOutputData_inputEnd : Int)))
    rw [pow_ptrBytes] at this
    exact this
  rw [hval i hi]
  simp only [State.loadPtr] at hr
  rw [hr]
  exact converted_offset env.arch r _ _ hstart hE hlen hr1 hr2 hr3

/-- C7, evaluated: on a three-character input, the register holding the byte offset -4
is written as the character index 1. -/
theorem capture_conversion_witness :
    ∃ s', exec sampleEnv (GenerateCode_captures sampleAsm) none sampleSuccessState
        = .next none s' ∧
      toSigned 32 (loadBytes s'.mem 0x8004 4) = 1 := by
  obtain ⟨s', h1, h2⟩ := capture_conversion sampleEnv sampleAsm sampleSuccessState 1 (-4)
    rfl rfl (by decide) (by decide) (by decide) (by decide) (by decide) (by decide)
    (by decide) (by decide) (by decide) (by decide)
  have e1 : State.cell sampleEnv sampleSuccessState
      (.Address .StackPointer sampleAsm.layout.FrameData_outputRegisters) + 4 * 1 = 0x8004 := by
    decide
  have e2 : (-4 + ((State.field sampleEnv sampleSuccessState
      (State.cell sampleEnv sampleSuccessState sampleAsm.inputOutputAddress)
      sampleAsm.layout.InputOutputData_inputEnd : Int)
    - State.field sampleEnv sampleSuccessState
      (State.cell sampleEnv sampleSuccessState sampleAsm.inputOutputAddress)
      sampleAsm.layout.InputOutputData_inputStart)) / 2 = 1 := by
    decide
  rw [e1, e2] at h2
  exact ⟨s', h1, h2⟩

/-- The prologue, from "Load string end pointer" on: `temp0` and
`FrameData.inputStartMinusOne` receive `(inputStart - inputEnd) - char_size`, computed
pointer-wide from the fields of the `InputOutputData` that `temp0` points to. -/
theorem exec_GenerateCode_positions (env : Env) (m : Assembler) (s0 : State) :
    ∃ s1, exec env (GenerateCode_positions m) none s0 = .next none s1 ∧
      s1.reg .temp0 =
        wrap env.arch.ptrBits
          ((s0.field env (s0.reg .temp0) m.layout.InputOutputData_inputStart : Int)
            - s0.field env (s0.reg .temp0) m.layout.InputOutputData_inputEnd
            - char_size m.mode_) ∧
      s1.cell env (.Address .StackPointer m.layout.FrameData_inputStartMinusOne) =
        wrap env.arch.ptrBits
          ((s0.field env (s0.reg .temp0) m.layout.InputOutputData_inputStart : Int)
            - s0.field env (s0.reg .temp0) m.layout.InputOutputData_inputEnd
            - char_size m.mode_) := by
  refine ⟨_, by simp [GenerateCode_positions, exec, step]; rfl, ?_, ?_⟩
  · simp [ea, State.field, State.loadPtr, ← sub_eq_add_neg, wrap_wrap_sub]
  · simp [ea, State.cell, State.field, State.loadPtr, ← sub_eq_add_neg, wrap_wrap_sub,
      loadBytes_storeBytes_same, pow_ptrBytes, wrap_mod]

/-- The stores of `ClearRegisters`, after `k` rounds: the first `k` registers of the range
hold the value of `temp0`. -/
theorem exec_ClearRegisters_loop (env : Env) (m : Assembler) (t0 : State) (reg_from : Nat)
    (harch : m.arch = env.arch) :
    ∀ k, t0.reg .StackPointer + m.register_offset (reg_from + k) ≤ 2 ^ env.arch.ptrBits →
      ∃ tk, exec env
          (emitFor k (fun k => [.storePtr .temp0 (m.register_location (reg_from + k))])) none t0
          = .next none tk ∧
        tk.reg .temp0 = t0.reg .temp0 ∧
        tk.reg .StackPointer = t0.reg .StackPointer ∧
        ∀ j, j < k →
          loadBytes tk.mem (t0.reg .StackPointer + m.register_offset (reg_from + j))
            env.arch.ptrBytes = t0.reg .temp0 % 2 ^ env.arch.ptrBits := by
  have hP : 0 < env.arch.ptrBytes := by cases env.arch <;> decide
  intro k
  induction k with
  | zero =>
    intro _
    exact ⟨t0, rfl, rfl, rfl, fun j hj => absurd hj (Nat.not_lt_zero j)⟩
  | succ k ih =>
    intro hk
    simp only [Assembler.register_offset, harch] at hk
    have hk1 : (reg_from + (k + 1)) * env.arch.ptrBytes
        = (reg_from + k) * env.arch.ptrBytes + env.arch.ptrBytes := by
      rw [← Nat.add_assoc, Nat.succ_mul]
    obtain ⟨tk, hex, h0, hsp, hval⟩ :=
      ih (by simp only [Assembler.register_offset, harch]; omega)
    have hea : ea env tk (m.register_location (reg_from + k))
        = t0.reg .StackPointer + m.register_offset (reg_from + k) := by
      simp only [ea, Assembler.register_location, hsp]
      rw [wrap_natCast_add _ _ _ (by simp only [Assembler.register_offset, harch]; omega)]
    refine ⟨tk.store (ea env tk (m.register_location (reg_from + k))) env.arch.ptrBytes
      (tk.reg .temp0), ?_, by simp [h0], by simp [hsp], ?_⟩
    · show exec env (emitFor k _ ++ [_]) none t0 = _
      rw [exec_append, hex, andThen_next]
      simp [exec, step]
    · intro j hj
      simp only [store_mem, hea]
      by_cases hjk : j = k
      · subst hjk
        rw [loadBytes_storeBytes_same, pow_ptrBytes, h0]
      · have hlt : j < k := by omega
        have hmul := Nat.mul_le_mul_right env.arch.ptrBytes
          (show reg_from + j + 1 ≤ reg_from + k by omega)
        rw [Nat.succ_mul] at hmul
        rw [loadBytes_storeBytes_disjoint _ _ _ _ _ _
          (by simp only [Assembler.register_offset, harch]; omega)]
        exact hval j hlt

/-- `ClearRegisters(reg_from, reg_to)` leaves the content of
`FrameData.inputStartMinusOne` in every register of the range. -/
theorem exec_ClearRegisters (env : Env) (m : Assembler) (t : State) (reg_from reg_to : Nat)
    (harch : m.arch = env.arch)
    (hwrap : t.reg .StackPointer + m.register_offset (reg_to + 1) ≤ 2 ^ env.arch.ptrBits) :
    ∃ t', exec env (ClearRegisters m reg_from reg_to) none t = .next none t' ∧
      ∀ j, reg_from ≤ j → j ≤ reg_to →
        t'.loadPtr env (t.reg .StackPointer + m.register_offset j)
          = t.cell env (.Address .StackPointer m.layout.FrameData_inputStartMinusOne) := by
  by_cases hft : reg_from ≤ reg_to + 1
  · have hcnt : reg_from + (reg_to + 1 - reg_from) = reg_to + 1 := by omega
    obtain ⟨t', hex, -, -, hval⟩ := exec_ClearRegisters_loop env m
      ((t.logRead (ea env t (.Address .StackPointer m.layout.FrameData_inputStartMinusOne))
        env.arch.ptrBytes).setReg .temp0
        (loadBytes t.mem (ea env t (.Address .StackPointer m.layout.FrameData_inputStartMinusOne))
          env.arch.ptrBytes))
      reg_from harch (reg_to + 1 - reg_from) (by rw [hcnt]; simpa using hwrap)
    refine ⟨t', ?_, ?_⟩
    · show exec env ([_] ++ emitFor _ _) none t = _
      rw [exec_append]
      simp only [exec, step, andThen_next]
      exact hex
    · intro j h1 h2
      have := hval (j - reg_from) (by omega)
      rw [show reg_from + (j - reg_from) = j by omega] at this
      have hlt := loadBytes_lt t.mem env.arch.ptrBytes
        (ea env t (.Address .StackPointer m.layout.FrameData_inputStartMinusOne))
      rw [pow_ptrBytes] at hlt
      simpa [State.loadPtr, State.cell, Nat.mod_eq_of_lt hlt] using this
  · have h0 : reg_to + 1 - reg_from = 0 := by omega
    refine ⟨_, by simp [ClearRegisters, h0, emitFor, exec, step]; rfl, ?_⟩
    intro j h1 h2
    omega

/-- C8: unset captures in 16-bit mode.  The prologue, run on a state `s0` whose `temp0`
points to the `InputOutputData`, computes `(inputStart - inputEnd) - char_size` and stores
it in `FrameData.inputStartMinusOne`; `ClearRegisters`, run on a state `t` whose
`FrameData.inputStartMinusOne` still holds that value, stores it in every register of its
range; and the success trampoline, run on a state `s` for the same input in which saved
register `i` holds that value, writes the int32 value -1 to output slot `i`, whatever the
input length. -/
theorem unset_capture_is_minus_one (env : Env) (m : Assembler) (s0 t s : State)
    (i reg_from reg_to : Nat)
    (hmode : m.mode_ = .JSCHAR) (harch : m.arch = env.arch)
    (hi : i < m.num_saved_registers_)
    (hfrom : reg_from ≤ i) (hto : i ≤ reg_to)
    (hwrap : t.reg .StackPointer + m.register_offset (reg_to + 1) ≤ 2 ^ env.arch.ptrBits)
    (hism : t.cell env (.Address .StackPointer m.layout.FrameData_inputStartMinusOne) =
      wrap env.arch.ptrBits
        ((s0.field env (s0.reg .temp0) m.layout.InputOutputData_inputStart : Int)
          - s0.field env (s0.reg .temp0) m.layout.InputOutputData_inputEnd
          - char_size m.mode_))
    (hout : s.cell env (.Address .StackPointer m.layout.FrameData_outputRegisters)
      + 4 * m.num_saved_registers_ ≤ 2 ^ env.arch.ptrBits)
    (hregs : s.reg .StackPointer + m.register_offset m.num_saved_registers_
      ≤ 2 ^ env.arch.ptrBits)
    (hsep : s.cell env (.Address .StackPointer m.layout.FrameData_outputRegisters)
        + 4 * m.num_saved_registers_ ≤ s.reg .StackPointer + m.register_offset 0 ∨
      s.reg .StackPointer + m.register_offset m.num_saved_registers_
        ≤ s.cell env (.Address .StackPointer m.layout.FrameData_outputRegisters))
    (hstart : s.field env (s.cell env m.inputOutputAddress) m.layout.InputOutputData_inputStart
      = s0.field env (s0.reg .temp0) m.layout.InputOutputData_inputStart)
    (hend : s.field env (s.cell env m.inputOutputAddress) m.layout.InputOutputData_inputEnd
      = s0.field env (s0.reg .temp0) m.layout.InputOutputData_inputEnd)
    (hr : s.loadPtr env (s.reg .StackPointer + m.register_offset i) =
      wrap env.arch.ptrBits
        ((s0.field env (s0.reg .temp0) m.layout.InputOutputData_inputStart : Int)
          - s0.field env (s0.reg .temp0) m.layout.InputOutputData_inputEnd
          - char_size m.mode_)) :
    (∃ s1, exec env (GenerateCode_positions m) none s0 = .next none s1 ∧
      s1.reg .temp0 =
        wrap env.arch.ptrBits
          ((s0.field env (s0.reg .temp0) m.layout.InputOutputData_inputStart : Int)
            - s0.field env (s0.reg .temp0) m.layout.InputOutputData_inputEnd
            - char_size m.mode_) ∧
      s1.cell env (.Address .StackPointer m.layout.FrameData_inputStartMinusOne) =
        wrap env.arch.ptrBits
          ((s0.field env (s0.reg .temp0) m.layout.InputOutputData_inputStart : Int)
            - s0.field env (s0.reg .temp0) m.layout.InputOutputData_inputEnd
            - char_size m.mode_)) ∧
    (∃ t', exec env (ClearRegisters m reg_from reg_to) none t = .next none t' ∧
      t'.loadPtr env (t.reg .StackPointer + m.register_offset i) =
        wrap env.arch.ptrBits
          ((s0.field env (s0.reg .temp0) m.layout.InputOutputData_inputStart : Int)
            - s0.field env (s0.reg .temp0) m.layout.InputOutputData_inputEnd
            - char_size m.mode_)) ∧
    (∃ s', exec env (GenerateCode_captures m) none s = .next none s' ∧
      toSigned 32 (loadBytes s'.mem
        (s.cell env (.Address .StackPointer m.layout.FrameData_outputRegisters) + 4 * i) 4)
      = -1) := by
  refine ⟨exec_GenerateCode_positions env m s0, ?_, ?_⟩
  · obtain ⟨t', hex, hval⟩ := exec_ClearRegisters env m t reg_from reg_to harch hwrap
    exact ⟨t', hex, by rw [hval i hfrom hto, hism]⟩
  · obtain ⟨s', hex, hval⟩ := exec_GenerateCode_captures env m s hmode harch hout hregs hsep
    refine ⟨s', hex, ?_⟩
    rw [hval i hi]
    simp only [State.loadPtr] at hr
    rw [hr, hstart, hend, hmode]
    exact converted_sentinel env.arch _ _

/-- C8, evaluated: on a three-character input the sentinel is the offset -8; register 1,
left unset, is written as -1. -/
theorem unset_capture_is_minus_one_witness :
    ∃ s', exec sampleEnv (GenerateCode_captures sampleAsm) none sampleUnsetState
        = .next none s' ∧
      toSigned 32 (loadBytes s'.mem 0x8004 4) = -1 := by
  obtain ⟨s', h1, h2⟩ := (unset_capture_is_minus_one sampleEnv sampleAsm samplePrologueState
    sampleBodyState sampleUnsetState 1 0 1 rfl rfl (by decide) (by decide) (by decide)
    (by decide) (by decide) (by decide) (by decide) (by decide) (by decide) (by decide)
    (by decide)).2.2
  have e1 : State.cell sampleEnv sampleUnsetState
      (.Address .StackPointer sampleAsm.layout.FrameData_outputRegisters) + 4 * 1 = 0x8004 := by
    decide
  rw [e1] at h2
  exact ⟨s', h1, h2⟩

@[simp] theorem calledTo_ite (c : Prop) [Decidable c] (x y : Res) (l : Label) :
    (if c then x else y).calledTo l = if c then x.calledTo l else y.calledTo l := by
  split <;> rfl

@[simp] theorem calledTo_next (p : Option Label) (s : State) (l : Label) :
    (Res.next p s).calledTo l = false := rfl

@[simp] theorem calledTo_called (t l : Label) (s : State) (resume : State → Res) :
    (Res.called t s resume).calledTo l = decide (t = l) := rfl

@[simp] theorem ea_AbsoluteAddress (env : Env) (s : State) (sym : Symbol) :
    ea env s (.AbsoluteAddress sym) = env.symAddr sym := rfl

/-- A pointer-sized read is below the pointer modulus. -/
theorem loadPtr_mod (env : Env) (mem : Nat → Nat) (a : Nat) :
    loadBytes mem a env.arch.ptrBytes % 2 ^ env.arch.ptrBits = loadBytes mem a env.arch.ptrBytes := by
  have h := loadBytes_lt mem env.arch.ptrBytes a
  rw [pow_ptrBytes] at h
  exact Nat.mod_eq_of_lt h

/-- C11 as stated fails: with `backtrack_stack_pointer` equal to the limit, the code of
`CheckBacktrackStackLimit` does not call the stack-overflow trampoline. -/
theorem CheckBacktrackStackLimit_no_call_at_limit :
    (sampleLimitState 0xA0000 1).loadPtr sampleEnv (sampleEnv.symAddr .regexpStack_limit)
      = (sampleLimitState 0xA0000 1).reg .backtrack_stack_pointer ∧
    (exec sampleEnv CheckBacktrackStackLimit none (sampleLimitState 0xA0000 1)).calledTo
      .stack_overflow_label_ = false := by
  decide

/-- C11, amended: the code of `CheckBacktrackStackLimit` calls the stack-overflow
trampoline if and only if `backtrack_stack_pointer` is strictly above the arena's current
limit (unsigned pointer comparison); when the two are equal it does not call. -/
theorem CheckBacktrackStackLimit_calls_iff (env : Env) (s : State) :
    (exec env CheckBacktrackStackLimit none s).calledTo .stack_overflow_label_ = true ↔
      s.loadPtr env (env.symAddr .regexpStack_limit)
        < s.reg .backtrack_stack_pointer % 2 ^ env.arch.ptrBits := by
  simp [CheckBacktrackStackLimit, exec, step, evalCond, State.loadPtr, loadPtr_mod]

/-- C12, the failing input: `PushRegister(0, check-stack-limit)` with register 0 holding
zero and the backtrack stack pointer far below the limit.  The pushed entry leaves the
pointer at 0x5008, below the limit 0xA0000, no call is made, and the emitted code
branches to `exit_with_exception_label_`. -/
theorem PushRegister_zero_raises_exception :
    (exec sampleEnv (PushRegister sampleAsm 0 true) none (sampleLimitState 0x5000 1)).calledTo
      .stack_overflow_label_ = false ∧
    (exec sampleEnv (PushRegister sampleAsm 0 true) none (sampleLimitState 0x5000 1)).branchedTo
      .exit_with_exception_label_ = true ∧
    (exec sampleEnv (PushRegister sampleAsm 0 true) none (sampleLimitState 0x5000 1)).state?.map
      (fun s => s.reg .backtrack_stack_pointer) = some 0x5008 := by
  decide

@[simp] theorem state?_ite (c : Prop) [Decidable c] (x y : Res) :
    (if c then x else y).state? = if c then x.state? else y.state? := by
  split <;> rfl

@[simp] theorem state?_next (p : Option Label) (s : State) : (Res.next p s).state? = some s := rfl

theorem toSigned_mod (b n : Nat) : toSigned b (n % 2 ^ b) = toSigned b n := by
  simp [toSigned, Nat.mod_mod]

theorem toSigned_wrap (a : Arch) (v : Int) (h1 : -2 ^ (a.ptrBits - 1) ≤ v)
    (h2 : v < 2 ^ (a.ptrBits - 1)) : toSigned a.ptrBits (wrap a.ptrBits v) = v := by
  cases a <;> simp [Arch.ptrBits, Arch.ptrBytes, toSigned, wrap] at * <;> split_ifs <;> omega

/-- C18 (counterexample): with `by = 1` in 16-bit mode and `current_position = 0`, the
code of `SetCurrentPositionFromEnd` leaves `current_position` at 0, which is larger than
`-by * char_size = -2`, and does not reload `current_character`. -/
theorem SetCurrentPositionFromEnd_keeps_larger_position :
    ∃ code, SetCurrentPositionFromEnd sampleAsm 1 = .ok code ∧
      ((exec sampleEnv code none (sampleState 7)).state?.map fun s =>
        (toSigned 64 (s.reg .current_position), s.reg .current_character, s.trace))
        = some (0, 7, []) ∧
      ¬ ((0 : Int) ≤ -1 * char_size sampleAsm.mode_) :=
  ⟨_, rfl, by decide, by decide⟩

/-- C18 (amended): in 16-bit mode, for `0 ≤ by` with `by * 2` representable, the code of
`SetCurrentPositionFromEnd(by)` falls through with `current_position` at least
`-by * char_size`: a smaller (signed) `current_position` is raised to `-by * char_size`
and `current_character` is reloaded from the two bytes before the new position; a
`current_position` that is already at least `-by * char_size` is left as it is, together
with `current_character`, and memory is not read. -/
theorem SetCurrentPositionFromEnd_raises (env : Env) (m : Assembler) (by_ : Int) (s : State)
    (hmode : m.mode_ = .JSCHAR) (hby : 0 ≤ by_)
    (hrange : by_ * 2 ≤ 2 ^ (env.arch.ptrBits - 1)) :
    ∃ code s', SetCurrentPositionFromEnd m by_ = .ok code ∧
      exec env code none s = .next none s' ∧
      -by_ * char_size m.mode_ ≤ toSigned env.arch.ptrBits (s'.reg .current_position) ∧
      (if toSigned env.arch.ptrBits (s.reg .current_position) < -by_ * char_size m.mode_ then
         toSigned env.arch.ptrBits (s'.reg .current_position) = -by_ * char_size m.mode_ ∧
         s'.reg .current_character =
           loadBytes s.mem (wrap env.arch.ptrBits
             ((s.reg .input_end_pointer : Int) + wrap env.arch.ptrBits (-by_ * 2) - 2)) 2 ∧
         s'.trace = ⟨false, wrap env.arch.ptrBits
             ((s.reg .input_end_pointer : Int) + wrap env.arch.ptrBits (-by_ * 2) - 2), 2⟩ :: s.trace
       else
         s'.reg .current_position = s.reg .current_position ∧
         s'.reg .current_character = s.reg .current_character ∧ s'.trace = s.trace) := by
  have hcs : ((char_size m.mode_ : Nat) : Int) = 2 := by simp [hmode, char_size]
  have hcode : SetCurrentPositionFromEnd m by_ = .ok
      [.cmpPtr .current_position (-by_ * 2), .j .GreaterThanOrEqual (.loc 4),
       .movImmWord (-by_ * 2) .current_position,
       .load16ZeroExtend (.BaseIndex .input_end_pointer .current_position .TimesOne (-2))
         .current_character,
       .bind (.loc 4)] := by
    simp [SetCurrentPositionFromEnd, LoadCurrentCharacterUnchecked, hmode, char_size]
    rfl
  have hw : toSigned env.arch.ptrBits (wrap env.arch.ptrBits (-by_ * 2)) = -by_ * 2 := by
    by_cases h0 : by_ = 0
    · subst h0
      exact toSigned_wrap _ _ (by simp) (by simp)
    · exact toSigned_wrap _ _ (by omega) (by have : (0:Int) < 2 ^ (env.arch.ptrBits - 1) := by positivity
                                             omega)
  rw [hcs, hcode]
  have hn : -by_ * 2 = -(by_ * 2) := neg_mul _ _
  by_cases h : toSigned env.arch.ptrBits (s.reg .current_position) < -by_ * 2 <;>
    rw [hn] at h hw
  · refine ⟨_, _, rfl, by simp [exec, step, evalCond, toSigned_mod, hw, not_le.mpr h]; rfl,
      ?_, ?_⟩
    · simp [hw]
    · simp [h, hw, ea, Scale.mult, sub_eq_add_neg]
  · refine ⟨_, _, rfl, by simp [exec, step, evalCond, toSigned_mod, hw, not_lt.mp h]; rfl,
      ?_, ?_⟩
    · simp
      omega
    · simp [h]

theorem SetCurrentPositionFromEnd_raises_witness :
    ∃ code s', SetCurrentPositionFromEnd sampleAsm 1 = .ok code ∧
      exec sampleEnv code none
        (cellsState (fun r => if r = .current_position then 2 ^ 64 - 6 else 0) [])
        = .next none s' ∧
      toSigned 64 (s'.reg .current_position) = -2 := by
  obtain ⟨code, s', h1, h2, -, h4⟩ := SetCurrentPositionFromEnd_raises sampleEnv sampleAsm 1
    (cellsState (fun r => if r = .current_position then 2 ^ 64 - 6 else 0) []) rfl
    (by decide) (by decide)
  rw [if_pos (by decide)] at h4
  exact ⟨code, s', h1, h2, h4.1.trans (by decide)⟩


theorem wrap_natCast_mod (bits n : Nat) : wrap bits (n : Int) = n % 2 ^ bits := by
  unfold wrap
  have h3 : ((2 : Int) ^ bits) = ((2 ^ bits : Nat) : Int) := by push_cast; rfl
  rw [h3, ← Int.natCast_mod, Int.toNat_natCast]

@[simp] theorem wrap_zero (bits : Nat) : wrap bits 0 = 0 := by
  simp [wrap]

/-- C19: with C the condition "`FrameData.startIndex` is zero and
`input_end_pointer + current_position` equals `FrameData.inputStart`", the code of
`CheckAtStart(L)` branches to L exactly when C holds and falls through otherwise, and the
code of `CheckNotAtStart(L)` branches to L exactly when C does not hold and falls through
otherwise; so exactly one of the two branches to L. -/
theorem CheckAtStart_CheckNotAtStart (env : Env) (m : Assembler) (lbl : Option Label)
    (s : State) (hl : (lbl.getD .backtrack_label_).isLocal = false) :
    ((exec env (CheckAtStart m lbl) none s).branchedTo (lbl.getD .backtrack_label_) = true ↔
      (s.field env (s.reg .StackPointer) m.layout.FrameData_startIndex = 0 ∧
       (s.reg .input_end_pointer + s.reg .current_position) % 2 ^ env.arch.ptrBits
         = s.field env (s.reg .StackPointer) m.layout.FrameData_inputStart)) ∧
    ((exec env (CheckNotAtStart m lbl) none s).branchedTo (lbl.getD .backtrack_label_) = true ↔
      ¬ (s.field env (s.reg .StackPointer) m.layout.FrameData_startIndex = 0 ∧
       (s.reg .input_end_pointer + s.reg .current_position) % 2 ^ env.arch.ptrBits
         = s.field env (s.reg .StackPointer) m.layout.FrameData_inputStart)) ∧
    ((exec env (CheckAtStart m lbl) none s).fellThrough = true ↔
      ¬ (exec env (CheckAtStart m lbl) none s).branchedTo (lbl.getD .backtrack_label_) = true) ∧
    ((exec env (CheckNotAtStart m lbl) none s).fellThrough = true ↔
      ¬ (exec env (CheckNotAtStart m lbl) none s).branchedTo (lbl.getD .backtrack_label_) = true)
    := by
  simp only [CheckAtStart, CheckNotAtStart, BranchOrBacktrack_eq, State.field, State.loadPtr]
  generalize lbl.getD .backtrack_label_ = l at hl ⊢
  have hl3 : Label.loc 3 ≠ l := by
    intro h
    rw [← h] at hl
    exact absurd hl (by decide)
  have hw : wrap env.arch.ptrBits ((s.reg .input_end_pointer : Int) + (s.reg .current_position : Int))
      = (s.reg .input_end_pointer + s.reg .current_position) % 2 ^ env.arch.ptrBits := by
    rw [← Int.natCast_add]
    exact wrap_natCast_mod _ _
  by_cases h1 : loadBytes s.mem (wrap env.arch.ptrBits
      ((s.reg .StackPointer : Int) + (m.layout.FrameData_startIndex : Int))) env.arch.ptrBytes = 0
  · by_cases h2 : (s.reg .input_end_pointer + s.reg .current_position) % 2 ^ env.arch.ptrBits
        = loadBytes s.mem (wrap env.arch.ptrBits
            ((s.reg .StackPointer : Int) + (m.layout.FrameData_inputStart : Int))) env.arch.ptrBytes
    · simp [exec, step, evalCond, ea, Scale.mult, hw, loadPtr_mod, wrap_zero, h1, h2, hl3]
    · simp [exec, step, evalCond, ea, Scale.mult, hw, loadPtr_mod, wrap_zero, h1, h2, hl3]
      exact fun h => h2 h.symm
  · simp [exec, step, evalCond, ea, Scale.mult, hw, loadPtr_mod, wrap_zero, h1, hl3]

theorem CheckAtStart_CheckNotAtStart_witness :
    sampleBodyState.field sampleEnv (sampleBodyState.reg .StackPointer)
        sampleAsm.layout.FrameData_startIndex = 0 ∧
    (exec sampleEnv (CheckAtStart sampleAsm (some (.user 1))) none sampleBodyState).branchedTo
        (.user 1) = true ∧
    (exec sampleEnv (CheckNotAtStart sampleAsm (some (.user 1))) none
        sampleBodyState).fellThrough = true := by
  have h := CheckAtStart_CheckNotAtStart sampleEnv sampleAsm (some (.user 1)) sampleBodyState rfl
  have hc : sampleBodyState.field sampleEnv (sampleBodyState.reg .StackPointer)
        sampleAsm.layout.FrameData_startIndex = 0 ∧
      (sampleBodyState.reg .input_end_pointer + sampleBodyState.reg .current_position)
        % 2 ^ sampleEnv.arch.ptrBits
        = sampleBodyState.field sampleEnv (sampleBodyState.reg .StackPointer)
            sampleAsm.layout.FrameData_inputStart := by decide
  exact ⟨hc.1, h.1.2 hc, h.2.2.2.2 (fun hb => (h.2.1.1 hb) hc)⟩


theorem wrap_wrap_add (bits : Nat) (a b : Int) :
    wrap bits ((wrap bits a : Int) + b) = wrap bits (a + b) := by
  have h := wrap_wrap_sub bits a (-b)
  simpa [sub_neg_eq_add] using h

theorem factor_mult (m : Assembler) : m.factor.mult = char_size m.mode_ := by
  unfold Assembler.factor
  cases m.mode_ <;> simp [Scale.mult, char_size]

/-- C20: the position set-up of the prologue, `temp0` pointing to the `InputOutputData`
whose fields hold `inputStart ≤ inputEnd` and `startIndex`, the `startIndex` field not
overlapping `FrameData.inputStart`, and the input being at most half the address space
long.  Afterwards `input_end_pointer = inputEnd`,
`current_position = (inputStart - inputEnd) + startIndex * char_size`,
`FrameData.inputStartMinusOne = (inputStart - inputEnd) - char_size` (both as machine
words), `input_end_pointer + current_position` is the address
`inputStart + startIndex * char_size`, and when `startIndex * char_size` is at most the
input length, `current_position` read as a signed word is that offset and is `≤ 0`. -/
theorem prologue_positions (env : Env) (m : Assembler) (s0 : State) (iStart iEnd si : Nat)
    (hS : s0.field env (s0.reg .temp0) m.layout.InputOutputData_inputStart = iStart)
    (hE : s0.field env (s0.reg .temp0) m.layout.InputOutputData_inputEnd = iEnd)
    (hI : s0.field env (s0.reg .temp0) m.layout.InputOutputData_startIndex = si)
    (hsep : wrap env.arch.ptrBits ((s0.reg .temp0 : Int) + m.layout.InputOutputData_startIndex)
          + env.arch.ptrBytes
          ≤ wrap env.arch.ptrBits ((s0.reg .StackPointer : Int) + m.layout.FrameData_inputStart) ∨
        wrap env.arch.ptrBits ((s0.reg .StackPointer : Int) + m.layout.FrameData_inputStart)
          + env.arch.ptrBytes
          ≤ wrap env.arch.ptrBits ((s0.reg .temp0 : Int) + m.layout.InputOutputData_startIndex))
    (hle : iStart ≤ iEnd) (hlen : iEnd - iStart ≤ 2 ^ (env.arch.ptrBits - 1)) :
    ∃ s1, exec env (GenerateCode_positions m) none s0 = .next none s1 ∧
      s1.reg .input_end_pointer = iEnd ∧
      s1.reg .current_position
        = wrap env.arch.ptrBits ((iStart : Int) - iEnd + si * char_size m.mode_) ∧
      s1.cell env (.Address .StackPointer m.layout.FrameData_inputStartMinusOne)
        = wrap env.arch.ptrBits ((iStart : Int) - iEnd - char_size m.mode_) ∧
      (s1.reg .input_end_pointer + s1.reg .current_position) % 2 ^ env.arch.ptrBits
        = (iStart + si * char_size m.mode_) % 2 ^ env.arch.ptrBits ∧
      (si * char_size m.mode_ ≤ iEnd - iStart →
        toSigned env.arch.ptrBits (s1.reg .current_position)
          = (iStart : Int) - iEnd + si * char_size m.mode_ ∧
        toSigned env.arch.ptrBits (s1.reg .current_position) ≤ 0) := by
  simp only [State.field, State.loadPtr] at hS hE hI
  have hcp : ∀ s1 : State, s1.reg .current_position
        = wrap env.arch.ptrBits ((iStart : Int) - iEnd + si * char_size m.mode_) →
      (iEnd + s1.reg .current_position) % 2 ^ env.arch.ptrBits
        = (iStart + si * char_size m.mode_) % 2 ^ env.arch.ptrBits ∧
      (si * char_size m.mode_ ≤ iEnd - iStart →
        toSigned env.arch.ptrBits (s1.reg .current_position)
          = (iStart : Int) - iEnd + si * char_size m.mode_ ∧
        toSigned env.arch.ptrBits (s1.reg .current_position) ≤ 0) := by
    intro s1 h
    rw [h]
    constructor
    · rw [Nat.add_comm, wrap_add_wrap, ← wrap_natCast_mod]
      congr 1
      push_cast
      ring
    · intro hidx
      have hp : (0 : Int) < 2 ^ (env.arch.ptrBits - 1) := by positivity
      have hlen' : ((iEnd : Int) - iStart) ≤ 2 ^ (env.arch.ptrBits - 1) := by
        have : ((iEnd - iStart : Nat) : Int) ≤ ((2 ^ (env.arch.ptrBits - 1) : Nat) : Int) := by
          exact_mod_cast hlen
        push_cast [Nat.cast_sub hle] at this
        exact this
      have hidx' : ((si : Int) * char_size m.mode_) ≤ (iEnd : Int) - iStart := by
        have : ((si * char_size m.mode_ : Nat) : Int) ≤ ((iEnd - iStart : Nat) : Int) := by
          exact_mod_cast hidx
        push_cast [Nat.cast_sub hle] at this
        exact this
      have hnn : (0 : Int) ≤ (si : Int) * char_size m.mode_ := by positivity
      rw [toSigned_wrap _ _ (by omega) (by omega)]
      exact ⟨rfl, by omega⟩
  obtain ⟨s1, hx, h1, h2, h3⟩ : ∃ s1, exec env (GenerateCode_positions m) none s0 = .next none s1 ∧
      s1.reg .input_end_pointer = iEnd ∧
      s1.reg .current_position
        = wrap env.arch.ptrBits ((iStart : Int) - iEnd + si * char_size m.mode_) ∧
      s1.cell env (.Address .StackPointer m.layout.FrameData_inputStartMinusOne)
        = wrap env.arch.ptrBits ((iStart : Int) - iEnd - char_size m.mode_) := by
    refine ⟨_, by simp [GenerateCode_positions, exec, step]; rfl, ?_, ?_, ?_⟩
    · simp [ea, hE]
    · simp [ea, hE, hS, factor_mult, loadBytes_storeBytes_disjoint _ _ _ _ _ _ hsep, hI,
        wrap_wrap_add]
    · simp [ea, State.cell, State.loadPtr, hE, hS, ← sub_eq_add_neg, wrap_wrap_sub,
        loadBytes_storeBytes_same, pow_ptrBytes, wrap_mod]
  obtain ⟨h4, h5⟩ := hcp s1 h2
  exact ⟨s1, hx, h1, h2, h3, by rw [h1]; exact h4, h5⟩

theorem prologue_positions_witness :
    ∃ s1, exec sampleEnv (GenerateCode_positions sampleAsm) none samplePrologueState
        = .next none s1 ∧
      s1.reg .input_end_pointer = 0x4006 ∧
      toSigned 64 (s1.reg .current_position) = -6 ∧
      s1.cell sampleEnv (.Address .StackPointer sampleLayout.FrameData_inputStartMinusOne)
        = 2 ^ 64 - 8 := by
  obtain ⟨s1, hx, h1, -, h3, -, h5⟩ := prologue_positions sampleEnv sampleAsm
    samplePrologueState 0x4000 0x4006 0 (by decide) (by decide) (by decide) (by decide)
    (by decide) (by decide)
  exact ⟨s1, hx, h1, (h5 (by decide)).1.trans (by decide), h3.trans (by decide)⟩


/-- C13, the failing input: the same label pushed twice and then bound.  The patch of
the first push is resolved (label cleared, offset 18, the place of the binding); the
patch of the second push keeps its label and the offset 0 it was created with, and the
patching pass of a `DEBUG` build stops at its assertion. -/
theorem BindBacktrack_resolves_first_patch_only :
    ((((Emitter.mk [] []).PushBacktrackLabel sampleAsm (.user 1)).PushBacktrackLabel sampleAsm
        (.user 1)).BindBacktrack (.user 1)).labelPatches
      = [⟨none, 18, 0⟩, ⟨some (.user 1), 0, 9⟩] ∧
    GenerateCode_patches { sampleAsm with DEBUG := true } 0x1000
        ((((Emitter.mk [] []).PushBacktrackLabel sampleAsm (.user 1)).PushBacktrackLabel sampleAsm
          (.user 1)).BindBacktrack (.user 1)).labelPatches
      = .error ⟨"JS_ASSERT(!v.label)"⟩ ∧
    GenerateCode_patches sampleAsm 0x1000
        ((((Emitter.mk [] []).PushBacktrackLabel sampleAsm (.user 1)).PushBacktrackLabel sampleAsm
          (.user 1)).BindBacktrack (.user 1)).labelPatches
      = .ok [(0, 0x1000 + 18), (9, 0x1000)] :=
  ⟨by decide, rfl, rfl⟩

/-- C15, the failing input: global mode, a body that is just `Fail()`, and the value 7
left in the stack slot of `FrameData.successfulCaptures`.  No capture set is stored, and
the routine returns with 7 in `InputOutputData.result`. -/
theorem global_result_is_stale_counter :
    ∃ code, GenerateCode sampleGlobalAsm (Fail sampleGlobalAsm) = .ok code ∧
      used .success_label_ code = false ∧
      ((run sampleEnv code (fun _ => none) 8
          (exec sampleEnv code none (sampleEntryState 7))).returned?.map
        fun s => loadBytes s.mem 0x6020 8) = some 7 :=
  ⟨_, rfl, by decide, by decide!⟩

/-- C17 as stated fails: the routine generated in global mode with the zero-length check
for a body that behaves as `a*`, run on the input "aaa" from start index 0 with room for
four capture sets and the counter slot zero on entry, returns with
`InputOutputData.result = 2`, not 4: the match of "aaa" and the empty match at the end
of the input, after which the zero-length check leaves the loop. -/
theorem global_star_on_aaa_is_not_four :
    ∃ body code, sampleStarBody sampleGlobalAsm = .ok body ∧
      GenerateCode sampleGlobalAsm body = .ok code ∧
      ((run sampleEnv code (fun _ => none) 40
          (exec sampleEnv code none (sampleEntryState 0))).returned?.map
        fun s => loadBytes s.mem 0x6020 8) = some 2 ∧ (2 : Nat) ≠ 4 :=
  ⟨_, _, rfl, rfl, by decide!, by decide⟩

/-- C17, amended: in that scenario the routine returns with `successfulCaptures = 2` and
`InputOutputData.result = 2`; the first capture set stored is (0, 3), and the saved
registers hold the offsets of the second, empty match at the end of the input. -/
theorem global_star_on_aaa :
    ∃ body code, sampleStarBody sampleGlobalAsm = .ok body ∧
      GenerateCode sampleGlobalAsm body = .ok code ∧
      ((run sampleEnv code (fun _ => none) 40
          (exec sampleEnv code none (sampleEntryState 0))).returned?.map
        fun s => (loadBytes s.mem 0x7030 4, loadBytes s.mem 0x6020 8,
          loadBytes s.mem 0x8000 4, loadBytes s.mem 0x8004 4,
          loadBytes s.mem 0x7038 8, loadBytes s.mem 0x7040 8)) = some (2, 2, 0, 3, 0, 0) :=
  ⟨_, _, rfl, rfl, by decide!⟩


theorem ea_Address_zero (env : Env) (s : State) (r : Reg) :
    ea env s (.Address r 0) = s.reg r % 2 ^ env.arch.ptrBits := by
  simp [ea, wrap_natCast_mod]

theorem load16_mod (mem : Nat → Nat) (a : Nat) :
    loadBytes mem a 2 % 4294967296 = loadBytes mem a 2 := by
  have h := loadBytes_lt mem 2 a
  omega

theorem wrap_add_two (bits n : Nat) : wrap bits ((n : Int) + 2) = (n + 2) % 2 ^ bits := by
  rw [← wrap_natCast_mod]
  rfl

/-- A round of the comparison loop of `CheckNotBackReference` on two different units:
the saved `backtrack_stack_pointer` is popped and control goes to the no-match label. -/
theorem CheckNotBackReference_round_fail (env : Env) (m : Assembler) (L : Label) (t : State)
    (hmode : m.mode_ = .JSCHAR) (hL : L.isLocal = false)
    (hA : ¬ loadBytes t.mem (t.reg .current_character % 2 ^ env.arch.ptrBits) 2
          = loadBytes t.mem (t.reg .temp1 % 2 ^ env.arch.ptrBits) 2) :
    ∃ s', exec env (CheckNotBackReference_compare m (some L)) none t = .next (some L) s' ∧
      s'.reg .current_position = t.reg .current_position ∧
      s'.reg .backtrack_stack_pointer = loadBytes t.mem (t.reg .StackPointer) env.arch.ptrBytes ∧
      s'.reg .StackPointer = (t.reg .StackPointer + env.arch.ptrBytes) % 2 ^ env.arch.ptrBits ∧
      s'.reg .input_end_pointer = t.reg .input_end_pointer ∧
      s'.mem = t.mem := by
  have h5 : Label.loc 5 ≠ L := by rintro rfl; exact absurd hL (by decide)
  have h6 : Label.loc 6 ≠ L := by rintro rfl; exact absurd hL (by decide)
  refine ⟨_, by simp [CheckNotBackReference_compare, JumpOrBacktrack, exec, step, evalCond, hmode,
    char_size, ea_Address_zero, load16_mod, hA, h5, h6]; rfl, ?_, ?_, ?_, ?_, ?_⟩ <;> simp

/-- A round of the comparison loop on two equal units, with more of the match area left:
both pointers advance by one unit and control goes back to `loop`. -/
theorem CheckNotBackReference_round_next (env : Env) (m : Assembler) (L : Label) (t : State)
    (hmode : m.mode_ = .JSCHAR)
    (hA : loadBytes t.mem (t.reg .current_character % 2 ^ env.arch.ptrBits) 2
          = loadBytes t.mem (t.reg .temp1 % 2 ^ env.arch.ptrBits) 2)
    (hB : (t.reg .temp1 + 2) % 2 ^ env.arch.ptrBits
          < t.reg .backtrack_stack_pointer % 2 ^ env.arch.ptrBits) :
    ∃ t', exec env (CheckNotBackReference_compare m (some L)) none t = .next (some (.loc 8)) t' ∧
      t'.reg .current_character = (t.reg .current_character + 2) % 2 ^ env.arch.ptrBits ∧
      t'.reg .temp1 = (t.reg .temp1 + 2) % 2 ^ env.arch.ptrBits ∧
      t'.reg .backtrack_stack_pointer = t.reg .backtrack_stack_pointer ∧
      t'.reg .StackPointer = t.reg .StackPointer ∧
      t'.reg .current_position = t.reg .current_position ∧
      t'.reg .input_end_pointer = t.reg .input_end_pointer ∧
      t'.mem = t.mem := by
  refine ⟨_, by simp [CheckNotBackReference_compare, JumpOrBacktrack, exec, step, evalCond, hmode,
    char_size, ea_Address_zero, load16_mod, hA, hB, wrap_add_two]; rfl,
    ?_, ?_, ?_, ?_, ?_, ?_, ?_⟩ <;> simp

/-- A round of the comparison loop on two equal units that are the last of the match
area: `current_position` becomes the end of the match as an offset from the end of the
input, and the saved `backtrack_stack_pointer` is popped. -/
theorem CheckNotBackReference_round_done (env : Env) (m : Assembler) (L : Label) (t : State)
    (hmode : m.mode_ = .JSCHAR)
    (hA : loadBytes t.mem (t.reg .current_character % 2 ^ env.arch.ptrBits) 2
          = loadBytes t.mem (t.reg .temp1 % 2 ^ env.arch.ptrBits) 2)
    (hB : ¬ (t.reg .temp1 + 2) % 2 ^ env.arch.ptrBits
          < t.reg .backtrack_stack_pointer % 2 ^ env.arch.ptrBits) :
    ∃ s', exec env (CheckNotBackReference_compare m (some L)) none t = .next none s' ∧
      s'.reg .current_position = wrap env.arch.ptrBits
        ((t.reg .backtrack_stack_pointer : Int) - t.reg .input_end_pointer) ∧
      s'.reg .backtrack_stack_pointer = loadBytes t.mem (t.reg .StackPointer) env.arch.ptrBytes ∧
      s'.reg .StackPointer = (t.reg .StackPointer + env.arch.ptrBytes) % 2 ^ env.arch.ptrBits ∧
      s'.reg .input_end_pointer = t.reg .input_end_pointer ∧
      s'.mem = t.mem := by
  refine ⟨_, by simp [CheckNotBackReference_compare, JumpOrBacktrack, exec, step, evalCond, hmode,
    char_size, ea_Address_zero, load16_mod, hA, hB, wrap_add_two]; rfl,
    ?_, ?_, ?_, ?_, ?_⟩ <;> simp

theorem run_next_some (env : Env) (code : List Instr) (labelAt : Nat → Option Label)
    (fuel : Nat) (l : Label) (s : State) :
    run env code labelAt (fuel + 1) (.next (some l) s)
      = if binds l code then run env code labelAt fuel (exec env code (some l) s)
        else .next (some l) s := rfl

theorem run_next_none (env : Env) (code : List Instr) (labelAt : Nat → Option Label)
    (fuel : Nat) (s : State) :
    run env code labelAt (fuel + 1) (.next none s) = .next none s := rfl

/-- The comparison loop of `CheckNotBackReference`, entered with `j + 1` units left to
compare: with enough fuel it ends, falling through with `current_position` at the end of
the match when all the units are equal, and going to the no-match label with
`current_position` as it was otherwise; the saved `backtrack_stack_pointer` is popped in
both cases and memory is not changed. -/
theorem CheckNotBackReference_loop (env : Env) (m : Assembler) (L : Label)
    (code : List Instr) (labelAt : Nat → Option Label)
    (hmode : m.mode_ = .JSCHAR) (hL : L.isLocal = false)
    (hskip : ∀ t, exec env code (some (.loc 8)) t
      = exec env (CheckNotBackReference_compare m (some L)) none t)
    (hb8 : binds (.loc 8) code = true) (hbL : binds L code = false) :
    ∀ (j : Nat) (t : State),
      t.reg .current_character + 2 * (j + 1) ≤ 2 ^ env.arch.ptrBits →
      t.reg .temp1 + 2 * (j + 1) = t.reg .backtrack_stack_pointer →
      t.reg .backtrack_stack_pointer < 2 ^ env.arch.ptrBits →
      ∃ fuel s', run env code labelAt fuel
            (exec env (CheckNotBackReference_compare m (some L)) none t)
          = .next (if sameUnits t.mem (t.reg .current_character) (t.reg .temp1) (j + 1) = true
              then none else some L) s' ∧
        s'.reg .current_position
          = (if sameUnits t.mem (t.reg .current_character) (t.reg .temp1) (j + 1) = true
              then wrap env.arch.ptrBits
                ((t.reg .backtrack_stack_pointer : Int) - t.reg .input_end_pointer)
              else t.reg .current_position) ∧
        s'.reg .backtrack_stack_pointer
          = loadBytes t.mem (t.reg .StackPointer) env.arch.ptrBytes ∧
        s'.reg .StackPointer = (t.reg .StackPointer + env.arch.ptrBytes) % 2 ^ env.arch.ptrBits ∧
        s'.reg .input_end_pointer = t.reg .input_end_pointer ∧
        s'.mem = t.mem := by
  intro j
  induction j with
  | zero =>
    intro t hc hp he
    have hc' : t.reg .current_character % 2 ^ env.arch.ptrBits = t.reg .current_character :=
      Nat.mod_eq_of_lt (by omega)
    have hp' : t.reg .temp1 % 2 ^ env.arch.ptrBits = t.reg .temp1 :=
      Nat.mod_eq_of_lt (by omega)
    by_cases hA : loadBytes t.mem (t.reg .current_character) 2 = loadBytes t.mem (t.reg .temp1) 2
    · have hB : ¬ (t.reg .temp1 + 2) % 2 ^ env.arch.ptrBits
          < t.reg .backtrack_stack_pointer % 2 ^ env.arch.ptrBits := by
        rw [Nat.mod_eq_of_lt (by omega), Nat.mod_eq_of_lt he]
        omega
      obtain ⟨s', hx, h1, h2, h3, h4, h5⟩ :=
        CheckNotBackReference_round_done env m L t hmode (by rw [hc', hp']; exact hA) hB
      refine ⟨1, s', ?_, ?_, h2, h3, h4, h5⟩
      · rw [hx, run_next_none]
        simp [sameUnits, hA]
      · simp [sameUnits, hA, h1]
    · obtain ⟨s', hx, h1, h2, h3, h4, h5⟩ :=
        CheckNotBackReference_round_fail env m L t hmode hL (by rw [hc', hp']; exact hA)
      refine ⟨1, s', ?_, ?_, h2, h3, h4, h5⟩
      · rw [hx, run_next_some, hbL]
        simp [sameUnits, hA]
      · simp [sameUnits, hA, h1]
  | succ j ih =>
    intro t hc hp he
    have hc' : t.reg .current_character % 2 ^ env.arch.ptrBits = t.reg .current_character :=
      Nat.mod_eq_of_lt (by omega)
    have hp' : t.reg .temp1 % 2 ^ env.arch.ptrBits = t.reg .temp1 :=
      Nat.mod_eq_of_lt (by omega)
    by_cases hA : loadBytes t.mem (t.reg .current_character) 2 = loadBytes t.mem (t.reg .temp1) 2
    · have hB : (t.reg .temp1 + 2) % 2 ^ env.arch.ptrBits
          < t.reg .backtrack_stack_pointer % 2 ^ env.arch.ptrBits := by
        rw [Nat.mod_eq_of_lt (by omega), Nat.mod_eq_of_lt he]
        omega
      obtain ⟨t', hx, g1, g2, g3, g4, g5, g6, g7⟩ :=
        CheckNotBackReference_round_next env m L t hmode (by rw [hc', hp']; exact hA) hB
      rw [Nat.mod_eq_of_lt (by omega)] at g1 g2
      obtain ⟨fuel, s', hr, h1, h2, h3, h4, h5⟩ := ih t' (by omega) (by omega) (by omega)
      rw [g1, g2, g3, g4, g5, g6, g7] at *
      refine ⟨fuel + 1, s', ?_, ?_, h2, h3, h4, h5⟩
      · rw [hx, run_next_some, hb8, if_pos rfl, hskip, hr]
        simp [sameUnits, hA]
      · rw [h1]
        simp [sameUnits, hA]
    · obtain ⟨s', hx, h1, h2, h3, h4, h5⟩ :=
        CheckNotBackReference_round_fail env m L t hmode hL (by rw [hc', hp']; exact hA)
      refine ⟨1, s', ?_, ?_, h2, h3, h4, h5⟩
      · rw [hx, run_next_some, hbL]
        simp [sameUnits, hA]
      · simp [sameUnits, hA, h1]


@[simp] theorem toSigned_zero (a : Arch) : toSigned a.ptrBits 0 = 0 := by
  cases a <;> simp [toSigned, Arch.ptrBits, Arch.ptrBytes]

/-- The start of `CheckNotBackReference`: `current_character` receives the register
`start_reg` and `temp0` the difference of the two registers, as a machine word. -/
theorem exec_CheckNotBackReference_length (env : Env) (m : Assembler) (sr : Nat) (s : State) :
    ∃ s1, exec env (CheckNotBackReference_length m sr) none s = .next none s1 ∧
      s1.reg .current_character = s.cell env (m.register_location sr) ∧
      s1.reg .temp0 = wrap env.arch.ptrBits
        ((s.cell env (m.register_location (sr + 1)) : Int) - s.cell env (m.register_location sr)) ∧
      s1.reg .current_position = s.reg .current_position ∧
      s1.reg .backtrack_stack_pointer = s.reg .backtrack_stack_pointer ∧
      s1.reg .input_end_pointer = s.reg .input_end_pointer ∧
      s1.reg .StackPointer = s.reg .StackPointer ∧
      s1.mem = s.mem := by
  refine ⟨_, by simp [CheckNotBackReference_length, exec, step]; rfl, ?_, ?_, ?_, ?_, ?_, ?_, ?_⟩
    <;> simp [State.cell, State.loadPtr, ea, Assembler.register_location]

theorem wrap_natCast_add_mod (bits a b : Nat) :
    wrap bits ((a : Int) + (b : Int)) = (a + b) % 2 ^ bits := by
  rw [← Int.natCast_add]
  exact wrap_natCast_mod _ _

/-- `CheckNotBackReference` after the length is computed, negative length: control goes
to the no-match label. -/
theorem CheckNotBackReference_negative (env : Env) (m : Assembler) (L : Label) (s : State)
    (hL : L.isLocal = false) (hneg : toSigned env.arch.ptrBits (s.reg .temp0) < 0) :
    ∃ s', exec env (CheckNotBackReference_setup (some L) ++ [.bind (.loc 8)]
          ++ CheckNotBackReference_compare m (some L)) none s = .next (some L) s' ∧
      s'.reg .current_position = s.reg .current_position ∧
      s'.reg .backtrack_stack_pointer = s.reg .backtrack_stack_pointer := by
  have h5 : Label.loc 5 ≠ L := by rintro rfl; exact absurd hL (by decide)
  have h6 : Label.loc 6 ≠ L := by rintro rfl; exact absurd hL (by decide)
  have h7 : Label.loc 7 ≠ L := by rintro rfl; exact absurd hL (by decide)
  have h8 : Label.loc 8 ≠ L := by rintro rfl; exact absurd hL (by decide)
  refine ⟨_, by
    simp [CheckNotBackReference_setup, CheckNotBackReference_compare, JumpOrBacktrack,
      BranchOrBacktrack, exec, step, evalCond, toSigned_mod, hneg, h5, h6, h7, h8]
    rfl, ?_, ?_⟩ <;> simp

/-- `CheckNotBackReference` after the length is computed, length zero: control falls
through the end of the operation. -/
theorem CheckNotBackReference_empty (env : Env) (m : Assembler) (L : Label) (s : State)
    (hzero : toSigned env.arch.ptrBits (s.reg .temp0) = 0) :
    ∃ s', exec env (CheckNotBackReference_setup (some L) ++ [.bind (.loc 8)]
          ++ CheckNotBackReference_compare m (some L)) none s = .next none s' ∧
      s'.reg .current_position = s.reg .current_position ∧
      s'.reg .backtrack_stack_pointer = s.reg .backtrack_stack_pointer := by
  have hz : s.reg .temp0 % 2 ^ env.arch.ptrBits = 0 := by
    revert hzero
    rcases env.arch <;> simp [toSigned, Arch.ptrBits, Arch.ptrBytes] <;> intro h <;>
      split_ifs at h <;> omega
  refine ⟨_, by
    simp [CheckNotBackReference_setup, CheckNotBackReference_compare, JumpOrBacktrack,
      BranchOrBacktrack, exec, step, evalCond, toSigned_mod, hzero, hz]
    rfl, ?_, ?_⟩ <;> simp

/-- `CheckNotBackReference` after the length is computed, positive length that reaches
past the end of the input: control goes to the no-match label. -/
theorem CheckNotBackReference_past_end (env : Env) (m : Assembler) (L : Label) (s : State)
    (hL : L.isLocal = false) (hpos : 0 < toSigned env.arch.ptrBits (s.reg .temp0))
    (hover : 0 < toSigned env.arch.ptrBits (s.reg .current_position + s.reg .temp0)) :
    ∃ s', exec env (CheckNotBackReference_setup (some L) ++ [.bind (.loc 8)]
          ++ CheckNotBackReference_compare m (some L)) none s = .next (some L) s' ∧
      s'.reg .current_position = s.reg .current_position ∧
      s'.reg .backtrack_stack_pointer = s.reg .backtrack_stack_pointer := by
  have h5 : Label.loc 5 ≠ L := by rintro rfl; exact absurd hL (by decide)
  have h6 : Label.loc 6 ≠ L := by rintro rfl; exact absurd hL (by decide)
  have h7 : Label.loc 7 ≠ L := by rintro rfl; exact absurd hL (by decide)
  have h8 : Label.loc 8 ≠ L := by rintro rfl; exact absurd hL (by decide)
  have hz : ¬ s.reg .temp0 % 2 ^ env.arch.ptrBits = 0 := by
    revert hpos
    rcases env.arch <;> simp [toSigned, Arch.ptrBits, Arch.ptrBytes] <;> intro h <;>
      split_ifs at h <;> omega
  refine ⟨_, by
    simp [CheckNotBackReference_setup, CheckNotBackReference_compare, JumpOrBacktrack,
      BranchOrBacktrack, exec, step, evalCond, toSigned_mod, not_lt.mpr (le_of_lt hpos), hz,
      hover, h5, h6, h7, h8]
    rfl, ?_, ?_⟩ <;> simp

/-- `CheckNotBackReference` after the length is computed, positive length that fits in
the input: `backtrack_stack_pointer` is pushed on the native stack and the pointers to
the capture, to the match and to the end of the match are set up. -/
theorem CheckNotBackReference_setup_enter (env : Env) (L : Label) (s : State)
    (hpos : 0 < toSigned env.arch.ptrBits (s.reg .temp0))
    (hfit : ¬ 0 < toSigned env.arch.ptrBits (s.reg .current_position + s.reg .temp0)) :
    ∃ t, exec env (CheckNotBackReference_setup (some L)) none s = .next none t ∧
      t.reg .current_character
        = (s.reg .current_character + s.reg .input_end_pointer) % 2 ^ env.arch.ptrBits ∧
      t.reg .temp1 = (s.reg .input_end_pointer + s.reg .current_position) % 2 ^ env.arch.ptrBits ∧
      t.reg .backtrack_stack_pointer
        = (s.reg .temp0 + (s.reg .input_end_pointer + s.reg .current_position)
            % 2 ^ env.arch.ptrBits) % 2 ^ env.arch.ptrBits ∧
      t.reg .StackPointer
        = wrap env.arch.ptrBits ((s.reg .StackPointer : Int) - env.arch.ptrBytes) ∧
      t.reg .current_position = s.reg .current_position ∧
      t.reg .input_end_pointer = s.reg .input_end_pointer ∧
      t.mem = storeBytes s.mem
        (wrap env.arch.ptrBits ((s.reg .StackPointer : Int) - env.arch.ptrBytes))
        env.arch.ptrBytes (s.reg .backtrack_stack_pointer) := by
  have hz : ¬ s.reg .temp0 % 2 ^ env.arch.ptrBits = 0 := by
    revert hpos
    rcases env.arch <;> simp [toSigned, Arch.ptrBits, Arch.ptrBytes] <;> intro h <;>
      split_ifs at h <;> omega
  refine ⟨_, by
    simp [CheckNotBackReference_setup, BranchOrBacktrack, exec, step, evalCond,
      toSigned_mod, not_lt.mpr (le_of_lt hpos), hz, hfit]
    rfl, ?_, ?_, ?_, ?_, ?_, ?_, ?_⟩ <;>
    simp [ea, Scale.mult, wrap_natCast_add_mod]
  have h : (((s.reg .input_end_pointer : Int) + (s.reg .current_position : Int))
      % 2 ^ env.arch.ptrBits)
      = (((s.reg .input_end_pointer + s.reg .current_position) % 2 ^ env.arch.ptrBits : Nat) : Int) := by
    push_cast
    rfl
  rw [h, wrap_natCast_add_mod, Nat.add_mod_mod]

theorem sameUnits_congr (mem mem' : Nat → Nat) :
    ∀ (n a b : Nat),
      (∀ x, (a ≤ x ∧ x < a + 2 * n) ∨ (b ≤ x ∧ x < b + 2 * n) → mem x = mem' x) →
      sameUnits mem a b n = sameUnits mem' a b n := by
  intro n
  induction n with
  | zero => intro a b _; rfl
  | succ n ih =>
    intro a b h
    simp only [sameUnits]
    rw [loadBytes_congr mem mem' 2 a (fun x h1 h2 => h x (Or.inl ⟨h1, by omega⟩)),
      loadBytes_congr mem mem' 2 b (fun x h1 h2 => h x (Or.inr ⟨h1, by omega⟩)),
      ih (a + 2) (b + 2) (fun x hx => h x (by omega))]

theorem CheckNotBackReference_binds_loop (m : Assembler) (sr : Nat) (L : Label) :
    binds (.loc 8) (CheckNotBackReference_length m sr ++ CheckNotBackReference_setup (some L)
      ++ [.bind (.loc 8)] ++ CheckNotBackReference_compare m (some L)) = true := by
  simp [binds, CheckNotBackReference_length, CheckNotBackReference_setup,
    CheckNotBackReference_compare, BranchOrBacktrack, JumpOrBacktrack]

theorem CheckNotBackReference_binds_outer (m : Assembler) (sr : Nat) (L : Label)
    (hL : L.isLocal = false) :
    binds L (CheckNotBackReference_length m sr ++ CheckNotBackReference_setup (some L)
      ++ [.bind (.loc 8)] ++ CheckNotBackReference_compare m (some L)) = false := by
  have h5 : Label.loc 5 ≠ L := by rintro rfl; exact absurd hL (by decide)
  have h6 : Label.loc 6 ≠ L := by rintro rfl; exact absurd hL (by decide)
  have h7 : Label.loc 7 ≠ L := by rintro rfl; exact absurd hL (by decide)
  have h8 : Label.loc 8 ≠ L := by rintro rfl; exact absurd hL (by decide)
  simp [binds, CheckNotBackReference_length, CheckNotBackReference_setup,
    CheckNotBackReference_compare, BranchOrBacktrack, JumpOrBacktrack, h5, h6, h7, h8]

theorem CheckNotBackReference_skip (env : Env) (m : Assembler) (sr : Nat) (L : Label)
    (t : State) :
    exec env (CheckNotBackReference_length m sr ++ CheckNotBackReference_setup (some L)
      ++ [.bind (.loc 8)] ++ CheckNotBackReference_compare m (some L)) (some (.loc 8)) t
      = exec env (CheckNotBackReference_compare m (some L)) none t := by
  simp [CheckNotBackReference_length, CheckNotBackReference_setup, BranchOrBacktrack, exec]

theorem toSigned_add_of_nonpos (a : Arch) (cp lw : Nat) (hlw : lw < 2 ^ a.ptrBits)
    (hcp : toSigned a.ptrBits cp ≤ 0) (hpos : 0 < toSigned a.ptrBits lw) :
    toSigned a.ptrBits (cp + lw) = toSigned a.ptrBits cp + toSigned a.ptrBits lw := by
  cases a <;> simp [toSigned, Arch.ptrBits, Arch.ptrBytes] at * <;> split_ifs at * <;> omega

theorem toSigned_toNat_of_pos (a : Arch) (lw : Nat) (hlw : lw < 2 ^ a.ptrBits)
    (hpos : 0 < toSigned a.ptrBits lw) : (toSigned a.ptrBits lw).toNat = lw := by
  cases a <;> simp [toSigned, Arch.ptrBits, Arch.ptrBytes] at * <;> split_ifs at * <;> omega

theorem wrap_end_sub (a : Arch) (iep cp lw : Nat) :
    wrap a.ptrBits ((((lw + (iep + cp) % 2 ^ a.ptrBits) % 2 ^ a.ptrBits : Nat) : Int) - iep)
      = wrap a.ptrBits ((cp : Int) + lw) := by
  cases a <;> simp [wrap, Arch.ptrBits, Arch.ptrBytes] <;> omega

/-- C14: `CheckNotBackReference(start_reg, L)` in 16-bit mode, `len` being the difference
of the registers `start_reg + 1` and `start_reg` as a signed machine word, with
`current_position ≤ 0`.  With enough fuel the code ends: at L when `len < 0`; falling
through with `current_position` unchanged when `len = 0`; at L when `len > 0` and
`current_position + len > 0`; otherwise (for an even `len`, capture and match areas that
do not wrap around the address space and do not overlap the native stack slot the code
pushes into) falling through with `current_position` increased by `len` when the
`len / 2` 16-bit units at `input_end_pointer + register[start_reg]` equal those at
`input_end_pointer + current_position`, and at L with `current_position` unchanged when
they differ.  In every case `backtrack_stack_pointer` has the value it had on entry. -/
theorem CheckNotBackReference_spec (env : Env) (m : Assembler) (sr : Nat) (L : Label)
    (labelAt : Nat → Option Label) (s : State) (len : Int)
    (hmode : m.mode_ = .JSCHAR) (hL : L.isLocal = false)
    (hlen : toSigned env.arch.ptrBits (wrap env.arch.ptrBits
      ((s.cell env (m.register_location (sr + 1)) : Int) - s.cell env (m.register_location sr)))
      = len)
    (hcp : toSigned env.arch.ptrBits (s.reg .current_position) ≤ 0)
    (hbsp : s.reg .backtrack_stack_pointer < 2 ^ env.arch.ptrBits)
    (heven : 0 < len → len % 2 = 0)
    (hmatch : 0 < len →
      (s.reg .input_end_pointer + s.reg .current_position) % 2 ^ env.arch.ptrBits + len.toNat
        < 2 ^ env.arch.ptrBits)
    (hcapt : 0 < len →
      (s.cell env (m.register_location sr) + s.reg .input_end_pointer) % 2 ^ env.arch.ptrBits
        + len.toNat ≤ 2 ^ env.arch.ptrBits)
    (hsepm : 0 < len →
      wrap env.arch.ptrBits ((s.reg .StackPointer : Int) - env.arch.ptrBytes) + env.arch.ptrBytes
        ≤ (s.reg .input_end_pointer + s.reg .current_position) % 2 ^ env.arch.ptrBits ∨
      (s.reg .input_end_pointer + s.reg .current_position) % 2 ^ env.arch.ptrBits + len.toNat
        ≤ wrap env.arch.ptrBits ((s.reg .StackPointer : Int) - env.arch.ptrBytes))
    (hsepc : 0 < len →
      wrap env.arch.ptrBits ((s.reg .StackPointer : Int) - env.arch.ptrBytes) + env.arch.ptrBytes
        ≤ (s.cell env (m.register_location sr) + s.reg .input_end_pointer)
            % 2 ^ env.arch.ptrBits ∨
      (s.cell env (m.register_location sr) + s.reg .input_end_pointer) % 2 ^ env.arch.ptrBits
          + len.toNat
        ≤ wrap env.arch.ptrBits ((s.reg .StackPointer : Int) - env.arch.ptrBytes)) :
    ∃ code, CheckNotBackReference m sr (some L) = .ok code ∧
      ∃ fuel s', run env code labelAt fuel (exec env code none s)
          = .next
            (if len < 0 then some L
             else if len = 0 then none
             else if 0 < toSigned env.arch.ptrBits (s.reg .current_position) + len then some L
             else if sameUnits s.mem
                 ((s.cell env (m.register_location sr) + s.reg .input_end_pointer)
                   % 2 ^ env.arch.ptrBits)
                 ((s.reg .input_end_pointer + s.reg .current_position) % 2 ^ env.arch.ptrBits)
                 (len.toNat / 2) = true then none
             else some L) s' ∧
        s'.reg .backtrack_stack_pointer = s.reg .backtrack_stack_pointer ∧
        s'.reg .current_position
          = (if 0 < len ∧ ¬ 0 < toSigned env.arch.ptrBits (s.reg .current_position) + len ∧
               sameUnits s.mem
                 ((s.cell env (m.register_location sr) + s.reg .input_end_pointer)
                   % 2 ^ env.arch.ptrBits)
                 ((s.reg .input_end_pointer + s.reg .current_position) % 2 ^ env.arch.ptrBits)
                 (len.toNat / 2) = true
             then wrap env.arch.ptrBits ((s.reg .current_position : Int) + len)
             else s.reg .current_position) := by
  obtain ⟨s1, hx1, hcc, ht0, hcp1, hbsp1, hiep1, hsp1, hmem1⟩ :=
    exec_CheckNotBackReference_length env m sr s
  have hcode : CheckNotBackReference m sr (some L)
      = .ok (CheckNotBackReference_length m sr ++ CheckNotBackReference_setup (some L)
          ++ [.bind (.loc 8)] ++ CheckNotBackReference_compare m (some L)) := by
    simp [CheckNotBackReference, hmode]
  refine ⟨_, hcode, ?_⟩
  have hexec : exec env (CheckNotBackReference_length m sr ++ CheckNotBackReference_setup (some L)
          ++ [.bind (.loc 8)] ++ CheckNotBackReference_compare m (some L)) none s
      = exec env (CheckNotBackReference_setup (some L) ++ [.bind (.loc 8)]
          ++ CheckNotBackReference_compare m (some L)) none s1 := by
    rw [List.append_assoc, List.append_assoc, exec_append, hx1, andThen_next,
      ← List.append_assoc]
  rw [hexec]
  have hlw : s1.reg .temp0 < 2 ^ env.arch.ptrBits := by rw [ht0]; exact wrap_lt _ _
  rw [← ht0] at hlen
  have hbL := CheckNotBackReference_binds_outer m sr L hL
  rcases lt_trichotomy len 0 with hneg | hzero | hpos
  · obtain ⟨s', hx, h1, h2⟩ :=
      CheckNotBackReference_negative env m L s1 hL (by rw [hlen]; exact hneg)
    refine ⟨1, s', ?_, by rw [h2, hbsp1], ?_⟩
    · rw [hx, run_next_some, hbL]
      simp [hneg]
    · rw [h1, hcp1, if_neg]
      intro h
      omega
  · obtain ⟨s', hx, h1, h2⟩ :=
      CheckNotBackReference_empty env m L s1 (by rw [hlen]; exact hzero)
    refine ⟨1, s', ?_, by rw [h2, hbsp1], ?_⟩
    · rw [hx, run_next_none]
      simp [hzero]
    · rw [h1, hcp1, if_neg]
      intro h
      omega
  · have hsum : toSigned env.arch.ptrBits (s1.reg .current_position + s1.reg .temp0)
        = toSigned env.arch.ptrBits (s.reg .current_position) + len := by
      rw [hcp1, toSigned_add_of_nonpos _ _ _ hlw hcp (by rw [hlen]; exact hpos), hlen]
    by_cases hover : 0 < toSigned env.arch.ptrBits (s.reg .current_position) + len
    · obtain ⟨s', hx, h1, h2⟩ :=
        CheckNotBackReference_past_end env m L s1 hL (by rw [hlen]; exact hpos)
          (by rw [hsum]; exact hover)
      refine ⟨1, s', ?_, by rw [h2, hbsp1], ?_⟩
      · rw [hx, run_next_some, hbL]
        simp [hover, not_lt.mpr (le_of_lt hpos), ne_of_gt hpos]
      · rw [h1, hcp1, if_neg]
        intro h
        exact h.2.1 hover
    · obtain ⟨t, hxt, gcc, gt1, gbsp, gsp, gcp, giep, gmem⟩ :=
        CheckNotBackReference_setup_enter env L s1 (by rw [hlen]; exact hpos)
          (by rw [hsum]; exact hover)
      have hnat : len.toNat = s1.reg .temp0 := by
        rw [← hlen]
        exact toSigned_toNat_of_pos _ _ hlw (by rw [hlen]; exact hpos)
      have hlenInt : ((s1.reg .temp0 : Nat) : Int) = len := by
        rw [← hnat]
        exact Int.toNat_of_nonneg (le_of_lt hpos)
      obtain ⟨j, hj⟩ : ∃ j, len.toNat = 2 * (j + 1) :=
        ⟨len.toNat / 2 - 1, by have := heven hpos; omega⟩
      have hhalf : len.toNat / 2 = j + 1 := by omega
      have hrest : exec env (CheckNotBackReference_setup (some L) ++ [.bind (.loc 8)]
            ++ CheckNotBackReference_compare m (some L)) none s1
          = exec env (CheckNotBackReference_compare m (some L)) none t := by
        rw [List.append_assoc, exec_append, hxt, andThen_next]
        simp [exec, step]
      rw [hrest]
      have hm := hmatch hpos
      obtain ⟨fuel, s', hr, h1, h2, h3, h4, h5⟩ :=
        CheckNotBackReference_loop env m L _ labelAt hmode hL
          (CheckNotBackReference_skip env m sr L) (CheckNotBackReference_binds_loop m sr L) hbL
          j t
          (by rw [gcc, hcc, hiep1, ← hj]; exact hcapt hpos)
          (by
            rw [gt1, gbsp, hiep1, hcp1, ← hj, ← hnat]
            have hb : (len.toNat + (s.reg .input_end_pointer + s.reg .current_position)
                % 2 ^ env.arch.ptrBits) % 2 ^ env.arch.ptrBits
                = len.toNat + (s.reg .input_end_pointer + s.reg .current_position)
                  % 2 ^ env.arch.ptrBits := Nat.mod_eq_of_lt (by omega)
            rw [hb]
            omega)
          (by rw [gbsp]; exact Nat.mod_lt _ (by positivity))
      have hsame : sameUnits t.mem (t.reg .current_character) (t.reg .temp1) (j + 1)
          = sameUnits s.mem
              ((s.cell env (m.register_location sr) + s.reg .input_end_pointer)
                % 2 ^ env.arch.ptrBits)
              ((s.reg .input_end_pointer + s.reg .current_position) % 2 ^ env.arch.ptrBits)
              (len.toNat / 2) := by
        rw [gcc, gt1, hcc, hiep1, hcp1, hhalf, gmem, hmem1, hsp1]
        apply sameUnits_congr
        intro x hx
        have h1 := hsepm hpos
        have h2 := hsepc hpos
        have h3 : ¬ (wrap env.arch.ptrBits ((s.reg .StackPointer : Int) - env.arch.ptrBytes) ≤ x ∧
            x < wrap env.arch.ptrBits ((s.reg .StackPointer : Int) - env.arch.ptrBytes)
              + env.arch.ptrBytes) := by omega
        simp only [storeBytes, h3, if_false]
      rw [hsame] at hr h1
      refine ⟨fuel, s', ?_, ?_, ?_⟩
      · rw [hr]
        simp [hover, not_lt.mpr (le_of_lt hpos), ne_of_gt hpos]
      · rw [h2, gmem, gsp, loadBytes_storeBytes_same, pow_ptrBytes, hbsp1,
          Nat.mod_eq_of_lt hbsp]
      · rw [h1, gbsp, giep, gcp, hiep1, hcp1, wrap_end_sub, hlenInt]
        simp [hpos, hover]

theorem CheckNotBackReference_spec_witness :
    ∃ code, CheckNotBackReference sampleAsm 0 (some (.user 1)) = .ok code ∧
      ∃ fuel s', run sampleEnv code (fun _ => none) fuel (exec sampleEnv code none sampleBackRefState)
          = .next none s' ∧
        s'.reg .backtrack_stack_pointer = 0x5000 ∧
        s'.reg .current_position = 2 ^ 64 - 2 := by
  obtain ⟨code, hc, fuel, s', hr, hb, hp⟩ :=
    CheckNotBackReference_spec sampleEnv sampleAsm 0 (.user 1) (fun _ => none)
      sampleBackRefState 2 rfl rfl (by decide) (by decide) (by decide) (fun _ => by decide)
      (fun _ => by decide) (fun _ => by decide) (fun _ => by decide) (fun _ => by decide)
  rw [if_neg (by decide), if_neg (by decide), if_neg (by decide), if_pos (by decide)] at hr
  rw [if_pos (by decide)] at hp
  exact ⟨code, hc, fuel, s', hr, hb, hp.trans (by decide)⟩


theorem JS_ROUNDUP_spec (x y : Nat) (hy : 0 < y) :
    x ≤ JS_ROUNDUP x y ∧ JS_ROUNDUP x y < x + y ∧ y ∣ JS_ROUNDUP x y := by
  unfold JS_ROUNDUP
  have h1 := Nat.div_add_mod (x + y - 1) y
  have h2 := Nat.mod_lt (x + y - 1) hy
  have h3 : (x + y - 1) / y * y = y * ((x + y - 1) / y) := Nat.mul_comm _ _
  refine ⟨by omega, by omega, Dvd.intro_left _ rfl⟩

/-- C21: for every unrounded size, every number of bytes already pushed and every
`StackAlignment > 0`, the `frameSize` computed by `GenerateCode` is at least the unrounded
size `sizeof(FrameData) + num_registers_ * sizeof(void *)`, exceeds it by less than
`StackAlignment`, and makes `frameSize + framePushed` a multiple of `StackAlignment`; the
`frameSize` of an assembler is that value for its own sizes. -/
theorem frameSize_aligned (m : Assembler) (unrounded framePushed StackAlignment : Nat)
    (hal : 0 < StackAlignment) :
    unrounded ≤ GenerateCode_frameSize unrounded framePushed StackAlignment ∧
    GenerateCode_frameSize unrounded framePushed StackAlignment < unrounded + StackAlignment ∧
    StackAlignment ∣ GenerateCode_frameSize unrounded framePushed StackAlignment + framePushed ∧
    m.frameSize = GenerateCode_frameSize
      (m.layout.sizeof_FrameData + m.num_registers_ * m.arch.ptrBytes) m.framePushed
      m.StackAlignment := by
  obtain ⟨h1, h2, h3⟩ := JS_ROUNDUP_spec (unrounded + framePushed) StackAlignment hal
  unfold GenerateCode_frameSize
  refine ⟨by omega, by omega, ?_, rfl⟩
  rw [Nat.sub_add_cancel (by omega)]
  exact h3

theorem frameSize_aligned_witness :
    (0 < 16) ∧ 72 ≤ GenerateCode_frameSize 72 24 16 ∧
    GenerateCode_frameSize 72 24 16 < 72 + 16 ∧
    16 ∣ GenerateCode_frameSize 72 24 16 + 24 ∧ sampleAsm.frameSize = 72 := by
  obtain ⟨h1, h2, h3, h4⟩ := frameSize_aligned sampleAsm 72 24 16 (by decide)
  exact ⟨by decide, h1, h2, h3, h4.trans (by decide)⟩


/-- C22 as stated fails: in ASCII mode `CheckSpecialCharacterClass('d', …)` does not reach
the unimplemented trap; it emits the three instructions of the digit test and returns
true. -/
theorem CheckSpecialCharacterClass_ascii_digit_emits :
    CheckSpecialCharacterClass .ASCII 'd'.toNat (some (.user 1))
      = .ok (true,
          [.computeEffectiveAddress (.Address .current_character (-48)) .temp0,
           .cmp32 .temp0 9, .j .Above (.user 1)]) := rfl

/-- C22, amended: in ASCII mode `CheckSpecialCharacterClass` reaches the unimplemented trap
for the space kind `'s'` only.  For the digit kind `'d'` and the word kind `'w'` it returns
true and emits code: the same digit test as in 16-bit mode, and for `'w'` the table look-up
without the preceding comparison with `'z'`. -/
theorem CheckSpecialCharacterClass_ascii (on_no_match : Option Label) :
    CheckSpecialCharacterClass .ASCII 's'.toNat on_no_match
      = .error ⟨"Ascii version not implemented"⟩ ∧
    CheckSpecialCharacterClass .ASCII 'd'.toNat on_no_match
      = CheckSpecialCharacterClass .JSCHAR 'd'.toNat on_no_match ∧
    CheckSpecialCharacterClass .ASCII 'd'.toNat on_no_match
      = .ok (true,
          [.computeEffectiveAddress (.Address .current_character (-48)) .temp0,
           .cmp32 .temp0 9, .j .Above (on_no_match.getD .backtrack_label_)]) ∧
    CheckSpecialCharacterClass .ASCII 'w'.toNat on_no_match
      = .ok (true,
          [.movImmPtr .word_character_map .temp0,
           .load8ZeroExtend (.BaseIndex .temp0 .current_character .TimesOne 0) .temp0,
           .test32 .temp0 .temp0, .j .Zero (on_no_match.getD .backtrack_label_)]) := by
  cases on_no_match <;> exact ⟨rfl, rfl, rfl, rfl⟩


theorem toSigned_of_lt (n : Nat) (h : n < 2 ^ 31) : toSigned 32 n = n := by
  have : n % 2 ^ 32 = n := Nat.mod_eq_of_lt (by omega)
  simp only [toSigned, this]
  norm_num
  omega

/-- The signed comparisons of `CheckCharacterGT` and `CheckCharacterLT` on operands below
`2 ^ 31` decide as the unsigned comparisons. -/
theorem exec_CheckCharacterGT_LT (env : Env) (s : State) (c : Nat) (lbl : Option Label)
    (hch : s.reg .current_character < 2 ^ 31) (hc : c < 2 ^ 31) :
    ((exec env (CheckCharacterGT c lbl) none s).branchedTo (lbl.getD .backtrack_label_)
      = decide (c < s.reg .current_character)) ∧
    ((exec env (CheckCharacterLT c lbl) none s).branchedTo (lbl.getD .backtrack_label_)
      = decide (s.reg .current_character < c)) := by
  have h1 : s.reg .current_character % 4294967296 = s.reg .current_character :=
    Nat.mod_eq_of_lt (by omega)
  have h2 : wrap 32 (c : Int) = c := wrap_natCast 32 c (by omega)
  have h3 := toSigned_of_lt _ hch
  have h4 := toSigned_of_lt _ hc
  simp [CheckCharacterGT, CheckCharacterLT, BranchOrBacktrack_eq, exec, step, evalCond, h1, h2,
    h3, h4]

/-- C23 as stated fails: there is no `current_character` value between 0x8000 and 0xFFFF
and 16-bit limit `c` for which the signed comparison emitted by `CheckCharacterGT` or
`CheckCharacterLT` branches differently from the unsigned comparison. -/
theorem CheckCharacterGT_LT_no_observable_sign :
    ¬ ∃ ch c : Nat, 0x8000 ≤ ch ∧ ch ≤ 0xFFFF ∧ c ≤ 0xFFFF ∧
      ((exec sampleEnv (CheckCharacterGT c (some (.user 1))) none (sampleState ch)).branchedTo
          (.user 1) ≠ decide (c < ch) ∨
       (exec sampleEnv (CheckCharacterLT c (some (.user 1))) none (sampleState ch)).branchedTo
          (.user 1) ≠ decide (ch < c)) := by
  rintro ⟨ch, c, -, h2, h3, h⟩
  have hreg : (sampleState ch).reg .current_character = ch := rfl
  obtain ⟨g1, g2⟩ := exec_CheckCharacterGT_LT sampleEnv (sampleState ch) c (some (.user 1))
    (by rw [hreg]; omega) (by omega)
  rw [hreg] at g1 g2
  rcases h with h | h
  · exact h g1
  · exact h g2

/-- C23, amended: for a `current_character` loaded as one zero-extended 16-bit character
(at most 0xFFFF) and every 16-bit limit `c`, the signed 32-bit comparison emitted by
`CheckCharacterGT` branches exactly when `current_character > c` and the one emitted by
`CheckCharacterLT` exactly when `current_character < c`: the signed conditions decide as
the unsigned comparison, also for characters from 0x8000 on. -/
theorem CheckCharacterGT_LT_unsigned (env : Env) (s : State) (c : Nat) (lbl : Option Label)
    (hch : s.reg .current_character ≤ 0xFFFF) (hc : c ≤ 0xFFFF) :
    ((exec env (CheckCharacterGT c lbl) none s).branchedTo (lbl.getD .backtrack_label_) = true
      ↔ c < s.reg .current_character) ∧
    ((exec env (CheckCharacterLT c lbl) none s).branchedTo (lbl.getD .backtrack_label_) = true
      ↔ s.reg .current_character < c) := by
  obtain ⟨g1, g2⟩ := exec_CheckCharacterGT_LT env s c lbl (by omega) (by omega)
  rw [g1, g2]
  simp

theorem CheckCharacterGT_LT_unsigned_witness :
    ((exec sampleEnv (CheckCharacterGT 0x41 (some (.user 1))) none (sampleState 0x9000)).branchedTo
        (.user 1) = true ↔ 0x41 < 0x9000) ∧
    ((exec sampleEnv (CheckCharacterLT 0x41 (some (.user 1))) none (sampleState 0x9000)).branchedTo
        (.user 1) = true ↔ 0x9000 < 0x41) :=
  CheckCharacterGT_LT_unsigned sampleEnv (sampleState 0x9000) 0x41 (some (.user 1))
    (by decide) (by decide)


/-- C24 as stated fails: on the 64-bit target `PushBacktrack(-1)` stores the entry
`2 ^ 64 - 1`, whose upper 32 bits are all ones; the zero-extension of the 32-bit value
would be `2 ^ 32 - 1`. -/
theorem PushBacktrack_negative_value_sign_extends :
    ((exec sampleEnv (PushBacktrackValue sampleAsm (-1)) none (sampleLimitState 0x5000 0)).state?.map
      fun s => (loadBytes s.mem 0x5000 8, loadBytes s.mem 0x5000 8 / 2 ^ 32,
        s.reg .backtrack_stack_pointer))
      = some (2 ^ 64 - 1, 2 ^ 32 - 1, 0x5008) ∧
    wrap 32 (-1) = 2 ^ 32 - 1 := by
  decide

/-- C24, amended: for every int32 value `v`, `PushBacktrack(v)` on a 64-bit target stores at
the old `backtrack_stack_pointer` a pointer-sized entry equal to `v` sign-extended to 64
bits (upper 32 bits zero when `v ≥ 0`, all ones when `v < 0`), changes no other memory, and
advances `backtrack_stack_pointer` by one pointer size. -/
theorem PushBacktrackValue_sign_extends (env : Env) (m : Assembler) (v : Int) (s : State)
    (henv : env.arch = .x64) (hm : m.arch = .x64)
    (hv1 : -2 ^ 31 ≤ v) (hv2 : v < 2 ^ 31) (hb : s.reg .backtrack_stack_pointer < 2 ^ 64) :
    ∃ s', exec env (PushBacktrackValue m v) none s = .next none s' ∧
      loadBytes s'.mem (s.reg .backtrack_stack_pointer) 8 = wrap 64 v ∧
      toSigned 64 (loadBytes s'.mem (s.reg .backtrack_stack_pointer) 8) = v ∧
      loadBytes s'.mem (s.reg .backtrack_stack_pointer) 8 / 2 ^ 32
        = (if 0 ≤ v then 0 else 2 ^ 32 - 1) ∧
      (∀ x, x < s.reg .backtrack_stack_pointer ∨ s.reg .backtrack_stack_pointer + 8 ≤ x →
        s'.mem x = s.mem x) ∧
      s'.reg .backtrack_stack_pointer = (s.reg .backtrack_stack_pointer + 8) % 2 ^ 64 := by
  have hW : env.arch.ptrBits = 64 := by rw [henv]; rfl
  have hP : env.arch.ptrBytes = 8 := by rw [henv]; rfl
  have hmP : m.arch.ptrBytes = 8 := by rw [hm]; rfl
  have hea : wrap 64 (s.reg .backtrack_stack_pointer : Int) = s.reg .backtrack_stack_pointer :=
    wrap_natCast 64 _ hb
  obtain ⟨s', hx, hmem, hreg⟩ : ∃ s', exec env (PushBacktrackValue m v) none s = .next none s' ∧
      s'.mem = storeBytes s.mem (s.reg .backtrack_stack_pointer) 8 (wrap 64 v) ∧
      s'.reg .backtrack_stack_pointer = (s.reg .backtrack_stack_pointer + 8) % 2 ^ 64 := by
    refine ⟨_, by simp [PushBacktrackValue, exec, step]; rfl, ?_, ?_⟩
    · simp [ea, hW, hP, hea]
    · simp only [setReg_reg, setFlags_reg, store_reg, if_true, hW, hmP]
      exact wrap_natCast_add_mod 64 _ 8
  have hlt : wrap 64 v < 256 ^ 8 := by
    have := wrap_lt 64 v
    have e : (256 : Nat) ^ 8 = 2 ^ 64 := by norm_num
    rw [e]
    exact this
  have hload : loadBytes s'.mem (s.reg .backtrack_stack_pointer) 8 = wrap 64 v := by
    rw [hmem, loadBytes_storeBytes_same]
    exact Nat.mod_eq_of_lt hlt
  have e64 : Arch.x64.ptrBits = 64 := rfl
  have hs := toSigned_wrap .x64 v (by rw [e64]; norm_num; omega) (by rw [e64]; norm_num; omega)
  rw [e64] at hs
  refine ⟨s', hx, hload, by rw [hload]; exact hs, ?_, ?_, hreg⟩
  · rw [hload]
    simp only [wrap]
    norm_num
    split_ifs <;> omega
  · intro x hx
    rw [hmem]
    have h3 : ¬ (s.reg .backtrack_stack_pointer ≤ x ∧ x < s.reg .backtrack_stack_pointer + 8) := by
      omega
    simp only [storeBytes, h3, if_false]

theorem PushBacktrackValue_sign_extends_witness :
    ∃ s', exec sampleEnv (PushBacktrackValue sampleAsm (-5)) none (sampleLimitState 0x5000 0)
        = .next none s' ∧
      toSigned 64 (loadBytes s'.mem 0x5000 8) = -5 ∧
      loadBytes s'.mem 0x5000 8 / 2 ^ 32 = 2 ^ 32 - 1 ∧
      s'.reg .backtrack_stack_pointer = 0x5008 := by
  obtain ⟨s', h1, -, h3, h4, -, h6⟩ := PushBacktrackValue_sign_extends sampleEnv sampleAsm (-5)
    (sampleLimitState 0x5000 0) rfl rfl (by decide) (by decide) (by decide)
  exact ⟨s', h1, h3, h4.trans (by decide), h6.trans (by decide)⟩


/-- C27: `PushBacktrack(source)` followed by `PopBacktrack(target)`, for registers other
than `backtrack_stack_pointer` and machine-word register values: the push stores the value
of `source` at the old `backtrack_stack_pointer` and raises the pointer by one pointer
size, touching no other memory (so no entry below the pushed one is modified); the pop
lowers the pointer by one pointer size and then loads, so that afterwards `target` holds
the value of `source`, `backtrack_stack_pointer` has its value from before the push, and
memory is as the push left it. -/
theorem PushBacktrack_PopBacktrack_round_trip (env : Env) (m : Assembler) (source target : Reg)
    (s : State) (harch : m.arch = env.arch)
    (hsrc : source ≠ .backtrack_stack_pointer) (htgt : target ≠ .backtrack_stack_pointer)
    (hv : s.reg source < 2 ^ env.arch.ptrBits)
    (hb : s.reg .backtrack_stack_pointer < 2 ^ env.arch.ptrBits) :
    ∃ s1 s2, exec env (PushBacktrack m source) none s = .next none s1 ∧
      exec env (PopBacktrack m target) none s1 = .next none s2 ∧
      exec env (PushBacktrack m source ++ PopBacktrack m target) none s = .next none s2 ∧
      s1.loadPtr env (s.reg .backtrack_stack_pointer) = s.reg source ∧
      s1.reg .backtrack_stack_pointer
        = (s.reg .backtrack_stack_pointer + env.arch.ptrBytes) % 2 ^ env.arch.ptrBits ∧
      (∀ x, x < s.reg .backtrack_stack_pointer ∨
          s.reg .backtrack_stack_pointer + env.arch.ptrBytes ≤ x → s1.mem x = s.mem x) ∧
      s2.reg target = s.reg source ∧
      s2.reg .backtrack_stack_pointer = s.reg .backtrack_stack_pointer ∧
      s2.mem = s1.mem := by
  have hea : wrap env.arch.ptrBits (s.reg .backtrack_stack_pointer : Int)
      = s.reg .backtrack_stack_pointer := wrap_natCast _ _ hb
  obtain ⟨s1, hx1, hmem1, hreg1, hsrc1⟩ : ∃ s1, exec env (PushBacktrack m source) none s = .next none s1 ∧
      s1.mem = storeBytes s.mem (s.reg .backtrack_stack_pointer) env.arch.ptrBytes (s.reg source) ∧
      s1.reg .backtrack_stack_pointer
        = (s.reg .backtrack_stack_pointer + env.arch.ptrBytes) % 2 ^ env.arch.ptrBits ∧
      s1.reg source = s.reg source := by
    refine ⟨_, by simp [PushBacktrack, exec, step]; rfl, ?_, ?_, ?_⟩
    · simp [ea, hea]
    · simp only [setReg_reg, setFlags_reg, store_reg, if_true, harch]
      exact wrap_natCast_add_mod _ _ _
    · simp [hsrc]
  have hback : wrap env.arch.ptrBits
      (((s.reg .backtrack_stack_pointer : Int) + (env.arch.ptrBytes : Int)) % 2 ^ env.arch.ptrBits
        - (env.arch.ptrBytes : Int)) = s.reg .backtrack_stack_pointer := by
    rcases h : env.arch <;> simp [h, wrap, Arch.ptrBits, Arch.ptrBytes] at hb ⊢ <;> omega
  obtain ⟨s2, hx2, hmem2, hreg2, htgt2⟩ : ∃ s2, exec env (PopBacktrack m target) none s1 = .next none s2 ∧
      s2.mem = s1.mem ∧
      s2.reg .backtrack_stack_pointer = s.reg .backtrack_stack_pointer ∧
      s2.reg target = loadBytes s1.mem (s.reg .backtrack_stack_pointer) env.arch.ptrBytes := by
    refine ⟨_, by simp [PopBacktrack, exec, step]; rfl, ?_, ?_, ?_⟩
    · simp
    · simp [htgt.symm, harch, hreg1, hback]
    · simp [ea, harch, hreg1, hback, hea]
  have hload : loadBytes s1.mem (s.reg .backtrack_stack_pointer) env.arch.ptrBytes
      = s.reg source := by
    rw [hmem1, loadBytes_storeBytes_same, pow_ptrBytes]
    exact Nat.mod_eq_of_lt hv
  refine ⟨s1, s2, hx1, hx2, ?_, hload, hreg1, ?_, by rw [htgt2, hload], hreg2, hmem2⟩
  · rw [exec_append, hx1, andThen_next, hx2]
  · intro x hx
    rw [hmem1]
    have h3 : ¬ (s.reg .backtrack_stack_pointer ≤ x ∧
        x < s.reg .backtrack_stack_pointer + env.arch.ptrBytes) := by omega
    simp only [storeBytes, h3, if_false]

theorem PushBacktrack_PopBacktrack_round_trip_witness :
    ∃ s1 s2, exec sampleEnv (PushBacktrack sampleAsm .current_position) none
        (sampleLimitState 0x5000 7) = .next none s1 ∧
      exec sampleEnv (PopBacktrack sampleAsm .temp0) none s1 = .next none s2 ∧
      s1.reg .backtrack_stack_pointer = 0x5008 ∧
      s2.reg .temp0 = 0 ∧ s2.reg .backtrack_stack_pointer = 0x5000 := by
  obtain ⟨s1, s2, h1, h2, -, -, h5, -, h7, h8, -⟩ :=
    PushBacktrack_PopBacktrack_round_trip sampleEnv sampleAsm .current_position .temp0
      (sampleLimitState 0x5000 7) rfl (by decide) (by decide) (by decide) (by decide)
  exact ⟨s1, s2, h1, h2, h5.trans (by decide), h7.trans (by decide), h8.trans (by decide)⟩


/-- C28: `CheckGreedyLoop(L)`.  If the pointer-sized entry just below
`backtrack_stack_pointer` equals `current_position` (as machine words), the code lowers
`backtrack_stack_pointer` by one pointer size and goes to L; otherwise it falls through
with `backtrack_stack_pointer` unchanged.  Memory and `current_position` are unchanged in
both cases. -/
theorem CheckGreedyLoop_spec (env : Env) (m : Assembler) (L : Label) (s : State)
    (harch : m.arch = env.arch) (hL : L.isLocal = false) :
    ∃ s', exec env (CheckGreedyLoop m (some L)) none s
        = .next (if s.loadPtr env (wrap env.arch.ptrBits
              ((s.reg .backtrack_stack_pointer : Int) - env.arch.ptrBytes))
            = s.reg .current_position % 2 ^ env.arch.ptrBits then some L else none) s' ∧
      s'.reg .backtrack_stack_pointer
        = (if s.loadPtr env (wrap env.arch.ptrBits
              ((s.reg .backtrack_stack_pointer : Int) - env.arch.ptrBytes))
            = s.reg .current_position % 2 ^ env.arch.ptrBits
          then wrap env.arch.ptrBits ((s.reg .backtrack_stack_pointer : Int) - env.arch.ptrBytes)
          else s.reg .backtrack_stack_pointer) ∧
      s'.reg .current_position = s.reg .current_position ∧
      s'.mem = s.mem := by
  have h9 : Label.loc 9 ≠ L := by rintro rfl; exact absurd hL (by decide)
  simp only [State.loadPtr]
  by_cases h : loadBytes s.mem (wrap env.arch.ptrBits
      ((s.reg .backtrack_stack_pointer : Int) - env.arch.ptrBytes)) env.arch.ptrBytes
      = s.reg .current_position % 2 ^ env.arch.ptrBits
  · refine ⟨_, by
      simp [CheckGreedyLoop, JumpOrBacktrack, exec, step, evalCond, ea, harch, loadPtr_mod,
        ← sub_eq_add_neg, h, h9]
      rfl, ?_, ?_, ?_⟩ <;> simp [h, harch]
  · refine ⟨_, by
      simp [CheckGreedyLoop, JumpOrBacktrack, exec, step, evalCond, ea, harch, loadPtr_mod,
        ← sub_eq_add_neg, h, h9]
      rfl, ?_, ?_, ?_⟩ <;> simp [h, harch]

theorem CheckGreedyLoop_spec_witness :
    ∃ s', exec sampleEnv (CheckGreedyLoop sampleAsm (some (.user 1))) none
        (cellsState (fun r => if r = .backtrack_stack_pointer then 0x5008 else
          if r = .current_position then 2 ^ 64 - 4 else 0) [(0x5000, 2 ^ 64 - 4)])
        = .next (some (.user 1)) s' ∧
      s'.reg .backtrack_stack_pointer = 0x5000 ∧
      s'.reg .current_position = 2 ^ 64 - 4 := by
  obtain ⟨s', h1, h2, h3, -⟩ := CheckGreedyLoop_spec sampleEnv sampleAsm (.user 1)
    (cellsState (fun r => if r = .backtrack_stack_pointer then 0x5008 else
      if r = .current_position then 2 ^ 64 - 4 else 0) [(0x5000, 2 ^ 64 - 4)]) rfl rfl
  rw [if_pos (by decide)] at h1 h2
  exact ⟨s', h1, h2.trans (by decide), h3⟩


theorem and_mod_of_lt (x m : Nat) (hm : m < 4294967296) : (x &&& m) % 4294967296 = x &&& m :=
  Nat.mod_eq_of_lt (lt_of_le_of_lt Nat.and_le_right hm)

theorem wrap_ptr_of_lt32 (a : Arch) (n : Nat) (h : n < 4294967296) :
    wrap a.ptrBits (n : Int) = n := by
  apply wrap_natCast
  cases a <;> simp [Arch.ptrBits, Arch.ptrBytes] <;> omega

/-- The two sequences of `CheckCharacterAfterAnd` and the two of `CheckNotCharacterAfterAnd`
on 32-bit operands: where control goes, and that `current_character` is kept. -/
theorem exec_CheckCharacterAfterAnd (env : Env) (c mask : Nat) (l : Label) (s : State)
    (hc : c < 2 ^ 32) (hmask : mask < 2 ^ 32) :
    (∃ s', exec env (CheckCharacterAfterAnd_general c mask (some l)) none s
        = .next (if s.reg .current_character &&& mask = c then some l else none) s' ∧
      s'.reg .current_character = s.reg .current_character) ∧
    (∃ s', exec env (CheckNotCharacterAfterAnd_general c mask (some l)) none s
        = .next (if s.reg .current_character &&& mask ≠ c then some l else none) s' ∧
      s'.reg .current_character = s.reg .current_character) ∧
    (∃ s', exec env (CheckCharacterAfterAnd 0 mask (some l)) none s
        = .next (if s.reg .current_character &&& mask = 0 then some l else none) s' ∧
      s'.reg .current_character = s.reg .current_character) ∧
    (∃ s', exec env (CheckNotCharacterAfterAnd 0 mask (some l)) none s
        = .next (if s.reg .current_character &&& mask ≠ 0 then some l else none) s' ∧
      s'.reg .current_character = s.reg .current_character) := by
  have h1 : wrap 32 (mask : Int) = mask := wrap_natCast 32 mask hmask
  have h2 : wrap 32 (c : Int) = c := wrap_natCast 32 c hc
  have h3 : wrap env.arch.ptrBits (mask : Int) = mask := wrap_ptr_of_lt32 _ _ (by omega)
  have h4 := and_mod_of_lt (s.reg .current_character) mask (by omega)
  have h5 : mask &&& s.reg .current_character = s.reg .current_character &&& mask :=
    Nat.land_comm _ _
  have h6 : c % 4294967296 = c := Nat.mod_eq_of_lt (by omega)
  have h7 : c < 4294967296 := by omega
  refine ⟨?_, ?_, ?_, ?_⟩
  · by_cases h : s.reg .current_character &&& mask = c
    · refine ⟨_, by simp [CheckCharacterAfterAnd_general, BranchOrBacktrack, exec, step,
        evalCond, h1, h2, h3, h4, h5, h6, h7, h]; rfl, ?_⟩
      simp
    · refine ⟨_, by simp [CheckCharacterAfterAnd_general, BranchOrBacktrack, exec, step,
        evalCond, h1, h2, h3, h4, h5, h6, h7, h]; rfl, ?_⟩
      simp
  · by_cases h : s.reg .current_character &&& mask = c
    · refine ⟨_, by simp [CheckNotCharacterAfterAnd_general, BranchOrBacktrack, exec, step,
        evalCond, h1, h2, h3, h4, h5, h6, h7, h]; rfl, ?_⟩
      simp
    · refine ⟨_, by simp [CheckNotCharacterAfterAnd_general, BranchOrBacktrack, exec, step,
        evalCond, h1, h2, h3, h4, h5, h6, h7, h]; rfl, ?_⟩
      simp
  · by_cases h : s.reg .current_character &&& mask = 0
    · refine ⟨_, by simp [CheckCharacterAfterAnd, BranchOrBacktrack, exec, step,
        evalCond, h1, h4, h]; rfl, ?_⟩
      simp
    · refine ⟨_, by simp [CheckCharacterAfterAnd, BranchOrBacktrack, exec, step,
        evalCond, h1, h4, h]; rfl, ?_⟩
      simp
  · by_cases h : s.reg .current_character &&& mask = 0
    · refine ⟨_, by simp [CheckNotCharacterAfterAnd, BranchOrBacktrack, exec, step,
        evalCond, h1, h4, h]; rfl, ?_⟩
      simp
    · refine ⟨_, by simp [CheckNotCharacterAfterAnd, BranchOrBacktrack, exec, step,
        evalCond, h1, h4, h]; rfl, ?_⟩
      simp

/-- C29: for every 32-bit `c` and mask, `CheckCharacterAfterAnd(c, mask, L)` goes to L
exactly when `(current_character AND mask) = c` and `CheckNotCharacterAfterAnd(c, mask, L)`
exactly when `(current_character AND mask) ≠ c`; the `test` sequences emitted for `c = 0`
decide as the general and-then-compare sequences do for `c = 0`; and none of them changes
`current_character`. -/
theorem CheckCharacterAfterAnd_spec (env : Env) (c mask : Nat) (L : Label) (s : State)
    (hc : c < 2 ^ 32) (hmask : mask < 2 ^ 32) :
    ((exec env (CheckCharacterAfterAnd c mask (some L)) none s).branchedTo L = true
      ↔ s.reg .current_character &&& mask = c) ∧
    ((exec env (CheckNotCharacterAfterAnd c mask (some L)) none s).branchedTo L = true
      ↔ s.reg .current_character &&& mask ≠ c) ∧
    ((exec env (CheckCharacterAfterAnd 0 mask (some L)) none s).branchedTo L
      = (exec env (CheckCharacterAfterAnd_general 0 mask (some L)) none s).branchedTo L) ∧
    ((exec env (CheckNotCharacterAfterAnd 0 mask (some L)) none s).branchedTo L
      = (exec env (CheckNotCharacterAfterAnd_general 0 mask (some L)) none s).branchedTo L) ∧
    (∀ s', (exec env (CheckCharacterAfterAnd c mask (some L)) none s).state? = some s' →
      s'.reg .current_character = s.reg .current_character) ∧
    (∀ s', (exec env (CheckNotCharacterAfterAnd c mask (some L)) none s).state? = some s' →
      s'.reg .current_character = s.reg .current_character) := by
  obtain ⟨⟨a, ha, ha'⟩, ⟨b, hb, hb'⟩, ⟨z, hz, hz'⟩, ⟨w, hw, hw'⟩⟩ :=
    exec_CheckCharacterAfterAnd env c mask L s hc hmask
  obtain ⟨⟨a0, ha0, -⟩, ⟨b0, hb0, -⟩, -, -⟩ :=
    exec_CheckCharacterAfterAnd env 0 mask L s (by norm_num) hmask
  have e1 : CheckCharacterAfterAnd c mask (some L)
      = if c = 0 then CheckCharacterAfterAnd 0 mask (some L)
        else CheckCharacterAfterAnd_general c mask (some L) := by
    by_cases h : c = 0
    · subst h; simp
    · simp [CheckCharacterAfterAnd, h]
  have e2 : CheckNotCharacterAfterAnd c mask (some L)
      = if c = 0 then CheckNotCharacterAfterAnd 0 mask (some L)
        else CheckNotCharacterAfterAnd_general c mask (some L) := by
    by_cases h : c = 0
    · subst h; simp
    · simp [CheckNotCharacterAfterAnd, h]
  rw [e1, e2, hz, hw, ha0, hb0]
  by_cases h : c = 0
  · subst h
    simp only [if_true, hz, hw]
    refine ⟨?_, ?_, ?_, ?_, ?_, ?_⟩
    · by_cases g : s.reg .current_character &&& mask = 0 <;> simp [g]
    · by_cases g : s.reg .current_character &&& mask = 0 <;> simp [g]
    · by_cases g : s.reg .current_character &&& mask = 0 <;> simp [g]
    · by_cases g : s.reg .current_character &&& mask = 0 <;> simp [g]
    · intro s' hs
      simp only [Res.state?, Option.some.injEq] at hs
      rw [← hs, hz']
    · intro s' hs
      simp only [Res.state?, Option.some.injEq] at hs
      rw [← hs, hw']
  · simp only [if_neg h, ha, hb]
    refine ⟨?_, ?_, ?_, ?_, ?_, ?_⟩
    · by_cases g : s.reg .current_character &&& mask = c <;> simp [g]
    · by_cases g : s.reg .current_character &&& mask = c <;> simp [g]
    · by_cases g : s.reg .current_character &&& mask = 0 <;> simp [g]
    · by_cases g : s.reg .current_character &&& mask = 0 <;> simp [g]
    · intro s' hs
      simp only [Res.state?, Option.some.injEq] at hs
      rw [← hs, ha']
    · intro s' hs
      simp only [Res.state?, Option.some.injEq] at hs
      rw [← hs, hb']

theorem CheckCharacterAfterAnd_spec_witness :
    ((exec sampleEnv (CheckCharacterAfterAnd 0x41 0xDF (some (.user 1))) none
        (sampleState 0x61)).branchedTo (.user 1) = true) ∧
    ((exec sampleEnv (CheckNotCharacterAfterAnd 0x41 0xDF (some (.user 1))) none
        (sampleState 0x62)).branchedTo (.user 1) = true) :=
  ⟨(CheckCharacterAfterAnd_spec sampleEnv 0x41 0xDF (.user 1) (sampleState 0x61)
      (by decide) (by decide)).1.2 (by decide),
   (CheckCharacterAfterAnd_spec sampleEnv 0x41 0xDF (.user 1) (sampleState 0x62)
      (by decide) (by decide)).2.1.2 (by decide)⟩


theorem and_mask16 (x m : Nat) (hm : m < 65536) : x &&& m = (x % 65536) &&& m := by
  have h1 : m &&& (2 ^ 16 - 1) = m := by
    rw [Nat.and_pow_two_sub_one_eq_mod]
    exact Nat.mod_eq_of_lt (by omega)
  have h2 : x &&& (2 ^ 16 - 1) = x % 65536 := Nat.and_pow_two_sub_one_eq_mod x 16
  calc x &&& m = x &&& ((2 ^ 16 - 1) &&& m) := by rw [Nat.land_comm (2 ^ 16 - 1) m, h1]
    _ = (x &&& (2 ^ 16 - 1)) &&& m := (Nat.and_assoc _ _ _).symm
    _ = (x % 65536) &&& m := by rw [h2]

theorem wrap_mod16 (a : Arch) (v : Int) : wrap a.ptrBits v % 65536 = wrap 16 v := by
  cases a <;> simp [wrap, Arch.ptrBits, Arch.ptrBytes] <;> omega

/-- C30: for 16-bit `c` and `and_with` (and every `minus` and `current_character`, 16-bit
ones in particular), `CheckNotCharacterAfterMinusAnd(c, minus, and_with, L)` goes to L
exactly when
`(((current_character - minus) mod 2^16) AND and_with) ≠ c`, in the `c = 0` sequence as in
the `c ≠ 0` sequence: the subtraction is pointer-wide, and `and_with` masks the borrowed
upper bits.  `current_character` is kept. -/
theorem CheckNotCharacterAfterMinusAnd_spec (env : Env) (c minus and_with : Nat) (L : Label)
    (s : State) (hc : c < 2 ^ 16) (hand : and_with < 2 ^ 16) :
    ∃ s', exec env (CheckNotCharacterAfterMinusAnd c minus and_with (some L)) none s
        = .next (if wrap 16 ((s.reg .current_character : Int) - minus) &&& and_with ≠ c
            then some L else none) s' ∧
      s'.reg .current_character = s.reg .current_character := by
  have h1 : wrap 32 (and_with : Int) = and_with := wrap_natCast 32 and_with (by omega)
  have h2 : wrap 32 (c : Int) = c := wrap_natCast 32 c (by omega)
  have h3 : wrap env.arch.ptrBits ((s.reg .current_character : Int) - minus) &&& and_with
      = wrap 16 ((s.reg .current_character : Int) - minus) &&& and_with := by
    rw [and_mask16 _ _ (by omega), wrap_mod16]
  have h4 := and_mod_of_lt (wrap 16 ((s.reg .current_character : Int) - minus)) and_with
    (by omega)
  by_cases h0 : c = 0
  · subst h0
    by_cases h : wrap 16 ((s.reg .current_character : Int) - minus) &&& and_with = 0
    · refine ⟨_, by simp [CheckNotCharacterAfterMinusAnd, BranchOrBacktrack, exec, step,
        evalCond, ea, ← sub_eq_add_neg, h1, h3, h4, h]; rfl, ?_⟩
      simp
    · refine ⟨_, by simp [CheckNotCharacterAfterMinusAnd, BranchOrBacktrack, exec, step,
        evalCond, ea, ← sub_eq_add_neg, h1, h3, h4, h]; rfl, ?_⟩
      simp
  · have h6 : c % 4294967296 = c := Nat.mod_eq_of_lt (by omega)
    have h7 : c < 4294967296 := by omega
    by_cases h : wrap 16 ((s.reg .current_character : Int) - minus) &&& and_with = c
    · refine ⟨_, by simp [CheckNotCharacterAfterMinusAnd, BranchOrBacktrack, exec, step,
        evalCond, ea, ← sub_eq_add_neg, h0, h1, h2, h3, h4, h6, h7, h]; rfl, ?_⟩
      simp
    · refine ⟨_, by simp [CheckNotCharacterAfterMinusAnd, BranchOrBacktrack, exec, step,
        evalCond, ea, ← sub_eq_add_neg, h0, h1, h2, h3, h4, h6, h7, h]; rfl, ?_⟩
      simp

theorem CheckNotCharacterAfterMinusAnd_spec_witness :
    ∃ s', exec sampleEnv (CheckNotCharacterAfterMinusAnd 0xFFFE 3 0xFFFE (some (.user 1))) none
        (sampleState 1) = .next none s' ∧
      s'.reg .current_character = 1 := by
  obtain ⟨s', h1, h2⟩ := CheckNotCharacterAfterMinusAnd_spec sampleEnv 0xFFFE 3 0xFFFE (.user 1)
    (sampleState 1) (by decide) (by decide)
  rw [if_neg (by decide)] at h1
  exact ⟨s', h1, h2⟩


/-- C26, the failing input: `current_position` in a callee-saved register (as in
`sampleEnv`), capture 0 of length 2 at offset -6, position -4, and a nonzero result of the
comparison.  The code falls through with `current_position = 0x4004`, the absolute address
`input_end_pointer + (-4) + 2`, instead of the offset `-4 + 2`.  With every register
caller-saved, `PopRegsInMask` restores the offset and the result is `-2`. -/
theorem CheckNotBackReferenceIgnoreCase_keeps_absolute_position :
    ∃ code, CheckNotBackReferenceIgnoreCase sampleAsm 0 (some (.user 1)) = .ok code ∧
      sampleEnv.volatile .current_position = false ∧
      (sampleEnv.grow 0).ret = 1 ∧
      (exec sampleEnv code none sampleBackRefState).fellThrough = true ∧
      ((exec sampleEnv code none sampleBackRefState).state?.map
        fun s => s.reg .current_position) = some 0x4004 ∧
      ((exec { sampleEnv with volatile := fun _ => true } code none sampleBackRefState).state?.map
        fun s => s.reg .current_position) = some (2 ^ 64 - 2) :=
  ⟨_, rfl, rfl, rfl, by decide!, by decide!, by decide!⟩


/-- A pending branch passes over code that does not bind its label. -/
theorem exec_pending_of_not_binds (env : Env) (l : Label) :
    ∀ (code : List Instr) (s : State), binds l code = false →
      exec env code (some l) s = .next (some l) s := by
  intro code
  induction code with
  | nil => intro s _; rfl
  | cons i rest ih =>
    intro s h
    simp only [binds, List.any_cons, Bool.or_eq_false_iff] at h
    have hr : binds l rest = false := h.2
    cases i <;> simp only [exec] <;> try exact ih s hr
    rename_i l'
    have hne : l' ≠ l := by
      intro e
      have := h.1
      simp [e] at this
    rw [if_neg hne]
    exact ih s hr

/-- C32: `CheckBitInTable(table, L)`, the 128-entry table lying inside the address space.
For every `current_character` the code reads the one byte at
`table + (current_character AND 127)`, an index below 128, and nothing else; it goes to L
exactly when that byte is not zero; `current_character` and memory are unchanged. -/
theorem CheckBitInTable_spec (env : Env) (table : Nat) (lbl : Option Label) (s : State)
    (htable : table + kTableSize ≤ 2 ^ env.arch.ptrBits) :
    ∃ s', exec env (CheckBitInTable table lbl) none s
        = .next (if loadBytes s.mem (table + (s.reg .current_character &&& 127)) 1 ≠ 0
            then some (lbl.getD .backtrack_label_) else none) s' ∧
      s.reg .current_character &&& 127 < kTableSize ∧
      s'.trace = ⟨false, table + (s.reg .current_character &&& 127), 1⟩ :: s.trace ∧
      s'.reg .current_character = s.reg .current_character ∧
      s'.mem = s.mem := by
  have hidx : s.reg .current_character &&& 127 < 128 :=
    lt_of_le_of_lt Nat.and_le_right (by norm_num)
  have hcomm : 127 &&& s.reg .current_character = s.reg .current_character &&& 127 :=
    Nat.land_comm _ _
  have h127 : wrap env.arch.ptrBits (127 : Int) = 127 := by
    have := wrap_ptr_of_lt32 env.arch 127 (by norm_num)
    simpa using this
  have hmod : (s.reg .current_character &&& 127) % 4294967296
      = s.reg .current_character &&& 127 := Nat.mod_eq_of_lt (by omega)
  have htab : table % 2 ^ env.arch.ptrBits = table := Nat.mod_eq_of_lt (by unfold kTableSize at htable; omega)
  have hea : wrap env.arch.ptrBits ((table : Int) + ((s.reg .current_character &&& 127 : Nat) : Int))
      = table + (s.reg .current_character &&& 127) :=
    wrap_natCast_add _ _ _ (by unfold kTableSize at htable; omega)
  have hb : loadBytes s.mem (table + (s.reg .current_character &&& 127)) 1 % 4294967296
      = loadBytes s.mem (table + (s.reg .current_character &&& 127)) 1 := by
    have := loadBytes_lt s.mem 1 (table + (s.reg .current_character &&& 127))
    omega
  simp only [CheckBitInTable, BranchOrBacktrack_eq]
  generalize lbl.getD .backtrack_label_ = l
  by_cases h : loadBytes s.mem (table + (s.reg .current_character &&& 127)) 1 = 0
  · refine ⟨_, by
      simp [CheckBitInTable, kTableSize, exec, step, evalCond, ea, Scale.mult, h127, hcomm, hmod,
        htab, hea, hb, h]
      rfl, hidx, ?_, ?_, ?_⟩ <;>
      simp [ea, Scale.mult, h127, hcomm, hmod, htab, hea]
  · refine ⟨_, by
      simp [CheckBitInTable, kTableSize, exec, step, evalCond, ea, Scale.mult, h127, hcomm, hmod,
        htab, hea, hb, h]
      rfl, hidx, ?_, ?_, ?_⟩ <;>
      simp [ea, Scale.mult, h127, hcomm, hmod, htab, hea]

theorem CheckBitInTable_spec_witness :
    ∃ s', exec sampleEnv (CheckBitInTable 0x1000 (some (.user 1))) none (sampleState 0x1E1)
        = .next (some (.user 1)) s' ∧
      s'.trace = [⟨false, 0x1061, 1⟩] ∧ s'.reg .current_character = 0x1E1 := by
  obtain ⟨s', h1, -, h3, h4, -⟩ := CheckBitInTable_spec sampleEnv 0x1000 (some (.user 1))
    (sampleState 0x1E1) (by decide)
  rw [if_pos (by decide)] at h1
  exact ⟨s', h1, h3, h4⟩


theorem wrap_address_of_signed (a : Arch) (iEnd cp : Nat) (off pos : Int)
    (hpos : toSigned a.ptrBits cp = pos) (h0 : 0 ≤ (iEnd : Int) + pos + off)
    (h1 : (iEnd : Int) + pos + off < 2 ^ a.ptrBits) :
    ((wrap a.ptrBits ((iEnd : Int) + (cp : Int) + off) : Nat) : Int) = (iEnd : Int) + pos + off := by
  subst hpos
  cases a <;> simp [wrap, toSigned, Arch.ptrBits, Arch.ptrBytes] at * <;> split_ifs at * <;> omega

/-- A position check followed by a character load: where control goes and what is read. -/
theorem exec_checked_load (env : Env) (s : State) (K off : Int) (l : Label) (wide : Bool)
    (hk : toSigned env.arch.ptrBits (wrap env.arch.ptrBits K) = K) :
    ∃ s', exec env
        [.cmpPtr .current_position K, .j .GreaterThanOrEqual l,
         if wide = true then
           .load32 (.BaseIndex .input_end_pointer .current_position .TimesOne off) .current_character
         else
           .load16ZeroExtend (.BaseIndex .input_end_pointer .current_position .TimesOne off)
             .current_character] none s
        = .next (if K ≤ toSigned env.arch.ptrBits (s.reg .current_position) then some l else none)
            s' ∧
      (¬ K ≤ toSigned env.arch.ptrBits (s.reg .current_position) →
        s'.trace = ⟨false, wrap env.arch.ptrBits
            ((s.reg .input_end_pointer : Int) + (s.reg .current_position : Int) + off),
          if wide = true then 4 else 2⟩ :: s.trace) := by
  by_cases hc : K ≤ toSigned env.arch.ptrBits (s.reg .current_position)
  · cases wide <;>
      exact ⟨_, by simp [exec, step, evalCond, toSigned_mod, hk, hc]; rfl, fun h => absurd hc h⟩
  · cases wide <;>
      exact ⟨_, by simp [exec, step, evalCond, toSigned_mod, hk, hc]; rfl,
        fun _ => by simp [ea, Scale.mult]⟩

/-- C33: `LoadCurrentCharacter(cp_offset, L, true, characters)` in 16-bit mode, for
`0 ≤ cp_offset < 2^30`, `characters` 1 or 2, `input_end_pointer = inputEnd` and a
`current_position` that is an even offset with `inputStart - inputEnd ≤ current_position`.  The code goes to L exactly when
`current_position ≥ -(cp_offset + characters - 1) * 2`; otherwise it falls through after
reading `2 * characters` bytes at `inputEnd + current_position + cp_offset * 2`, all of
them inside `[inputStart, inputEnd)`. -/
theorem LoadCurrentCharacter_in_bounds (env : Env) (m : Assembler) (cp_offset : Int)
    (characters : Nat) (lbl : Option Label) (s : State) (inputStart inputEnd : Nat) (pos : Int)
    (hmode : m.mode_ = .JSCHAR) (hchars : characters = 1 ∨ characters = 2)
    (hoff0 : 0 ≤ cp_offset) (hoff1 : cp_offset < 2 ^ 30)
    (hiep : s.reg .input_end_pointer = inputEnd) (hend : inputEnd < 2 ^ env.arch.ptrBits)
    (hpos : toSigned env.arch.ptrBits (s.reg .current_position) = pos)
    (hlo : (inputStart : Int) - inputEnd ≤ pos) (heven : pos % 2 = 0) :
    ∃ code s', LoadCurrentCharacter m cp_offset lbl true characters = .ok code ∧
      exec env code none s
        = .next (if -((cp_offset + characters - 1) * 2) ≤ pos
            then some (lbl.getD .backtrack_label_) else none) s' ∧
      (¬ -((cp_offset + characters - 1) * 2) ≤ pos →
        ∃ a : Nat, s'.trace = ⟨false, a, 2 * characters⟩ :: s.trace ∧
          (a : Int) = inputEnd + pos + cp_offset * 2 ∧
          inputStart ≤ a ∧ a + 2 * characters ≤ inputEnd) := by
  have hk : toSigned env.arch.ptrBits
      (wrap env.arch.ptrBits (-((cp_offset + (characters : Int) - 1) * 2)))
      = -((cp_offset + (characters : Int) - 1) * 2) := by
    apply toSigned_wrap
    · have : (2 : Int) ^ 31 ≤ 2 ^ (env.arch.ptrBits - 1) := by
        cases env.arch <;> simp [Arch.ptrBits, Arch.ptrBytes]
      rcases hchars with h | h <;> subst h <;> push_cast <;> omega
    · have : (0 : Int) < 2 ^ (env.arch.ptrBits - 1) := by positivity
      rcases hchars with h | h <;> subst h <;> push_cast <;> omega
  have hcode : LoadCurrentCharacter m cp_offset lbl true characters
      = .ok [.cmpPtr .current_position (-((cp_offset + (characters : Int) - 1) * 2)),
             .j .GreaterThanOrEqual (lbl.getD .backtrack_label_),
             if decide (characters = 2) = true then
               .load32 (.BaseIndex .input_end_pointer .current_position .TimesOne (cp_offset * 2))
                 .current_character
             else
               .load16ZeroExtend
                 (.BaseIndex .input_end_pointer .current_position .TimesOne (cp_offset * 2))
                 .current_character] := by
    rcases hchars with h | h <;> subst h
    · simp [LoadCurrentCharacter, LoadCurrentCharacterUnchecked, CheckPosition, hmode,
        BranchOrBacktrack_eq, char_size, Except.map]
    · simp [LoadCurrentCharacter, LoadCurrentCharacterUnchecked, CheckPosition, hmode,
        BranchOrBacktrack_eq, char_size, Except.map]
      ring
  obtain ⟨s', hx, htr⟩ := exec_checked_load env s (-((cp_offset + (characters : Int) - 1) * 2))
    (cp_offset * 2) (lbl.getD .backtrack_label_) (decide (characters = 2)) hk
  rw [hpos] at hx htr
  refine ⟨_, s', hcode, hx, fun hc => ?_⟩
  have haddr := wrap_address_of_signed env.arch inputEnd (s.reg .current_position)
    (cp_offset * 2) pos hpos
    (by rcases hchars with h | h <;> subst h <;> push_cast at hc <;> omega)
    (by have : ((inputEnd : Nat) : Int) < 2 ^ env.arch.ptrBits := by exact_mod_cast hend
        rcases hchars with h | h <;> subst h <;> push_cast at hc <;> omega)
  refine ⟨wrap env.arch.ptrBits
    ((inputEnd : Int) + (s.reg .current_position : Int) + cp_offset * 2), ?_, haddr, ?_, ?_⟩
  · rw [htr hc, hiep]
    rcases hchars with h | h <;> subst h <;> simp
  · rcases hchars with h | h <;> subst h <;> push_cast at hc <;> omega
  · rcases hchars with h | h <;> subst h <;> push_cast at hc <;> omega

theorem LoadCurrentCharacter_in_bounds_witness :
    ∃ code s', LoadCurrentCharacter sampleAsm 0 none true 2 = .ok code ∧
      exec sampleEnv code none sampleBackRefState = .next none s' ∧
      s'.trace = [⟨false, 0x4002, 4⟩] := by
  obtain ⟨code, s', h1, h2, h3⟩ := LoadCurrentCharacter_in_bounds sampleEnv sampleAsm 0 2 none
    sampleBackRefState 0x4000 0x4006 (-4) rfl (Or.inr rfl) (by decide) (by decide) rfl
    (by decide) (by decide) (by decide) (by decide)
  rw [if_neg (by decide)] at h2
  obtain ⟨a, ha, hv, -, -⟩ := h3 (by decide)
  have : a = 0x4002 := by omega
  subst this
  exact ⟨code, s', h1, h2, ha⟩


/-- C34, the failing input: the success path of `sampleGlobalAsm` (64-bit target, two
saved registers) entered with `outputRegisters = 0x8000` and room for eight output
registers.  The capture set is written as two int32 at 0x8000 and 0x8004, eight bytes in
all, and the code goes on to `load_char_start_regexp` with `outputRegisters = 0x8010`:
the pointer advanced by `2 * sizeof(void *) = 16`, not by the eight bytes written. -/
theorem outputRegisters_advances_by_pointer_size :
    sampleGlobalAsm.arch = .x64 ∧ sampleGlobalAsm.num_saved_registers_ = 2 ∧
    (exec sampleEnv (GenerateCode_captures sampleGlobalAsm ++ GenerateCode_restart sampleGlobalAsm)
        none sampleRoomState).branchedTo .load_char_start_regexp = true ∧
    ((exec sampleEnv (GenerateCode_captures sampleGlobalAsm ++ GenerateCode_restart sampleGlobalAsm)
        none sampleRoomState).state?.map
      fun s => ((s.trace.reverse.filter fun a => a.write && decide (0x8000 ≤ a.addr)),
        loadBytes s.mem 0x7010 8, loadBytes s.mem 0x7018 4))
      = some ([⟨true, 0x8000, 4⟩, ⟨true, 0x8004, 4⟩], 0x8010, 6) :=
  ⟨rfl, rfl, by decide!, by decide!⟩


/-- The initialisation of the saved registers is part of the prologue as emitted. -/
theorem GenerateCode_start_init (m : Assembler) (load : List Instr) :
    GenerateCode_start m load
      = [.cmpPtrMem (.Address .StackPointer m.layout.FrameData_startIndex) 0,
         .j .NotEqual .load_char_start_regexp,
         .movImmWord '\n'.toNat .current_character,
         .jump .start_regexp,
         .bind .load_char_start_regexp]
        ++ load ++ [.bind .start_regexp] ++ GenerateCode_init m
        ++ [.loadPtr (.AbsoluteAddress .regexpStack_base) .backtrack_stack_pointer,
            .storePtr .backtrack_stack_pointer
              (.Address .StackPointer m.layout.FrameData_backtrackStackBase),
            .jump .start_label_] := rfl

theorem fillSlots_outside (mem : Nat → Nat) (base P v : Nat) :
    ∀ k a, (a < base ∨ base + k * P ≤ a) → fillSlots mem base P v k a = mem a := by
  intro k
  induction k with
  | zero => intro a _; rfl
  | succ k ih =>
    intro a h
    have hk : (k + 1) * P = k * P + P := Nat.succ_mul k P
    have h3 : ¬ (base + k * P ≤ a ∧ a < base + k * P + P) := by omega
    simp only [fillSlots, storeBytes, h3, if_false]
    exact ih a (by omega)

theorem fillSlots_load (mem : Nat → Nat) (base P v : Nat) :
    ∀ k i, i < k → loadBytes (fillSlots mem base P v k) (base + i * P) P = v % 256 ^ P := by
  intro k
  induction k with
  | zero => intro i h; exact absurd h (Nat.not_lt_zero i)
  | succ k ih =>
    intro i h
    simp only [fillSlots]
    by_cases hik : i = k
    · subst hik
      exact loadBytes_storeBytes_same _ _ _ _
    · have hmul := Nat.mul_le_mul_right P (show i + 1 ≤ k by omega)
      rw [Nat.succ_mul] at hmul
      rw [loadBytes_storeBytes_disjoint _ _ _ _ _ _ (by omega)]
      exact ih i (by omega)

theorem fillTrace_eq (tr : List Access) (base P : Nat) :
    ∀ k, fillTrace tr base P k
      = ((List.range k).map fun i => (⟨true, base + i * P, P⟩ : Access)).reverse ++ tr := by
  intro k
  induction k with
  | zero => rfl
  | succ k ih => simp [fillTrace, ih, List.range_succ]

/-- The unrolled stores, as a function of the state. -/
theorem exec_init_unrolled (env : Env) (m : Assembler) (s : State)
    (harch : m.arch = env.arch) :
    ∀ k, s.reg .StackPointer + m.register_offset k ≤ 2 ^ env.arch.ptrBits →
      exec env (emitFor k (fun i => [.storePtr .temp0 (m.register_location i)])) none s
        = .next none { s with
            mem := fillSlots s.mem (s.reg .StackPointer + m.register_offset 0)
              env.arch.ptrBytes (s.reg .temp0) k,
            trace := fillTrace s.trace (s.reg .StackPointer + m.register_offset 0)
              env.arch.ptrBytes k } := by
  have hP : 0 < env.arch.ptrBytes := by cases env.arch <;> decide
  intro k
  induction k with
  | zero => intro _; rfl
  | succ k ih =>
    intro hk
    simp only [Assembler.register_offset, harch] at hk ih ⊢
    have hk1 : (k + 1) * env.arch.ptrBytes = k * env.arch.ptrBytes + env.arch.ptrBytes :=
      Nat.succ_mul _ _
    show exec env (emitFor k _ ++ [_]) none s = _
    rw [exec_append, ih (by omega), andThen_next]
    have hea : wrap env.arch.ptrBits ((s.reg .StackPointer : Int)
        + ((m.layout.sizeof_FrameData + k * env.arch.ptrBytes : Nat) : Int))
        = s.reg .StackPointer + (m.layout.sizeof_FrameData + k * env.arch.ptrBytes) :=
      wrap_natCast_add _ _ _ (by omega)
    simp only [exec, step, Res.andThen, ea, Assembler.register_location,
      Assembler.register_offset, harch, hea, State.store, fillSlots, fillTrace]
    simp [Nat.add_assoc]

/-- One round of the initialisation loop, entered with `temp1` at the offset of slot `j`:
the slot is written, `temp1` moves to the next slot, and the loop is taken again exactly
when that slot is below `num_saved_registers_`. -/
theorem exec_init_round (env : Env) (m : Assembler) (t : State) (j : Nat)
    (harch : m.arch = env.arch) (hj : j < m.num_saved_registers_)
    (hfit : t.reg .StackPointer + m.register_offset m.num_saved_registers_
      ≤ 2 ^ env.arch.ptrBits)
    (hoff : m.register_offset m.num_saved_registers_ < 2 ^ (env.arch.ptrBits - 1))
    (ht1 : t.reg .temp1 = m.register_offset j) :
    ∃ t', exec env
        [.storePtr .temp0 (.BaseIndex .StackPointer .temp1 .TimesOne 0),
         .addPtrImm m.arch.ptrBytes .temp1,
         .cmpPtr .temp1 (m.register_offset m.num_saved_registers_),
         .j .LessThan .init_loop] none t
        = .next (if j + 1 < m.num_saved_registers_ then some .init_loop else none) t' ∧
      t'.mem = storeBytes t.mem (t.reg .StackPointer + m.register_offset j) env.arch.ptrBytes
        (t.reg .temp0) ∧
      t'.trace = ⟨true, t.reg .StackPointer + m.register_offset j, env.arch.ptrBytes⟩ :: t.trace ∧
      t'.reg .temp1 = m.register_offset (j + 1) ∧
      (∀ r, r ≠ .temp1 → t'.reg r = t.reg r) := by
  have hP : 0 < env.arch.ptrBytes := by cases env.arch <;> decide
  have hmul := Nat.mul_le_mul_right env.arch.ptrBytes (show j + 1 ≤ m.num_saved_registers_ by omega)
  have hj1 : (j + 1) * env.arch.ptrBytes = j * env.arch.ptrBytes + env.arch.ptrBytes :=
    Nat.succ_mul _ _
  have hhalf : 2 ^ (env.arch.ptrBits - 1) < 2 ^ env.arch.ptrBits := by
    cases env.arch <;> decide
  simp only [Assembler.register_offset, harch] at hfit hoff ht1 ⊢
  have hea : wrap env.arch.ptrBits ((t.reg .StackPointer : Int)
      + ((m.layout.sizeof_FrameData + j * env.arch.ptrBytes : Nat) : Int))
      = t.reg .StackPointer + (m.layout.sizeof_FrameData + j * env.arch.ptrBytes) :=
    wrap_natCast_add _ _ _ (by omega)
  have hnext : wrap env.arch.ptrBits
      (((m.layout.sizeof_FrameData + j * env.arch.ptrBytes : Nat) : Int)
        + (env.arch.ptrBytes : Int))
      = m.layout.sizeof_FrameData + (j + 1) * env.arch.ptrBytes := by
    rw [wrap_natCast_add _ _ _ (by omega)]
    omega
  have hs1 : toSigned env.arch.ptrBits (m.layout.sizeof_FrameData + (j + 1) * env.arch.ptrBytes)
      = ((m.layout.sizeof_FrameData + (j + 1) * env.arch.ptrBytes : Nat) : Int) := by
    have := toSigned_wrap env.arch
      ((m.layout.sizeof_FrameData + (j + 1) * env.arch.ptrBytes : Nat) : Int)
      (by have : (0 : Int) < 2 ^ (env.arch.ptrBits - 1) := by positivity
          omega)
      (by exact_mod_cast (show m.layout.sizeof_FrameData + (j + 1) * env.arch.ptrBytes
            < 2 ^ (env.arch.ptrBits - 1) by omega))
    rwa [wrap_natCast _ _ (by omega)] at this
  have hs2 : toSigned env.arch.ptrBits (wrap env.arch.ptrBits
      ((m.layout.sizeof_FrameData + m.num_saved_registers_ * env.arch.ptrBytes : Nat) : Int))
      = ((m.layout.sizeof_FrameData + m.num_saved_registers_ * env.arch.ptrBytes : Nat) : Int) :=
    toSigned_wrap env.arch _
      (by have : (0 : Int) < 2 ^ (env.arch.ptrBits - 1) := by positivity
          omega)
      (by exact_mod_cast hoff)
  push_cast at hea hnext hs2
  have hcmp : (toSigned env.arch.ptrBits
        (m.layout.sizeof_FrameData + (j + 1) * env.arch.ptrBytes)
      < toSigned env.arch.ptrBits (wrap env.arch.ptrBits
          ((m.layout.sizeof_FrameData : Int) + (m.num_saved_registers_ : Int) * env.arch.ptrBytes)))
      ↔ j + 1 < m.num_saved_registers_ := by
    rw [hs1, hs2]
    constructor
    · intro h
      by_contra hc
      have : m.num_saved_registers_ = j + 1 := by omega
      rw [this] at h
      push_cast at h
      omega
    · intro hc
      have hlt : (j + 1) * env.arch.ptrBytes < m.num_saved_registers_ * env.arch.ptrBytes :=
        Nat.mul_lt_mul_of_pos_right hc hP
      have : ((m.layout.sizeof_FrameData + (j + 1) * env.arch.ptrBytes : Nat) : Int)
          < ((m.layout.sizeof_FrameData + m.num_saved_registers_ * env.arch.ptrBytes : Nat) : Int) := by
        exact_mod_cast (show m.layout.sizeof_FrameData + (j + 1) * env.arch.ptrBytes
          < m.layout.sizeof_FrameData + m.num_saved_registers_ * env.arch.ptrBytes by omega)
      push_cast at this ⊢
      exact this
  by_cases hc : j + 1 < m.num_saved_registers_
  · refine ⟨_, by
      simp [exec, step, evalCond, ea, Scale.mult, ht1, toSigned_mod, hea, hnext, hcmp, hc]
      rfl, ?_, ?_, ?_, ?_⟩
    · simp [ea, Scale.mult, ht1, hea]
    · simp [ea, Scale.mult, ht1, hea]
    · simp [ea, Scale.mult, ht1, hnext]
    · intro r hr
      simp [hr]
  · refine ⟨_, by
      simp [exec, step, evalCond, ea, Scale.mult, ht1, toSigned_mod, hea, hnext, hcmp, hc]
      rfl, ?_, ?_, ?_, ?_⟩
    · simp [ea, Scale.mult, ht1, hea]
    · simp [ea, Scale.mult, ht1, hea]
    · simp [ea, Scale.mult, ht1, hnext]
    · intro r hr
      simp [hr]

/-- The initialisation loop from the round that writes slot `j`, `d` further rounds to
go: with `d + 1` units of fuel it ends by falling through, all the slots written. -/
theorem run_init_loop (env : Env) (m : Assembler) (labelAt : Nat → Option Label)
    (sp v : Nat) (M : Nat → Nat) (tr : List Access) (harch : m.arch = env.arch)
    (hfit : sp + m.register_offset m.num_saved_registers_ ≤ 2 ^ env.arch.ptrBits)
    (hoff : m.register_offset m.num_saved_registers_ < 2 ^ (env.arch.ptrBits - 1)) :
    ∀ d j t, j + d + 1 = m.num_saved_registers_ →
      t.reg .StackPointer = sp → t.reg .temp0 = v → t.reg .temp1 = m.register_offset j →
      t.mem = fillSlots M (sp + m.register_offset 0) env.arch.ptrBytes v j →
      t.trace = fillTrace tr (sp + m.register_offset 0) env.arch.ptrBytes j →
      ∃ t', run env (GenerateCode_init_loop m) labelAt (d + 1)
          (exec env
            [.storePtr .temp0 (.BaseIndex .StackPointer .temp1 .TimesOne 0),
             .addPtrImm m.arch.ptrBytes .temp1,
             .cmpPtr .temp1 (m.register_offset m.num_saved_registers_),
             .j .LessThan .init_loop] none t) = .next none t' ∧
        t'.mem = fillSlots M (sp + m.register_offset 0) env.arch.ptrBytes v
          m.num_saved_registers_ ∧
        t'.trace = fillTrace tr (sp + m.register_offset 0) env.arch.ptrBytes
          m.num_saved_registers_ ∧
        (∀ r, r ≠ .temp1 → t'.reg r = t.reg r) := by
  have haddr : ∀ j, sp + m.register_offset j
      = sp + m.register_offset 0 + j * env.arch.ptrBytes := by
    intro j
    simp only [Assembler.register_offset, harch]
    omega
  intro d
  induction d with
  | zero =>
    intro j t hj hsp hv ht1 hmem htr
    obtain ⟨t', hx, h1, h2, -, h4⟩ := exec_init_round env m t j harch (by omega)
      (by rw [hsp]; exact hfit) hoff ht1
    rw [if_neg (by omega)] at hx
    rw [hsp, hv, hmem, haddr j] at h1
    rw [hsp, htr, haddr j] at h2
    have hn : m.num_saved_registers_ = j + 1 := by omega
    refine ⟨t', by rw [hx]; rfl, ?_, ?_, h4⟩
    · rw [h1, hn]; rfl
    · rw [h2, hn]; rfl
  | succ d ih =>
    intro j t hj hsp hv ht1 hmem htr
    obtain ⟨t1, hx, h1, h2, h3, h4⟩ := exec_init_round env m t j harch (by omega)
      (by rw [hsp]; exact hfit) hoff ht1
    rw [if_pos (by omega)] at hx
    rw [hsp, hv, hmem, haddr j] at h1
    rw [hsp, htr, haddr j] at h2
    obtain ⟨t', hx', g1, g2, g4⟩ := ih (j + 1) t1 (by omega)
      (by rw [h4 _ (by decide), hsp]) (by rw [h4 _ (by decide), hv]) h3 h1 h2
    refine ⟨t', ?_, g1, g2, fun r hr => by rw [g4 r hr, h4 r hr]⟩
    rw [hx, run_next_some]
    have hb : binds .init_loop (GenerateCode_init_loop m) = true := by
      simp [binds, GenerateCode_init_loop]
    rw [if_pos hb]
    exact hx'

/-- The zero-length check and the restart jump leave for one of two labels and write no
memory. -/
theorem exec_GenerateCode_zero_length (env : Env) (m : Assembler) (s : State) :
    ∃ l s', exec env (GenerateCode_zero_length m) none s = .next (some l) s' ∧
      (l = .load_char_start_regexp ∨ l = .exit_label_) ∧
      s'.mem = s.mem ∧ s'.reg .StackPointer = s.reg .StackPointer ∧
      s'.reg .temp0 = s.reg .temp0 := by
  by_cases hg : m.global_with_zero_length_check = true
  · by_cases h1 : s.reg .current_position % 2 ^ env.arch.ptrBits
        = s.reg .current_character % 2 ^ env.arch.ptrBits
    · by_cases h2 : s.reg .current_character % 2 ^ env.arch.ptrBits = 0
      · exact ⟨_, _, by
          simp [GenerateCode_zero_length, hg, exec, step, evalCond, h1, h2, Nat.and_self]
          exact ⟨rfl, rfl⟩, by simp, by simp, by simp, by simp⟩
      · exact ⟨_, _, by
          simp [GenerateCode_zero_length, hg, exec, step, evalCond, h1, h2, Nat.and_self]
          exact ⟨rfl, rfl⟩, by simp, by simp, by simp, by simp⟩
    · exact ⟨_, _, by
        simp [GenerateCode_zero_length, hg, exec, step, evalCond, h1]
        exact ⟨rfl, rfl⟩, by simp, by simp, by simp, by simp⟩
  · exact ⟨_, _, by
      simp [GenerateCode_zero_length, hg, exec, step]
      exact ⟨rfl, rfl⟩, by simp, by simp, by simp, by simp⟩

/-- The restart code up to the test for room: the success counter is incremented, and the
branch to `exit_label_` is taken exactly when fewer than `num_saved_registers_` output
registers would remain. -/
theorem exec_GenerateCode_restart_test (env : Env) (m : Assembler) (s : State) (R : Nat)
    (hk : m.num_saved_registers_ < 2 ^ 31)
    (hR : s.numOutputRegisters m = R) (hkR : m.num_saved_registers_ ≤ R) (hR31 : R < 2 ^ 31)
    (hsc : s.reg .StackPointer + m.layout.FrameData_successfulCaptures + 4
      ≤ 2 ^ env.arch.ptrBits)
    (hno : s.reg .StackPointer + m.layout.FrameData_numOutputRegisters + 4
      ≤ 2 ^ env.arch.ptrBits)
    (hd1 : m.layout.FrameData_successfulCaptures + 4 ≤ m.layout.FrameData_numOutputRegisters ∨
      m.layout.FrameData_numOutputRegisters + 4 ≤ m.layout.FrameData_successfulCaptures) :
    ∃ sA, exec env
        [.add32ImmMem 1 (.Address .StackPointer m.layout.FrameData_successfulCaptures),
         .load32 (.Address .StackPointer m.layout.FrameData_numOutputRegisters) .temp0,
         .sub32 m.num_saved_registers_ .temp0,
         .branch32Imm .LessThan .temp0 m.num_saved_registers_ .exit_label_] none s
        = .next (if R - m.num_saved_registers_ < m.num_saved_registers_
            then some .exit_label_ else none) sA ∧
      sA.reg .StackPointer = s.reg .StackPointer ∧
      sA.reg .temp0 = R - m.num_saved_registers_ ∧
      sA.numOutputRegisters m = R ∧
      (∀ r, r ≠ .temp0 → sA.reg r = s.reg r) := by
  have hea1 : wrap env.arch.ptrBits ((s.reg .StackPointer : Int)
      + (m.layout.FrameData_successfulCaptures : Int))
      = s.reg .StackPointer + m.layout.FrameData_successfulCaptures :=
    wrap_natCast_add _ _ _ (by omega)
  have hea2 : wrap env.arch.ptrBits ((s.reg .StackPointer : Int)
      + (m.layout.FrameData_numOutputRegisters : Int))
      = s.reg .StackPointer + m.layout.FrameData_numOutputRegisters :=
    wrap_natCast_add _ _ _ (by omega)
  have hcell : ∀ v, loadBytes (storeBytes s.mem
      (s.reg .StackPointer + m.layout.FrameData_successfulCaptures) 4 v)
      (s.reg .StackPointer + m.layout.FrameData_numOutputRegisters) 4 = R := by
    intro v
    rw [loadBytes_storeBytes_disjoint _ _ _ _ _ _ (by omega)]
    exact hR
  have hsub : wrap 32 ((R : Int) - (m.num_saved_registers_ : Int))
      = R - m.num_saved_registers_ := by
    simp only [wrap]
    omega
  have hR32 : R % 4294967296 = R := Nat.mod_eq_of_lt (by omega)
  have hd32 : (R - m.num_saved_registers_) % 4294967296 = R - m.num_saved_registers_ :=
    Nat.mod_eq_of_lt (by omega)
  have hs1 : toSigned 32 (R - m.num_saved_registers_)
      = ((R - m.num_saved_registers_ : Nat) : Int) := toSigned_of_lt _ (by omega)
  have hs2 : toSigned 32 (wrap 32 (m.num_saved_registers_ : Int))
      = (m.num_saved_registers_ : Int) := by
    rw [wrap_natCast _ _ (by omega)]
    exact toSigned_of_lt _ hk
  by_cases hc : R - m.num_saved_registers_ < m.num_saved_registers_
  · refine ⟨_, by
      simp [exec, step, evalCond, ea, hea1, hea2, hcell, hsub, hR32, hd32, hs1, hs2, hc]
      rfl, ?_, ?_, ?_, ?_⟩
    · simp
    · simp
    · simp [State.numOutputRegisters, hcell]
    · intro r hr
      simp [hr]
  · refine ⟨_, by
      simp [exec, step, evalCond, ea, hea1, hea2, hcell, hsub, hR32, hd32, hs1, hs2, hc]
      rfl, ?_, ?_, ?_, ?_⟩
    · simp
    · simp
    · simp [State.numOutputRegisters, hcell]
    · intro r hr
      simp [hr]

/-- The restart code after the test for room: the remaining room is stored and the
output pointer is advanced. -/
theorem exec_GenerateCode_restart_advance (env : Env) (m : Assembler) (s : State) (v : Nat)
    (hv : s.reg .temp0 = v) (hv32 : v < 2 ^ 32)
    (hno : s.reg .StackPointer + m.layout.FrameData_numOutputRegisters + 4
      ≤ 2 ^ env.arch.ptrBits)
    (hor : s.reg .StackPointer + m.layout.FrameData_outputRegisters + 4
      ≤ 2 ^ env.arch.ptrBits)
    (hd2 : m.layout.FrameData_outputRegisters + 4 ≤ m.layout.FrameData_numOutputRegisters ∨
      m.layout.FrameData_numOutputRegisters + 4 ≤ m.layout.FrameData_outputRegisters) :
    ∃ sB, exec env
        [.store32 .temp0 (.Address .StackPointer m.layout.FrameData_numOutputRegisters),
         .add32ImmMem (m.num_saved_registers_ * m.arch.ptrBytes : Nat)
           (.Address .StackPointer m.layout.FrameData_outputRegisters),
         .loadPtr (.Address .StackPointer m.layout.FrameData_inputStartMinusOne) .temp0] none s
        = .next none sB ∧
      sB.reg .StackPointer = s.reg .StackPointer ∧
      sB.numOutputRegisters m = v ∧
      (∀ r, r ≠ .temp0 → sB.reg r = s.reg r) := by
  have hea2 : wrap env.arch.ptrBits ((s.reg .StackPointer : Int)
      + (m.layout.FrameData_numOutputRegisters : Int))
      = s.reg .StackPointer + m.layout.FrameData_numOutputRegisters :=
    wrap_natCast_add _ _ _ (by omega)
  have hea3 : wrap env.arch.ptrBits ((s.reg .StackPointer : Int)
      + (m.layout.FrameData_outputRegisters : Int))
      = s.reg .StackPointer + m.layout.FrameData_outputRegisters :=
    wrap_natCast_add _ _ _ (by omega)
  have hcell : ∀ M w, loadBytes (storeBytes M
      (s.reg .StackPointer + m.layout.FrameData_outputRegisters) 4 w)
      (s.reg .StackPointer + m.layout.FrameData_numOutputRegisters) 4
      = loadBytes M (s.reg .StackPointer + m.layout.FrameData_numOutputRegisters) 4 := by
    intro M w
    exact loadBytes_storeBytes_disjoint _ _ _ _ _ _ (by omega)
  refine ⟨_, by
    simp [exec, step, ea, hea2, hea3]
    rfl, ?_, ?_, ?_⟩
  · simp
  · simp [State.numOutputRegisters, hcell, loadBytes_storeBytes_same, hv]
    omega
  · intro r hr
    simp [hr]

/-- The restart code in global mode, entered with `R ≥ num_saved_registers_` output
registers left: it leaves for `exit_label_` with the field unchanged when fewer than
`num_saved_registers_` would remain, and otherwise stores the remaining room and goes on
to the zero-length check. -/
theorem exec_GenerateCode_restart (env : Env) (m : Assembler) (s : State) (R : Nat)
    (hg : m.global = true)
    (hR : s.numOutputRegisters m = R) (hkR : m.num_saved_registers_ ≤ R) (hR31 : R < 2 ^ 31)
    (hsc : s.reg .StackPointer + m.layout.FrameData_successfulCaptures + 4
      ≤ 2 ^ env.arch.ptrBits)
    (hno : s.reg .StackPointer + m.layout.FrameData_numOutputRegisters + 4
      ≤ 2 ^ env.arch.ptrBits)
    (hor : s.reg .StackPointer + m.layout.FrameData_outputRegisters + 4
      ≤ 2 ^ env.arch.ptrBits)
    (hd1 : m.layout.FrameData_successfulCaptures + 4 ≤ m.layout.FrameData_numOutputRegisters ∨
      m.layout.FrameData_numOutputRegisters + 4 ≤ m.layout.FrameData_successfulCaptures)
    (hd2 : m.layout.FrameData_outputRegisters + 4 ≤ m.layout.FrameData_numOutputRegisters ∨
      m.layout.FrameData_numOutputRegisters + 4 ≤ m.layout.FrameData_outputRegisters) :
    ∃ l s', exec env (GenerateCode_restart m) none s = .next (some l) s' ∧
      (l = .load_char_start_regexp ∨ l = .exit_label_) ∧
      (R - m.num_saved_registers_ < m.num_saved_registers_ →
        l = .exit_label_ ∧ s'.numOutputRegisters m = R) ∧
      (m.num_saved_registers_ ≤ R - m.num_saved_registers_ →
        s'.numOutputRegisters m = R - m.num_saved_registers_) := by
  have hcode : GenerateCode_restart m
      = [.add32ImmMem 1 (.Address .StackPointer m.layout.FrameData_successfulCaptures),
         .load32 (.Address .StackPointer m.layout.FrameData_numOutputRegisters) .temp0,
         .sub32 m.num_saved_registers_ .temp0,
         .branch32Imm .LessThan .temp0 m.num_saved_registers_ .exit_label_]
        ++ ([.store32 .temp0 (.Address .StackPointer m.layout.FrameData_numOutputRegisters),
            .add32ImmMem (m.num_saved_registers_ * m.arch.ptrBytes : Nat)
              (.Address .StackPointer m.layout.FrameData_outputRegisters),
            .loadPtr (.Address .StackPointer m.layout.FrameData_inputStartMinusOne) .temp0]
          ++ GenerateCode_zero_length m) := by
    simp [GenerateCode_restart, hg]
  obtain ⟨sA, hA, hAsp, hAt, hAc, -⟩ := exec_GenerateCode_restart_test env m s R (by omega) hR hkR
    hR31 hsc hno hd1
  have hnb : ∀ t, exec env
      ([.store32 .temp0 (.Address .StackPointer m.layout.FrameData_numOutputRegisters),
        .add32ImmMem (m.num_saved_registers_ * m.arch.ptrBytes : Nat)
          (.Address .StackPointer m.layout.FrameData_outputRegisters),
        .loadPtr (.Address .StackPointer m.layout.FrameData_inputStartMinusOne) .temp0]
        ++ GenerateCode_zero_length m) (some .exit_label_) t = .next (some .exit_label_) t := by
    intro t
    unfold GenerateCode_zero_length
    split <;> simp [exec]
  by_cases hc : R - m.num_saved_registers_ < m.num_saved_registers_
  · rw [if_pos hc] at hA
    refine ⟨.exit_label_, sA, ?_, Or.inr rfl, fun _ => ⟨rfl, hAc⟩, fun h => absurd hc (by omega)⟩
    rw [hcode, exec_append, hA, andThen_next, hnb]
  · rw [if_neg hc] at hA
    obtain ⟨sB, hB, hBsp, hBc, -⟩ := exec_GenerateCode_restart_advance env m sA
      (R - m.num_saved_registers_) hAt (by omega) (by rw [hAsp]; exact hno)
      (by rw [hAsp]; exact hor) hd2
    obtain ⟨l, s', hZ, hl, hmem, hsp, -⟩ := exec_GenerateCode_zero_length env m sB
    have hcell : s'.numOutputRegisters m = R - m.num_saved_registers_ := by
      rw [← hBc]
      simp only [State.numOutputRegisters, hmem, hsp]
    refine ⟨l, s', ?_, hl, fun h => absurd h hc, fun _ => hcell⟩
    rw [hcode, exec_append, hA, andThen_next, exec_append, hB, andThen_next, hZ]

/-- C35: in global mode with `k = num_saved_registers_ > 0` and
`FrameData.numOutputRegisters = N ≥ k` at the first entry to the restart code, let
`f 0, …, f j` be the states at successive entries to the restart code in one invocation
(each restart leaving for `load_char_start_regexp`, the code in between keeping the
field).  Then at the `i`-th entry the field holds `N - k * i` with `k * (i + 1) ≤ N`, so
the number `j + 1` of capture sets stored is at most `⌊N / k⌋`; and the restart code run
at `f j` keeps the field at `k` or above, restarting matching only when
`N - k * (j + 1) ≥ k`. -/
theorem restart_at_most_floor (env : Env) (m : Assembler) (f : Nat → State) (sp N j : Nat)
    (hg : m.global = true) (hk0 : 0 < m.num_saved_registers_)
    (hNk : m.num_saved_registers_ ≤ N) (hN : N < 2 ^ 31)
    (hsc : sp + m.layout.FrameData_successfulCaptures + 4 ≤ 2 ^ env.arch.ptrBits)
    (hno : sp + m.layout.FrameData_numOutputRegisters + 4 ≤ 2 ^ env.arch.ptrBits)
    (hor : sp + m.layout.FrameData_outputRegisters + 4 ≤ 2 ^ env.arch.ptrBits)
    (hd1 : m.layout.FrameData_successfulCaptures + 4 ≤ m.layout.FrameData_numOutputRegisters ∨
      m.layout.FrameData_numOutputRegisters + 4 ≤ m.layout.FrameData_successfulCaptures)
    (hd2 : m.layout.FrameData_outputRegisters + 4 ≤ m.layout.FrameData_numOutputRegisters ∨
      m.layout.FrameData_numOutputRegisters + 4 ≤ m.layout.FrameData_outputRegisters)
    (hsp : ∀ i, i ≤ j → (f i).reg .StackPointer = sp)
    (h0 : (f 0).numOutputRegisters m = N)
    (hstep : ∀ i, i < j → ∃ s', exec env (GenerateCode_restart m) none (f i)
        = .next (some .load_char_start_regexp) s' ∧
      (f (i + 1)).numOutputRegisters m = s'.numOutputRegisters m) :
    (∀ i, i ≤ j → (f i).numOutputRegisters m = N - m.num_saved_registers_ * i ∧
      m.num_saved_registers_ * (i + 1) ≤ N) ∧
    j + 1 ≤ N / m.num_saved_registers_ ∧
    ∃ l s', exec env (GenerateCode_restart m) none (f j) = .next (some l) s' ∧
      (l = .load_char_start_regexp ∨ l = .exit_label_) ∧
      m.num_saved_registers_ ≤ s'.numOutputRegisters m ∧
      (l = .load_char_start_regexp →
        s'.numOutputRegisters m = N - m.num_saved_registers_ * (j + 1) ∧
        m.num_saved_registers_ ≤ N - m.num_saved_registers_ * (j + 1)) := by
  have hinv : ∀ i, i ≤ j → (f i).numOutputRegisters m = N - m.num_saved_registers_ * i ∧
      m.num_saved_registers_ * (i + 1) ≤ N := by
    intro i
    induction i with
    | zero => intro _; exact ⟨by simpa using h0, by simpa using hNk⟩
    | succ i ih =>
      intro hi
      obtain ⟨hc, hle⟩ := ih (by omega)
      rw [Nat.mul_succ] at hle
      obtain ⟨s', hx, hn⟩ := hstep i (by omega)
      obtain ⟨l, s'', hx', -, h1, h2⟩ := exec_GenerateCode_restart env m (f i)
        (N - m.num_saved_registers_ * i) hg hc (by omega) (by omega)
        (by rw [hsp i (by omega)]; exact hsc) (by rw [hsp i (by omega)]; exact hno)
        (by rw [hsp i (by omega)]; exact hor) hd1 hd2
      rw [hx] at hx'
      injection hx' with hl hs
      injection hl with hl
      subst hl hs
      have hroom : m.num_saved_registers_
          ≤ N - m.num_saved_registers_ * i - m.num_saved_registers_ := by
        by_contra hcon
        exact absurd (h1 (by omega)).1 (by decide)
      rw [hn, h2 hroom]
      rw [Nat.mul_succ, Nat.mul_succ, Nat.mul_succ]
      constructor <;> omega
  refine ⟨hinv, ?_, ?_⟩
  · rw [Nat.le_div_iff_mul_le hk0, Nat.mul_comm]
    exact (hinv j (Nat.le_refl j)).2
  · obtain ⟨hc, hle⟩ := hinv j (Nat.le_refl j)
    rw [Nat.mul_succ] at hle
    obtain ⟨l, s', hx, hl, h1, h2⟩ := exec_GenerateCode_restart env m (f j)
      (N - m.num_saved_registers_ * j) hg hc (by omega) (by omega)
      (by rw [hsp j (Nat.le_refl j)]; exact hsc) (by rw [hsp j (Nat.le_refl j)]; exact hno)
      (by rw [hsp j (Nat.le_refl j)]; exact hor) hd1 hd2
    refine ⟨l, s', hx, hl, ?_, ?_⟩
    · by_cases hc' : N - m.num_saved_registers_ * j - m.num_saved_registers_
          < m.num_saved_registers_
      · rw [(h1 hc').2]; omega
      · rw [h2 (by omega)]; omega
    · intro hload
      have hroom : m.num_saved_registers_
          ≤ N - m.num_saved_registers_ * j - m.num_saved_registers_ := by
        by_contra hcon
        rw [(h1 (by omega)).1] at hload
        exact absurd hload (by decide)
      rw [h2 hroom, Nat.mul_succ]
      constructor <;> omega

theorem restart_at_most_floor_witness :
    (sampleRestartState 1).numOutputRegisters sampleGlobalAsm = 6 ∧ 1 + 1 ≤ 8 / 2 := by
  obtain ⟨h1, h2, -⟩ := restart_at_most_floor sampleEnv sampleGlobalAsm sampleRestartState
    0x7000 8 1 rfl (by decide) (by decide) (by decide) (by decide) (by decide) (by decide)
    (by decide) (by decide)
    (fun i hi => by interval_cases i <;> rfl)
    (by decide!)
    (fun i hi => by
      obtain rfl : i = 0 := by omega
      exact ⟨_, rfl, by decide!⟩)
  exact ⟨(h1 1 (Nat.le_refl 1)).1, h2⟩


/-- One round of the loop "Copy captures to output", whatever the mode: four bytes are
written at `outputRegisters + 4 * k`; in global mode with the zero-length check, round 0
keeps the saved register 0 in `current_character`. -/
theorem exec_GenerateCode_capture_frame (env : Env) (m : Assembler) (k : Nat) (t : State) :
    ∃ t', exec env (GenerateCode_capture m k) none t = .next none t' ∧
      (∀ r, r ≠ .temp0 → r ≠ .current_character → t'.reg r = t.reg r) ∧
      t'.reg .current_character
        = (if k = 0 ∧ m.global_with_zero_length_check = true
            then t.cell env (m.register_location k) else t.reg .current_character) ∧
      ∃ v, t'.mem = storeBytes t.mem (ea env t (.Address .temp1 ((k * 4 : Nat) : Int))) 4 v := by
  by_cases h : k = 0 ∧ m.global_with_zero_length_check = true
  · obtain ⟨rfl, hg⟩ := h
    by_cases hmode : m.mode_ = .JSCHAR
    · refine ⟨_, by simp [GenerateCode_capture, exec, step, hmode, hg]; rfl, ?_, ?_, ?_⟩
      · intro r h0 hc
        simp [h0, hc]
      · simp [hg, State.cell, State.loadPtr]
      · exact ⟨_, by simp [ea]; rfl⟩
    · refine ⟨_, by simp [GenerateCode_capture, exec, step, hmode, hg]; rfl, ?_, ?_, ?_⟩
      · intro r h0 hc
        simp [h0, hc]
      · simp [hg, State.cell, State.loadPtr]
      · exact ⟨_, by simp [ea]; rfl⟩
  · by_cases hmode : m.mode_ = .JSCHAR
    · refine ⟨_, by simp [GenerateCode_capture, exec, step, hmode, h]; rfl, ?_, ?_, ?_⟩
      · intro r h0 hc
        simp [h0, hc]
      · simp [h]
      · exact ⟨_, by simp [ea]; rfl⟩
    · refine ⟨_, by simp [GenerateCode_capture, exec, step, hmode, h]; rfl, ?_, ?_, ?_⟩
      · intro r h0 hc
        simp [h0, hc]
      · simp [h]
      · exact ⟨_, by simp [ea]; rfl⟩

/-- The loop "Copy captures to output" after `k` rounds, whatever the mode: only the
first `k` output slots are written, and in global mode with the zero-length check
`current_character` holds the saved register 0 once round 0 is done. -/
theorem exec_captures_loop_frame (env : Env) (m : Assembler) (t0 : State)
    (hout : t0.reg .temp1 + 4 * m.num_saved_registers_ ≤ 2 ^ env.arch.ptrBits) :
    ∀ k, k ≤ m.num_saved_registers_ →
      ∃ tk, exec env (emitFor k (GenerateCode_capture m)) none t0 = .next none tk ∧
        (∀ r, r ≠ .temp0 → r ≠ .current_character → tk.reg r = t0.reg r) ∧
        tk.reg .current_character
          = (if 0 < k ∧ m.global_with_zero_length_check = true
              then t0.cell env (m.register_location 0) else t0.reg .current_character) ∧
        (∀ x, ¬ (t0.reg .temp1 ≤ x ∧ x < t0.reg .temp1 + 4 * k) → tk.mem x = t0.mem x) := by
  intro k
  induction k with
  | zero =>
    intro _
    exact ⟨t0, rfl, fun _ _ _ => rfl, by simp, fun _ _ => rfl⟩
  | succ k ih =>
    intro hk
    obtain ⟨tk, hex, hreg, hcc, hmem⟩ := ih (by omega)
    obtain ⟨t', hex', hreg', hcc', v, hmem'⟩ := exec_GenerateCode_capture_frame env m k tk
    have heaOut : ea env tk (.Address .temp1 ((k * 4 : Nat) : Int)) = t0.reg .temp1 + 4 * k := by
      simp only [ea, hreg .temp1 (by decide) (by decide)]
      rw [wrap_natCast_add _ _ _ (by omega)]
      omega
    rw [heaOut] at hmem'
    refine ⟨t', ?_, fun r h0 hc => by rw [hreg' r h0 hc, hreg r h0 hc], ?_, ?_⟩
    · show exec env (emitFor k (GenerateCode_capture m) ++ GenerateCode_capture m k) none t0 = _
      rw [exec_append, hex, andThen_next, hex']
    · rw [hcc', hcc]
      by_cases hk0 : k = 0
      · subst hk0
        have htk : t0 = tk := by
          have h := hex
          simp only [emitFor, exec] at h
          injection h with _ h
        subst htk
        by_cases hg : m.global_with_zero_length_check = true <;> simp [hg]
      · have : 0 < k := Nat.pos_of_ne_zero hk0
        simp [hk0, this]
    · intro x hx
      rw [hmem']
      have h3 : ¬ (t0.reg .temp1 + 4 * k ≤ x ∧ x < t0.reg .temp1 + 4 * k + 4) := by omega
      simp only [storeBytes, h3, if_false]
      exact hmem x (by omega)

/-- The block "Save captures when successful", whatever the mode: it falls through, it
writes only the `4 * num_saved_registers_` bytes at `FrameData.outputRegisters`, it keeps
`StackPointer` and `current_position`, and in global mode with the zero-length check it
leaves the saved register 0, the capture start, in `current_character`. -/
theorem exec_GenerateCode_captures_frame (env : Env) (m : Assembler) (s : State)
    (hn : 0 < m.num_saved_registers_)
    (hout : s.cell env (.Address .StackPointer m.layout.FrameData_outputRegisters)
      + 4 * m.num_saved_registers_ ≤ 2 ^ env.arch.ptrBits) :
    ∃ s', exec env (GenerateCode_captures m) none s = .next none s' ∧
      s'.reg .StackPointer = s.reg .StackPointer ∧
      s'.reg .current_position = s.reg .current_position ∧
      (m.global_with_zero_length_check = true →
        s'.reg .current_character = s.cell env (m.register_location 0)) ∧
      (∀ x, ¬ (s.cell env (.Address .StackPointer m.layout.FrameData_outputRegisters) ≤ x ∧
          x < s.cell env (.Address .StackPointer m.layout.FrameData_outputRegisters)
            + 4 * m.num_saved_registers_) → s'.mem x = s.mem x) := by
  obtain ⟨t0, hx0, h1, -, hsp, hmem, hregs0⟩ := exec_captures_prelude env m s
  obtain ⟨s', hx, hreg, hcc, hmem'⟩ := exec_captures_loop_frame env m t0 (by rw [h1]; exact hout)
    m.num_saved_registers_ (Nat.le_refl _)
  have hcur : t0.reg .current_position = s.reg .current_position :=
    hregs0 _ (by decide) (by decide) (by decide)
  refine ⟨s', ?_, by rw [hreg _ (by decide) (by decide), hsp], ?_, ?_, ?_⟩
  · show exec env ([_, _, _, _] ++ emitFor _ _) none s = _
    rw [exec_append, hx0, andThen_next, hx]
  · rw [hreg _ (by decide) (by decide), hcur]
  · intro hg
    rw [hcc, if_pos ⟨hn, hg⟩]
    simp only [State.cell, State.loadPtr, hmem, ea, Assembler.register_location, hsp]
  · intro x hx
    rw [hmem' x (by rw [h1]; exact hx), hmem]

/-- The zero-length check of the restart code, by cases on `current_position` and the
capture start kept in `current_character`. -/
theorem exec_zero_length_decision (env : Env) (m : Assembler) (s : State)
    (hg : m.global_with_zero_length_check = true) :
    ∃ l s', exec env (GenerateCode_zero_length m) none s = .next (some l) s' ∧
      if s.reg .current_position % 2 ^ env.arch.ptrBits
          ≠ s.reg .current_character % 2 ^ env.arch.ptrBits then
        l = .load_char_start_regexp ∧ s'.reg .current_position = s.reg .current_position
      else if s.reg .current_position % 2 ^ env.arch.ptrBits = 0 then
        l = .exit_label_ ∧ s'.reg .current_position = s.reg .current_position
      else
        l = .load_char_start_regexp ∧
        s'.reg .current_position =
          wrap env.arch.ptrBits ((s.reg .current_position : Int) + char_size m.mode_) := by
  by_cases h1 : s.reg .current_position % 2 ^ env.arch.ptrBits
      = s.reg .current_character % 2 ^ env.arch.ptrBits
  · by_cases h2 : s.reg .current_character % 2 ^ env.arch.ptrBits = 0
    · simp [GenerateCode_zero_length, hg, exec, step, evalCond, h1, h2, Nat.and_self]
      exact ⟨_, _, ⟨rfl, rfl⟩, rfl, by simp⟩
    · simp [GenerateCode_zero_length, hg, exec, step, evalCond, h1, h2, Nat.and_self]
      exact ⟨_, _, ⟨rfl, rfl⟩, rfl, by simp⟩
  · simp [GenerateCode_zero_length, hg, exec, step, evalCond, h1]
    exact ⟨_, _, ⟨rfl, rfl⟩, rfl, by simp⟩

/-- C16, amended: in global-with-zero-length-check mode, the success path (the copy of
the captures followed by the restart code) entered with room for a further capture set.
The capture start is the saved register 0, which the copy keeps in `current_character`.
If it differs from `current_position` (the match is not empty) matching restarts at
`load_char_start_regexp` with `current_position` unchanged; if they are equal and
`current_position` is zero the code leaves for `exit_label_`; if they are equal and
`current_position` is not zero, `current_position` is advanced by `char_size` bytes and
matching restarts. -/
theorem zero_length_check (env : Env) (m : Assembler) (s : State) (R : Nat)
    (hg : m.global_with_zero_length_check = true) (hn : 0 < m.num_saved_registers_)
    (hR : s.numOutputRegisters m = R) (hR31 : R < 2 ^ 31)
    (hroom : m.num_saved_registers_ ≤ R - m.num_saved_registers_)
    (hout : s.cell env (.Address .StackPointer m.layout.FrameData_outputRegisters)
      + 4 * m.num_saved_registers_ ≤ 2 ^ env.arch.ptrBits)
    (hsep : s.cell env (.Address .StackPointer m.layout.FrameData_outputRegisters)
        + 4 * m.num_saved_registers_
        ≤ s.reg .StackPointer + m.layout.FrameData_numOutputRegisters ∨
      s.reg .StackPointer + m.layout.FrameData_numOutputRegisters + 4
        ≤ s.cell env (.Address .StackPointer m.layout.FrameData_outputRegisters))
    (hsc : s.reg .StackPointer + m.layout.FrameData_successfulCaptures + 4
      ≤ 2 ^ env.arch.ptrBits)
    (hno : s.reg .StackPointer + m.layout.FrameData_numOutputRegisters + 4
      ≤ 2 ^ env.arch.ptrBits)
    (hor : s.reg .StackPointer + m.layout.FrameData_outputRegisters + 4
      ≤ 2 ^ env.arch.ptrBits)
    (hd1 : m.layout.FrameData_successfulCaptures + 4 ≤ m.layout.FrameData_numOutputRegisters ∨
      m.layout.FrameData_numOutputRegisters + 4 ≤ m.layout.FrameData_successfulCaptures)
    (hd2 : m.layout.FrameData_outputRegisters + 4 ≤ m.layout.FrameData_numOutputRegisters ∨
      m.layout.FrameData_numOutputRegisters + 4 ≤ m.layout.FrameData_outputRegisters) :
    ∃ l s', exec env (GenerateCode_captures m ++ GenerateCode_restart m) none s
        = .next (some l) s' ∧
      if s.reg .current_position % 2 ^ env.arch.ptrBits
          ≠ s.cell env (m.register_location 0) % 2 ^ env.arch.ptrBits then
        l = .load_char_start_regexp ∧ s'.reg .current_position = s.reg .current_position
      else if s.reg .current_position % 2 ^ env.arch.ptrBits = 0 then
        l = .exit_label_ ∧ s'.reg .current_position = s.reg .current_position
      else
        l = .load_char_start_regexp ∧
        s'.reg .current_position =
          wrap env.arch.ptrBits ((s.reg .current_position : Int) + char_size m.mode_) := by
  have hglob : m.global = true := by
    simp only [Assembler.global_with_zero_length_check, decide_eq_true_eq] at hg
    simp [Assembler.global, hg]
  have hcode : GenerateCode_restart m
      = [.add32ImmMem 1 (.Address .StackPointer m.layout.FrameData_successfulCaptures),
         .load32 (.Address .StackPointer m.layout.FrameData_numOutputRegisters) .temp0,
         .sub32 m.num_saved_registers_ .temp0,
         .branch32Imm .LessThan .temp0 m.num_saved_registers_ .exit_label_]
        ++ ([.store32 .temp0 (.Address .StackPointer m.layout.FrameData_numOutputRegisters),
            .add32ImmMem (m.num_saved_registers_ * m.arch.ptrBytes : Nat)
              (.Address .StackPointer m.layout.FrameData_outputRegisters),
            .loadPtr (.Address .StackPointer m.layout.FrameData_inputStartMinusOne) .temp0]
          ++ GenerateCode_zero_length m) := by
    simp [GenerateCode_restart, hglob]
  obtain ⟨s1, hx1, hsp1, hcp1, hcc1, hmem1⟩ := exec_GenerateCode_captures_frame env m s hn hout
  have hR1 : s1.numOutputRegisters m = R := by
    rw [← hR]
    simp only [State.numOutputRegisters, hsp1]
    apply loadBytes_congr
    intro x h1 h2
    exact hmem1 x (by omega)
  obtain ⟨sA, hA, hAsp, hAt, -, hAreg⟩ := exec_GenerateCode_restart_test env m s1 R (by omega)
    hR1 (by omega) hR31 (by rw [hsp1]; exact hsc) (by rw [hsp1]; exact hno) hd1
  rw [if_neg (by omega)] at hA
  obtain ⟨sB, hB, -, -, hBreg⟩ := exec_GenerateCode_restart_advance env m sA
    (R - m.num_saved_registers_) hAt (by omega) (by rw [hAsp, hsp1]; exact hno)
    (by rw [hAsp, hsp1]; exact hor) hd2
  obtain ⟨l, s', hZ, hdec⟩ := exec_zero_length_decision env m sB hg
  have hcpB : sB.reg .current_position = s.reg .current_position := by
    rw [hBreg _ (by decide), hAreg _ (by decide), hcp1]
  have hccB : sB.reg .current_character = s.cell env (m.register_location 0) := by
    rw [hBreg _ (by decide), hAreg _ (by decide), hcc1 hg]
  rw [hcpB, hccB] at hdec
  refine ⟨l, s', ?_, hdec⟩
  rw [exec_append, hx1, andThen_next, hcode, exec_append, hA, andThen_next, exec_append, hB,
    andThen_next, hZ]

/-- C16 as stated fails: the success path of `sampleGlobalAsm` entered after a match that
is not empty (capture start -6 in register 0, position -4) and with room for three more
capture sets goes to `load_char_start_regexp` with `current_position` still -4, not
advanced by one character. -/
theorem zero_length_check_keeps_position_after_nonempty_match :
    (exec sampleEnv (GenerateCode_captures sampleGlobalAsm ++ GenerateCode_restart sampleGlobalAsm)
      none (sampleMatchState (2 ^ 64 - 6) (2 ^ 64 - 4))).branchedTo
      .load_char_start_regexp = true ∧
    (exec sampleEnv (GenerateCode_captures sampleGlobalAsm ++ GenerateCode_restart sampleGlobalAsm)
      none (sampleMatchState (2 ^ 64 - 6) (2 ^ 64 - 4))).state?.map
      (fun s => (s.reg .current_position, s.numOutputRegisters sampleGlobalAsm))
      = some (2 ^ 64 - 4, 6) :=
  ⟨by decide!, by decide!⟩

/-- C16, evaluated: an empty match before the end of the input (capture start and
position both -4) advances the position to -2 and restarts. -/
theorem zero_length_check_witness :
    ∃ l s', exec sampleEnv
        (GenerateCode_captures sampleGlobalAsm ++ GenerateCode_restart sampleGlobalAsm) none
        (sampleMatchState (2 ^ 64 - 4) (2 ^ 64 - 4)) = .next (some l) s' ∧
      l = .load_char_start_regexp ∧ s'.reg .current_position = 2 ^ 64 - 2 := by
  obtain ⟨l, s', h1, h2⟩ := zero_length_check sampleEnv sampleGlobalAsm
    (sampleMatchState (2 ^ 64 - 4) (2 ^ 64 - 4)) 8 rfl (by decide) (by decide!) (by decide)
    (by decide) (by decide!) (by decide!) (by decide) (by decide) (by decide) (by decide)
    (by decide)
  rw [if_neg (by decide!), if_neg (by decide)] at h2
  exact ⟨l, s', h1, h2.1, h2.2.trans (by decide)⟩


theorem storeBytes_of_not_mem (mem : Nat → Nat) (a n v x : Nat) (h : ¬ (a ≤ x ∧ x < a + n)) :
    storeBytes mem a n v x = mem x := by
  simp only [storeBytes, h, if_false]

theorem binds_append (l : Label) (a b : List Instr) :
    binds l (a ++ b) = (binds l a || binds l b) := by
  simp [binds, List.any_append]

theorem binds_emitFor (l : Label) (body : Nat → List Instr) (h : ∀ i, binds l (body i) = false) :
    ∀ n, binds l (emitFor n body) = false := by
  intro n
  induction n with
  | zero => rfl
  | succ n ih => rw [emitFor, binds_append, ih, h n]; rfl

/-- A pending label passes a piece that does not bind it. -/
theorem exec_skip (env : Env) (l : Label) (code : List Instr) (s : State)
    (h : binds l code = true → False) : exec env code (some l) s = .next (some l) s := by
  apply exec_pending_of_not_binds
  cases hb : binds l code
  · rfl
  · exact (h hb).elim

theorem binds_GenerateCode_positions (m : Assembler) (l : Label) :
    binds l (GenerateCode_positions m) = false := by
  simp [GenerateCode_positions, binds]

theorem binds_GenerateCode_start (m : Assembler) (l : Label)
    (h : binds l (GenerateCode_start m [.load16ZeroExtend
      (.BaseIndex .input_end_pointer .current_position .TimesOne (-2)) .current_character])
      = true) :
    l = .load_char_start_regexp ∨ l = .start_regexp ∨ l = .init_loop := by
  simp only [GenerateCode_start, binds_append, Bool.or_eq_true, or_assoc] at h
  rcases h with h | h | h | h | h
  · simp [binds] at h
    exact Or.inl h.symm
  · simp [binds] at h
  · simp [binds] at h
    exact Or.inr (Or.inl h.symm)
  · split at h
    · simp [binds] at h
      exact Or.inr (Or.inr h.symm)
    · rw [binds_emitFor _ _ (fun i => by simp [binds])] at h
      exact absurd h (by simp)
  · simp [binds] at h

/-- The choice of the initial current character, entered from the prologue or at
`load_char_start_regexp`: it falls through at `start_regexp`, having changed only
`current_character`, the flags and the trace. -/
theorem exec_GenerateCode_start_head (env : Env) (m : Assembler) (t : State)
    (pend : Option Label) (hpend : pend = none ∨ pend = some .load_char_start_regexp) :
    ∃ tA, exec env
        ([.cmpPtrMem (.Address .StackPointer m.layout.FrameData_startIndex) 0,
          .j .NotEqual .load_char_start_regexp,
          .movImmWord '\n'.toNat .current_character,
          .jump .start_regexp,
          .bind .load_char_start_regexp]
         ++ [.load16ZeroExtend (.BaseIndex .input_end_pointer .current_position .TimesOne (-2))
              .current_character]
         ++ [.bind .start_regexp]) pend t = .next none tA ∧
      tA.mem = t.mem ∧ (∀ r, r ≠ .current_character → tA.reg r = t.reg r) := by
  rcases hpend with h | h <;> subst h
  · by_cases hc : loadBytes t.mem (ea env t (.Address .StackPointer m.layout.FrameData_startIndex))
        env.arch.ptrBytes % 2 ^ env.arch.ptrBits = 0
    · exact ⟨_, by simp [exec, step, evalCond, hc]; rfl, by simp,
        fun r hr => by simp [hr]⟩
    · exact ⟨_, by simp [exec, step, evalCond, hc]; rfl, by simp,
        fun r hr => by simp [hr]⟩
  · exact ⟨_, by simp [exec, step]; rfl, by simp, fun r hr => by simp [hr]⟩

/-- The initialisation of the backtrack stack pointer and the jump to the body. -/
theorem exec_GenerateCode_start_tail (env : Env) (m : Assembler) (t : State)
    (hbsb : t.reg .StackPointer + m.layout.FrameData_backtrackStackBase + env.arch.ptrBytes
      ≤ 2 ^ env.arch.ptrBits) :
    ∃ tC, exec env
        [.loadPtr (.AbsoluteAddress .regexpStack_base) .backtrack_stack_pointer,
         .storePtr .backtrack_stack_pointer
           (.Address .StackPointer m.layout.FrameData_backtrackStackBase),
         .jump .start_label_] none t = .next (some .start_label_) tC ∧
      (∀ r, r ≠ .backtrack_stack_pointer → tC.reg r = t.reg r) ∧
      (∀ x, ¬ (t.reg .StackPointer + m.layout.FrameData_backtrackStackBase ≤ x ∧
          x < t.reg .StackPointer + m.layout.FrameData_backtrackStackBase + env.arch.ptrBytes) →
        tC.mem x = t.mem x) := by
  have hP : 0 < env.arch.ptrBytes := by cases env.arch <;> decide
  have hea : wrap env.arch.ptrBits ((t.reg .StackPointer : Int)
      + (m.layout.FrameData_backtrackStackBase : Int))
      = t.reg .StackPointer + m.layout.FrameData_backtrackStackBase :=
    wrap_natCast_add _ _ _ (by omega)
  refine ⟨_, by simp [exec, step, ea, hea]; rfl, fun r hr => by simp [hr], fun x hx => ?_⟩
  simp [storeBytes_of_not_mem _ _ _ _ _ hx]

/-- The initialisation loop inside a code buffer, from the round that writes slot `j`,
`d` further rounds to go: after `d` branches back the loop is left by falling through,
all the slots written, and execution goes on with what follows the loop. -/
theorem run_init_loop_in (env : Env) (m : Assembler) (labelAt : Nat → Option Label)
    (code : List Instr) (K : Option Label → State → Res)
    (sp v : Nat) (M : Nat → Nat) (tr : List Access) (harch : m.arch = env.arch)
    (hfit : sp + m.register_offset m.num_saved_registers_ ≤ 2 ^ env.arch.ptrBits)
    (hoff : m.register_offset m.num_saved_registers_ < 2 ^ (env.arch.ptrBits - 1))
    (hb : binds .init_loop code = true)
    (hloop : ∀ t, exec env code (some .init_loop) t
      = (exec env
          [.storePtr .temp0 (.BaseIndex .StackPointer .temp1 .TimesOne 0),
           .addPtrImm m.arch.ptrBytes .temp1,
           .cmpPtr .temp1 (m.register_offset m.num_saved_registers_),
           .j .LessThan .init_loop] none t).andThen K)
    (hK : ∀ t, K (some .init_loop) t = .next (some .init_loop) t) :
    ∀ d j t, j + d + 1 = m.num_saved_registers_ →
      t.reg .StackPointer = sp → t.reg .temp0 = v → t.reg .temp1 = m.register_offset j →
      t.mem = fillSlots M (sp + m.register_offset 0) env.arch.ptrBytes v j →
      t.trace = fillTrace tr (sp + m.register_offset 0) env.arch.ptrBytes j →
      ∃ t', (∀ g, run env code labelAt (d + g)
          ((exec env
            [.storePtr .temp0 (.BaseIndex .StackPointer .temp1 .TimesOne 0),
             .addPtrImm m.arch.ptrBytes .temp1,
             .cmpPtr .temp1 (m.register_offset m.num_saved_registers_),
             .j .LessThan .init_loop] none t).andThen K)
          = run env code labelAt g (K none t')) ∧
        t'.mem = fillSlots M (sp + m.register_offset 0) env.arch.ptrBytes v
          m.num_saved_registers_ ∧
        t'.trace = fillTrace tr (sp + m.register_offset 0) env.arch.ptrBytes
          m.num_saved_registers_ ∧
        (∀ r, r ≠ .temp1 → t'.reg r = t.reg r) := by
  have haddr : ∀ j, sp + m.register_offset j
      = sp + m.register_offset 0 + j * env.arch.ptrBytes := by
    intro j
    simp only [Assembler.register_offset, harch]
    omega
  intro d
  induction d with
  | zero =>
    intro j t hj hsp hv ht1 hmem htr
    obtain ⟨t', hx, h1, h2, -, h4⟩ := exec_init_round env m t j harch (by omega)
      (by rw [hsp]; exact hfit) hoff ht1
    rw [if_neg (by omega)] at hx
    rw [hsp, hv, hmem, haddr j] at h1
    rw [hsp, htr, haddr j] at h2
    have hn : m.num_saved_registers_ = j + 1 := by omega
    refine ⟨t', fun g => by rw [hx, andThen_next, Nat.zero_add], ?_, ?_, h4⟩
    · rw [h1, hn]; rfl
    · rw [h2, hn]; rfl
  | succ d ih =>
    intro j t hj hsp hv ht1 hmem htr
    obtain ⟨t1, hx, h1, h2, h3, h4⟩ := exec_init_round env m t j harch (by omega)
      (by rw [hsp]; exact hfit) hoff ht1
    rw [if_pos (by omega)] at hx
    rw [hsp, hv, hmem, haddr j] at h1
    rw [hsp, htr, haddr j] at h2
    obtain ⟨t', hx', g1, g2, g4⟩ := ih (j + 1) t1 (by omega)
      (by rw [h4 _ (by decide), hsp]) (by rw [h4 _ (by decide), hv]) h3 h1 h2
    refine ⟨t', fun g => ?_, g1, g2, fun r hr => by rw [g4 r hr, h4 r hr]⟩
    rw [hx, andThen_next, hK, show d + 1 + g = (d + g) + 1 by omega, run_next_some, if_pos hb,
      hloop]
    exact hx' g

/-- The code `GenerateCode_start` inside a code buffer, entered from the prologue or at
`load_char_start_regexp`: after the branches back of the initialisation loop, if that is
the form emitted, control is on its way to `start_label_`; every saved register holds the
value `temp0` had on entry, and apart from these slots only
`FrameData.backtrackStackBase` is written. -/
theorem run_GenerateCode_start (env : Env) (m : Assembler) (labelAt : Nat → Option Label)
    (pre post : List Instr) (t : State) (pend : Option Label)
    (harch : m.arch = env.arch)
    (hfit : t.reg .StackPointer + m.register_offset m.num_saved_registers_
      ≤ 2 ^ env.arch.ptrBits)
    (hoff : m.register_offset m.num_saved_registers_ < 2 ^ (env.arch.ptrBits - 1))
    (hbsb : m.layout.FrameData_backtrackStackBase + env.arch.ptrBytes
      ≤ m.layout.sizeof_FrameData)
    (hpre : binds .init_loop pre = true → False)
    (hpost1 : binds .init_loop post = true → False)
    (hpost2 : binds .start_label_ post = true → False)
    (hpend : pend = none ∨ pend = some .load_char_start_regexp) :
    ∃ d t', (∀ g, run env (pre ++ (GenerateCode_start m [.load16ZeroExtend
          (.BaseIndex .input_end_pointer .current_position .TimesOne (-2)) .current_character]
          ++ post)) labelAt (d + g)
        (exec env (GenerateCode_start m [.load16ZeroExtend
          (.BaseIndex .input_end_pointer .current_position .TimesOne (-2)) .current_character]
          ++ post) pend t)
        = run env (pre ++ (GenerateCode_start m [.load16ZeroExtend
          (.BaseIndex .input_end_pointer .current_position .TimesOne (-2)) .current_character]
          ++ post)) labelAt g (.next (some .start_label_) t')) ∧
      (∀ r, r ≠ .current_character → r ≠ .temp1 → r ≠ .backtrack_stack_pointer →
        t'.reg r = t.reg r) ∧
      (∀ i, i < m.num_saved_registers_ →
        loadBytes t'.mem (t.reg .StackPointer + m.register_offset i) env.arch.ptrBytes
          = t.reg .temp0 % 2 ^ env.arch.ptrBits) ∧
      (∀ x, ¬ (t.reg .StackPointer + m.layout.FrameData_backtrackStackBase ≤ x ∧
          x < t.reg .StackPointer + m.layout.FrameData_backtrackStackBase + env.arch.ptrBytes) →
        (x < t.reg .StackPointer + m.register_offset 0 ∨
          t.reg .StackPointer + m.register_offset m.num_saved_registers_ ≤ x) →
        t'.mem x = t.mem x) := by
  have hP : 0 < env.arch.ptrBytes := by cases env.arch <;> decide
  have haddr : ∀ j, t.reg .StackPointer + m.register_offset j
      = t.reg .StackPointer + m.register_offset 0 + j * env.arch.ptrBytes := by
    intro j
    simp only [Assembler.register_offset, harch]
    omega
  have hoff0 : m.register_offset 0 = m.layout.sizeof_FrameData := by
    simp [Assembler.register_offset]
  have hle : m.register_offset 0 ≤ m.register_offset m.num_saved_registers_ := by
    simp only [Assembler.register_offset]
    omega
  have hSt : GenerateCode_start m [.load16ZeroExtend
        (.BaseIndex .input_end_pointer .current_position .TimesOne (-2)) .current_character]
        ++ post
      = ([.cmpPtrMem (.Address .StackPointer m.layout.FrameData_startIndex) 0,
          .j .NotEqual .load_char_start_regexp,
          .movImmWord '\n'.toNat .current_character,
          .jump .start_regexp,
          .bind .load_char_start_regexp]
         ++ [.load16ZeroExtend (.BaseIndex .input_end_pointer .current_position .TimesOne (-2))
              .current_character]
         ++ [.bind .start_regexp])
        ++ (GenerateCode_init m
          ++ ([.loadPtr (.AbsoluteAddress .regexpStack_base) .backtrack_stack_pointer,
               .storePtr .backtrack_stack_pointer
                 (.Address .StackPointer m.layout.FrameData_backtrackStackBase),
               .jump .start_label_] ++ post)) := by
    rw [GenerateCode_start_init]
    simp only [List.append_assoc]
  obtain ⟨tA, hA, hAmem, hAreg⟩ := exec_GenerateCode_start_head env m t pend hpend
  -- what follows the initialisation
  have hK : ∀ tB, tB.reg .StackPointer = t.reg .StackPointer →
      ∃ tC, exec env
          ([.loadPtr (.AbsoluteAddress .regexpStack_base) .backtrack_stack_pointer,
            .storePtr .backtrack_stack_pointer
              (.Address .StackPointer m.layout.FrameData_backtrackStackBase),
            .jump .start_label_] ++ post) none tB = .next (some .start_label_) tC ∧
        (∀ r, r ≠ .backtrack_stack_pointer → tC.reg r = tB.reg r) ∧
        (∀ x, ¬ (t.reg .StackPointer + m.layout.FrameData_backtrackStackBase ≤ x ∧
            x < t.reg .StackPointer + m.layout.FrameData_backtrackStackBase
              + env.arch.ptrBytes) → tC.mem x = tB.mem x) := by
    intro tB hsp
    obtain ⟨tC, hC, hCreg, hCmem⟩ := exec_GenerateCode_start_tail env m tB
      (by rw [hsp]; omega)
    rw [hsp] at hCmem
    exact ⟨tC, by rw [exec_append, hC, andThen_next, exec_skip env _ _ _ hpost2], hCreg, hCmem⟩
  rw [hSt, exec_append, hA, andThen_next]
  by_cases h8 : m.num_saved_registers_ > 8
  · -- the loop
    have h0 : wrap env.arch.ptrBits ((m.register_offset 0 : Nat) : Int) = m.register_offset 0 := by
      apply wrap_natCast
      have : 2 ^ (env.arch.ptrBits - 1) < 2 ^ env.arch.ptrBits := by cases env.arch <;> decide
      omega
    have hinit : ∀ R : List Instr, GenerateCode_init m ++ R
        = [.movImmWord (m.register_offset 0) .temp1, .bind .init_loop]
          ++ ([.storePtr .temp0 (.BaseIndex .StackPointer .temp1 .TimesOne 0),
               .addPtrImm m.arch.ptrBytes .temp1,
               .cmpPtr .temp1 (m.register_offset m.num_saved_registers_),
               .j .LessThan .init_loop] ++ R) := by
      intro R
      simp [GenerateCode_init, h8, GenerateCode_init_loop]
    have hskip2 : ∀ (X : List Instr) (t1 : State),
        exec env ([.movImmWord (m.register_offset 0) .temp1, .bind .init_loop] ++ X)
          (some .init_loop) t1 = exec env X none t1 := by
      intro X t1
      simp only [List.cons_append, List.nil_append, exec, if_true]
      rfl
    have hent2 : ∀ (X : List Instr) (t1 : State),
        exec env ([.movImmWord (m.register_offset 0) .temp1, .bind .init_loop] ++ X)
          none t1 = exec env X none (t1.setReg .temp1 (m.register_offset 0)) := by
      intro X t1
      simp only [List.cons_append, List.nil_append, exec, step, andThen_next, h0]
      rfl
    have hb : binds .init_loop (pre ++ (([.cmpPtrMem (.Address .StackPointer
          m.layout.FrameData_startIndex) 0,
          .j .NotEqual .load_char_start_regexp,
          .movImmWord '\n'.toNat .current_character,
          .jump .start_regexp,
          .bind .load_char_start_regexp]
         ++ [.load16ZeroExtend (.BaseIndex .input_end_pointer .current_position .TimesOne (-2))
              .current_character]
         ++ [.bind .start_regexp])
        ++ (GenerateCode_init m
          ++ ([.loadPtr (.AbsoluteAddress .regexpStack_base) .backtrack_stack_pointer,
               .storePtr .backtrack_stack_pointer
                 (.Address .StackPointer m.layout.FrameData_backtrackStackBase),
               .jump .start_label_] ++ post)))) = true := by
      simp [binds_append, GenerateCode_init, h8, GenerateCode_init_loop, binds]
    obtain ⟨tB, hrun, hBmem, -, hBreg⟩ := run_init_loop_in env m labelAt _
      (fun p s => exec env
        ([.loadPtr (.AbsoluteAddress .regexpStack_base) .backtrack_stack_pointer,
          .storePtr .backtrack_stack_pointer
            (.Address .StackPointer m.layout.FrameData_backtrackStackBase),
          .jump .start_label_] ++ post) p s)
      (t.reg .StackPointer) (t.reg .temp0) t.mem tA.trace harch hfit hoff hb
      (fun t1 => by
        rw [exec_append, exec_skip env _ _ _ hpre, andThen_next, exec_append,
          exec_skip env _ _ _ (by simp [binds]), andThen_next, hinit, hskip2, exec_append])
      (fun t1 => by
        show exec env (_ ++ post) (some .init_loop) t1 = _
        rw [exec_append, exec_skip env _ _ _ (by simp [binds]), andThen_next,
          exec_skip env _ _ _ hpost1])
      (m.num_saved_registers_ - 1) 0 (tA.setReg .temp1 (m.register_offset 0)) (by omega)
      (by simp [hAreg]) (by simp [hAreg]) (by simp) (by simp [hAmem, fillSlots])
      (by simp [fillTrace])
    obtain ⟨tC, hC, hCreg, hCmem⟩ := hK tB (by
      rw [hBreg _ (by decide)]
      simp [hAreg])
    refine ⟨m.num_saved_registers_ - 1, tC, fun g => ?_, ?_, ?_, ?_⟩
    · have hent : exec env (GenerateCode_init m
            ++ ([.loadPtr (.AbsoluteAddress .regexpStack_base) .backtrack_stack_pointer,
                 .storePtr .backtrack_stack_pointer
                   (.Address .StackPointer m.layout.FrameData_backtrackStackBase),
                 .jump .start_label_] ++ post)) none tA
          = (exec env
              [.storePtr .temp0 (.BaseIndex .StackPointer .temp1 .TimesOne 0),
               .addPtrImm m.arch.ptrBytes .temp1,
               .cmpPtr .temp1 (m.register_offset m.num_saved_registers_),
               .j .LessThan .init_loop] none (tA.setReg .temp1 (m.register_offset 0))).andThen
            (fun p s => exec env
              ([.loadPtr (.AbsoluteAddress .regexpStack_base) .backtrack_stack_pointer,
                .storePtr .backtrack_stack_pointer
                  (.Address .StackPointer m.layout.FrameData_backtrackStackBase),
                .jump .start_label_] ++ post) p s) := by
        rw [hinit, hent2, exec_append]
      rw [hent, hrun g]
      show run env _ labelAt g (exec env (_ ++ post) none tB) = _
      rw [hC]
    · intro r h1 h2 h3
      rw [hCreg r h3, hBreg r h2]
      simp [h2, hAreg r h1]
    · intro i hi
      have hlt := Nat.mul_le_mul_right env.arch.ptrBytes (Nat.succ_le_of_lt hi)
      rw [Nat.succ_mul] at hlt
      rw [loadBytes_congr tC.mem tB.mem _ _ (fun x h1 h2 => hCmem x (by
        simp only [Assembler.register_offset, harch] at h1 h2 ⊢
        omega)), hBmem, haddr i, fillSlots_load _ _ _ _ _ _ hi, pow_ptrBytes]
    · intro x hx1 hx2
      rw [hCmem x hx1, hBmem]
      rw [haddr m.num_saved_registers_] at hx2
      exact fillSlots_outside _ _ _ _ _ _ hx2
  · -- the unrolled stores
    have hU := exec_init_unrolled env m tA harch m.num_saved_registers_
      (by rw [hAreg _ (by decide)]; exact hfit)
    obtain ⟨tC, hC, hCreg, hCmem⟩ := hK { tA with
        mem := fillSlots tA.mem (tA.reg .StackPointer + m.register_offset 0)
          env.arch.ptrBytes (tA.reg .temp0) m.num_saved_registers_,
        trace := fillTrace tA.trace (tA.reg .StackPointer + m.register_offset 0)
          env.arch.ptrBytes m.num_saved_registers_ } (hAreg _ (by decide))
    refine ⟨0, tC, fun g => ?_, ?_, ?_, ?_⟩
    · rw [← hC]
      simp only [GenerateCode_init, h8, if_false, GenerateCode_init_unrolled]
      rw [exec_append, hU, andThen_next, Nat.zero_add]
    · intro r h1 h2 h3
      rw [hCreg r h3]
      exact hAreg r h1
    · intro i hi
      have hlt := Nat.mul_le_mul_right env.arch.ptrBytes (Nat.succ_le_of_lt hi)
      rw [Nat.succ_mul] at hlt
      rw [loadBytes_congr tC.mem _ _ _ (fun x h1 h2 => hCmem x (by
        simp only [Assembler.register_offset, harch] at h1 h2 ⊢
        omega))]
      simp only [hAreg _ (show Reg.StackPointer ≠ .current_character by decide),
        hAreg _ (show Reg.temp0 ≠ .current_character by decide), hAmem]
      rw [haddr i, fillSlots_load _ _ _ _ _ _ hi, pow_ptrBytes]
    · intro x hx1 hx2
      rw [hCmem x hx1]
      simp only [hAreg _ (show Reg.StackPointer ≠ .current_character by decide), hAmem]
      rw [haddr m.num_saved_registers_] at hx2
      exact fillSlots_outside _ _ _ _ _ _ hx2

theorem frameDataFits_spec (L : Layout) (P : Nat) (h : L.frameDataFits P = true) :
    L.FrameData_inputStart + P ≤ L.FrameData_startIndex ∧
    L.FrameData_startIndex + P ≤ L.FrameData_outputRegisters ∧
    L.FrameData_outputRegisters + P ≤ L.FrameData_numOutputRegisters ∧
    L.FrameData_numOutputRegisters + 4 ≤ L.FrameData_inputStartMinusOne ∧
    L.FrameData_inputStartMinusOne + P ≤ L.FrameData_backtrackStackBase ∧
    L.FrameData_backtrackStackBase + P ≤ L.FrameData_successfulCaptures ∧
    L.FrameData_successfulCaptures + 4 ≤ L.sizeof_FrameData := by
  simpa [Layout.frameDataFits, and_assoc] using h

/-- The prologue from "Load string end pointer" on, as to the frame: it falls through,
keeps `StackPointer`, writes only inside `FrameData`, and leaves
`(inputStart - inputEnd) - char_size` in `temp0` and in `FrameData.inputStartMinusOne`. -/
theorem exec_GenerateCode_positions_frame (env : Env) (m : Assembler) (s0 : State)
    (hL : m.layout.frameDataFits env.arch.ptrBytes = true)
    (hfit : s0.reg .StackPointer + m.layout.sizeof_FrameData ≤ 2 ^ env.arch.ptrBits) :
    ∃ s1, exec env (GenerateCode_positions m) none s0 = .next none s1 ∧
      s1.reg .StackPointer = s0.reg .StackPointer ∧
      s1.reg .temp0 =
        wrap env.arch.ptrBits
          ((s0.field env (s0.reg .temp0) m.layout.InputOutputData_inputStart : Int)
            - s0.field env (s0.reg .temp0) m.layout.InputOutputData_inputEnd
            - char_size m.mode_) ∧
      loadBytes s1.mem (s0.reg .StackPointer + m.layout.FrameData_inputStartMinusOne)
        env.arch.ptrBytes = s1.reg .temp0 ∧
      (∀ x, ¬ (s0.reg .StackPointer ≤ x ∧
          x < s0.reg .StackPointer + m.layout.sizeof_FrameData) → s1.mem x = s0.mem x) ∧
      (∀ x, s0.reg .StackPointer + m.layout.FrameData_outputRegisters ≤ x →
        x < s0.reg .StackPointer + m.layout.FrameData_inputStartMinusOne →
        s1.mem x = s0.mem x) := by
  obtain ⟨h1, h2, h3, h4, h5, h6, h7⟩ := frameDataFits_spec _ _ hL
  have hP : 0 < env.arch.ptrBytes := by cases env.arch <;> decide
  have e1 : wrap env.arch.ptrBits ((s0.reg .StackPointer : Int)
      + (m.layout.FrameData_inputStart : Int))
      = s0.reg .StackPointer + m.layout.FrameData_inputStart :=
    wrap_natCast_add _ _ _ (by omega)
  have e2 : wrap env.arch.ptrBits ((s0.reg .StackPointer : Int)
      + (m.layout.FrameData_startIndex : Int))
      = s0.reg .StackPointer + m.layout.FrameData_startIndex :=
    wrap_natCast_add _ _ _ (by omega)
  have e3 : wrap env.arch.ptrBits ((s0.reg .StackPointer : Int)
      + (m.layout.FrameData_inputStartMinusOne : Int))
      = s0.reg .StackPointer + m.layout.FrameData_inputStartMinusOne :=
    wrap_natCast_add _ _ _ (by omega)
  refine ⟨_, by simp [GenerateCode_positions, exec, step]; rfl, ?_, ?_, ?_, ?_, ?_⟩
  · simp
  · simp [ea, State.field, State.loadPtr, ← sub_eq_add_neg, wrap_wrap_sub]
  · simp [ea, e3, loadBytes_storeBytes_same, pow_ptrBytes, wrap_mod]
  · intro x hx
    simp [ea, e1, e2, e3]
    rw [storeBytes_of_not_mem _ _ _ _ _ (by omega), storeBytes_of_not_mem _ _ _ _ _ (by omega),
      storeBytes_of_not_mem _ _ _ _ _ (by omega)]
  · intro x hx1 hx2
    simp [ea, e1, e2, e3]
    rw [storeBytes_of_not_mem _ _ _ _ _ (by omega), storeBytes_of_not_mem _ _ _ _ _ (by omega),
      storeBytes_of_not_mem _ _ _ _ _ (by omega)]

/-- The two forms of the initialisation of the saved registers, on any state: the loop
run with `num_saved_registers_` units of fuel and the unrolled stores both end by falling
through, and so does the form that `GenerateCode` emits.  Both forms leave the same memory
and the same trace: `num_saved_registers_` pointer-sized writes, slot 0 first and then in
ascending address order; every slot holds `temp0`, and memory below slot 0 and from slot
`num_saved_registers_` on is unchanged. -/
theorem exec_GenerateCode_init_forms (env : Env) (m : Assembler) (labelAt : Nat → Option Label)
    (s : State) (harch : m.arch = env.arch) (hn : 0 < m.num_saved_registers_)
    (hfit : s.reg .StackPointer + m.register_offset m.num_saved_registers_
      ≤ 2 ^ env.arch.ptrBits)
    (hoff : m.register_offset m.num_saved_registers_ < 2 ^ (env.arch.ptrBits - 1)) :
    ∃ sL sU,
      run env (GenerateCode_init_loop m) labelAt m.num_saved_registers_
        (exec env (GenerateCode_init_loop m) none s) = .next none sL ∧
      exec env (GenerateCode_init_unrolled m) none s = .next none sU ∧
      run env (GenerateCode_init m) labelAt m.num_saved_registers_
        (exec env (GenerateCode_init m) none s)
        = .next none (if m.num_saved_registers_ > 8 then sL else sU) ∧
      sL.mem = sU.mem ∧ sL.trace = sU.trace ∧
      sU.trace = ((List.range m.num_saved_registers_).map fun i =>
          (⟨true, s.reg .StackPointer + m.register_offset i, env.arch.ptrBytes⟩ : Access)).reverse
        ++ s.trace ∧
      (∀ i, i < m.num_saved_registers_ →
        loadBytes sU.mem (s.reg .StackPointer + m.register_offset i) env.arch.ptrBytes
          = s.reg .temp0 % 2 ^ env.arch.ptrBits) ∧
      (∀ a, (a < s.reg .StackPointer + m.register_offset 0 ∨
          s.reg .StackPointer + m.register_offset m.num_saved_registers_ ≤ a) →
        sU.mem a = s.mem a) := by
  have haddr : ∀ j, s.reg .StackPointer + m.register_offset j
      = s.reg .StackPointer + m.register_offset 0 + j * env.arch.ptrBytes := by
    intro j
    simp only [Assembler.register_offset, harch]
    omega
  have h0 : wrap env.arch.ptrBits ((m.register_offset 0 : Nat) : Int) = m.register_offset 0 := by
    apply wrap_natCast
    have : 2 ^ (env.arch.ptrBits - 1) < 2 ^ env.arch.ptrBits := by cases env.arch <;> decide
    have := Nat.zero_le (m.num_saved_registers_ * m.arch.ptrBytes)
    simp only [Assembler.register_offset] at hoff ⊢
    omega
  obtain ⟨sL, hL, hLm, hLt, -⟩ := run_init_loop env m labelAt (s.reg .StackPointer)
    (s.reg .temp0) s.mem s.trace harch hfit hoff (m.num_saved_registers_ - 1) 0
    (s.setReg .temp1 (m.register_offset 0)) (by omega) (by simp) (by simp) (by simp) rfl rfl
  rw [Nat.sub_add_cancel hn] at hL
  have hLx : run env (GenerateCode_init_loop m) labelAt m.num_saved_registers_
      (exec env (GenerateCode_init_loop m) none s) = .next none sL := by
    rw [← hL]
    simp only [GenerateCode_init_loop, exec, step, Res.andThen, h0]
  have hU := exec_init_unrolled env m s harch m.num_saved_registers_ hfit
  refine ⟨sL, _, hLx, hU, ?_, by rw [hLm], by rw [hLt], ?_, ?_, ?_⟩
  · by_cases h8 : m.num_saved_registers_ > 8
    · simp only [GenerateCode_init, if_pos h8, hLx]
    · simp only [GenerateCode_init, if_neg h8]
      rw [show exec env (GenerateCode_init_unrolled m) none s = _ from hU]
      obtain ⟨k, hk⟩ : ∃ k, m.num_saved_registers_ = k + 1 := ⟨_, (Nat.succ_pred_eq_of_pos hn).symm⟩
      rw [hk]
      rfl
  · show fillTrace _ _ _ _ = _
    rw [fillTrace_eq]
    have hf : (fun i => (⟨true, s.reg .StackPointer + m.register_offset i,
          env.arch.ptrBytes⟩ : Access))
        = fun i => ⟨true, s.reg .StackPointer + m.register_offset 0 + i * env.arch.ptrBytes,
          env.arch.ptrBytes⟩ := by
      funext i
      rw [haddr i]
    rw [hf]
  · intro i hi
    show loadBytes (fillSlots _ _ _ _ _) _ _ = _
    rw [haddr i, fillSlots_load _ _ _ _ _ _ hi, pow_ptrBytes]
  · intro a ha
    show fillSlots _ _ _ _ _ a = _
    rw [haddr m.num_saved_registers_] at ha
    exact fillSlots_outside _ _ _ _ _ _ ha

theorem binds_GenerateCode_zero_length (m : Assembler) (l : Label) :
    binds l (GenerateCode_zero_length m) = false := by
  simp only [GenerateCode_zero_length, binds_append]
  split <;> simp [binds]

theorem step_branch32Imm_cases (env : Env) (c : Cond) (lhs : Reg) (rhs : Int) (l : Label)
    (s : State) :
    ∃ p s', step env (.branch32Imm c lhs rhs l) s = .next p s' ∧ (p = none ∨ p = some l) ∧
      s'.reg = s.reg ∧ s'.mem = s.mem := by
  simp only [step]
  split
  · exact ⟨_, _, rfl, Or.inr rfl, rfl, rfl⟩
  · exact ⟨_, _, rfl, Or.inl rfl, rfl, rfl⟩

/-- The restart code in global mode, on any state: it leaves for `load_char_start_regexp`
or for `exit_label_`, it keeps `StackPointer`, and when it restarts matching `temp0` holds
the content of `FrameData.inputStartMinusOne`. -/
theorem exec_GenerateCode_restart_temp0 (env : Env) (m : Assembler) (s : State)
    (hg : m.global = true) :
    ∃ l sR, exec env (GenerateCode_restart m) none s = .next (some l) sR ∧
      (l = .load_char_start_regexp ∨ l = .exit_label_) ∧
      sR.reg .StackPointer = s.reg .StackPointer ∧
      (l = .load_char_start_regexp →
        sR.reg .temp0
          = sR.cell env (.Address .StackPointer m.layout.FrameData_inputStartMinusOne)) := by
  have hcode : GenerateCode_restart m
      = [.add32ImmMem 1 (.Address .StackPointer m.layout.FrameData_successfulCaptures),
         .load32 (.Address .StackPointer m.layout.FrameData_numOutputRegisters) .temp0,
         .sub32 m.num_saved_registers_ .temp0]
        ++ ([.branch32Imm .LessThan .temp0 m.num_saved_registers_ .exit_label_]
        ++ ([.store32 .temp0 (.Address .StackPointer m.layout.FrameData_numOutputRegisters),
            .add32ImmMem (m.num_saved_registers_ * m.arch.ptrBytes : Nat)
              (.Address .StackPointer m.layout.FrameData_outputRegisters),
            .loadPtr (.Address .StackPointer m.layout.FrameData_inputStartMinusOne) .temp0]
          ++ GenerateCode_zero_length m)) := by
    simp [GenerateCode_restart, hg]
  obtain ⟨s3, h3, hsp3⟩ : ∃ s3, exec env
      [.add32ImmMem 1 (.Address .StackPointer m.layout.FrameData_successfulCaptures),
       .load32 (.Address .StackPointer m.layout.FrameData_numOutputRegisters) .temp0,
       .sub32 m.num_saved_registers_ .temp0] none s = .next none s3 ∧
      s3.reg .StackPointer = s.reg .StackPointer :=
    ⟨_, by simp [exec, step]; rfl, by simp⟩
  obtain ⟨p, sA, hA, hp, hAreg, -⟩ := step_branch32Imm_cases env .LessThan .temp0
    m.num_saved_registers_ .exit_label_ s3
  rw [hcode, exec_append, h3, andThen_next, exec_append]
  simp only [exec, hA, andThen_next]
  rcases hp with hp | hp <;> subst hp
  · obtain ⟨sB, hB, hBsp, hBt⟩ : ∃ sB, exec env
        [.store32 .temp0 (.Address .StackPointer m.layout.FrameData_numOutputRegisters),
         .add32ImmMem (m.num_saved_registers_ * m.arch.ptrBytes : Nat)
           (.Address .StackPointer m.layout.FrameData_outputRegisters),
         .loadPtr (.Address .StackPointer m.layout.FrameData_inputStartMinusOne) .temp0] none sA
          = .next none sB ∧
        sB.reg .StackPointer = sA.reg .StackPointer ∧
        sB.reg .temp0
          = sB.cell env (.Address .StackPointer m.layout.FrameData_inputStartMinusOne) :=
      ⟨_, by simp [exec, step]; rfl, by simp, by simp [State.cell, State.loadPtr, ea]⟩
    obtain ⟨l, s', hZ, hl, hmem, hsp, ht0⟩ := exec_GenerateCode_zero_length env m sB
    refine ⟨l, s', ?_, hl, by rw [hsp, hBsp, hAreg, hsp3], fun _ => ?_⟩
    · rw [exec_append, hB, andThen_next, hZ]
    · rw [ht0, hBt]
      simp only [State.cell, State.loadPtr, ea, hmem, hsp]
  · refine ⟨.exit_label_, sA, ?_, Or.inr rfl, by rw [hAreg, hsp3], fun h => absurd h (by decide)⟩
    rw [exec_skip env _ _ _ (fun h => by
      rw [binds_append, binds_GenerateCode_zero_length] at h
      simp [binds] at h)]

/-- C31: the initialisation of the saved registers, for `num_saved_registers_ > 0`, a
frame that does not wrap around the address space, and offsets that are positive as signed
words.  (1) `GenerateCode_start` contains the initialisation, the loop for more than eight
saved registers and the unrolled stores otherwise.  (2) On any state with this stack
pointer both forms fall through (the loop after `num_saved_registers_` rounds) and leave
the same memory and the same trace: `num_saved_registers_` pointer-sized writes in
ascending address order from slot 0; every slot below `num_saved_registers_` holds
`temp0`, and memory below slot 0 (the `FrameData` fields) and from slot
`num_saved_registers_` on is unchanged.  (3) The prologue from "Load string end pointer"
to the jump to the body reaches `start_label_` with
`(inputStart - inputEnd) - char_size` in `FrameData.inputStartMinusOne` and in every
saved register, and with memory from slot `num_saved_registers_` on unchanged.  (4) In
global mode, when the restart code leaves for `load_char_start_regexp`, the prologue code
entered there reaches `start_label_` with the content of `FrameData.inputStartMinusOne`
in every saved register. -/
theorem GenerateCode_init_spec (env : Env) (m : Assembler) (labelAt : Nat → Option Label)
    (load : List Instr) (s : State)
    (hload : LoadCurrentCharacterUnchecked m (-1) 1 = .ok load)
    (harch : m.arch = env.arch) (hn : 0 < m.num_saved_registers_)
    (hL : m.layout.frameDataFits env.arch.ptrBytes = true)
    (hfit : s.reg .StackPointer + m.register_offset m.num_saved_registers_
      ≤ 2 ^ env.arch.ptrBits)
    (hoff : m.register_offset m.num_saved_registers_ < 2 ^ (env.arch.ptrBits - 1)) :
    (GenerateCode_start m load
      = [.cmpPtrMem (.Address .StackPointer m.layout.FrameData_startIndex) 0,
         .j .NotEqual .load_char_start_regexp,
         .movImmWord '\n'.toNat .current_character,
         .jump .start_regexp,
         .bind .load_char_start_regexp]
        ++ load ++ [.bind .start_regexp]
        ++ (if m.num_saved_registers_ > 8 then GenerateCode_init_loop m
            else GenerateCode_init_unrolled m)
        ++ [.loadPtr (.AbsoluteAddress .regexpStack_base) .backtrack_stack_pointer,
            .storePtr .backtrack_stack_pointer
              (.Address .StackPointer m.layout.FrameData_backtrackStackBase),
            .jump .start_label_]) ∧
    (∀ t : State, t.reg .StackPointer = s.reg .StackPointer →
      ∃ sL sU,
        run env (GenerateCode_init_loop m) labelAt m.num_saved_registers_
          (exec env (GenerateCode_init_loop m) none t) = .next none sL ∧
        exec env (GenerateCode_init_unrolled m) none t = .next none sU ∧
        sL.mem = sU.mem ∧ sL.trace = sU.trace ∧
        sU.trace = ((List.range m.num_saved_registers_).map fun i =>
            (⟨true, s.reg .StackPointer + m.register_offset i, env.arch.ptrBytes⟩ : Access)).reverse
          ++ t.trace ∧
        (∀ i, i < m.num_saved_registers_ →
          loadBytes sU.mem (s.reg .StackPointer + m.register_offset i) env.arch.ptrBytes
            = t.reg .temp0 % 2 ^ env.arch.ptrBits) ∧
        (∀ a, (a < s.reg .StackPointer + m.register_offset 0 ∨
            s.reg .StackPointer + m.register_offset m.num_saved_registers_ ≤ a) →
          sU.mem a = t.mem a)) ∧
    (∃ fuel t',
      run env (GenerateCode_positions m ++ GenerateCode_start m load) labelAt fuel
        (exec env (GenerateCode_positions m ++ GenerateCode_start m load) none s)
        = .next (some .start_label_) t' ∧
      t'.reg .StackPointer = s.reg .StackPointer ∧
      t'.cell env (.Address .StackPointer m.layout.FrameData_inputStartMinusOne)
        = wrap env.arch.ptrBits
          ((s.field env (s.reg .temp0) m.layout.InputOutputData_inputStart : Int)
            - s.field env (s.reg .temp0) m.layout.InputOutputData_inputEnd
            - char_size m.mode_) ∧
      (∀ i, i < m.num_saved_registers_ →
        loadBytes t'.mem (s.reg .StackPointer + m.register_offset i) env.arch.ptrBytes
          = wrap env.arch.ptrBits
            ((s.field env (s.reg .temp0) m.layout.InputOutputData_inputStart : Int)
              - s.field env (s.reg .temp0) m.layout.InputOutputData_inputEnd
              - char_size m.mode_)) ∧
      (∀ x, s.reg .StackPointer + m.register_offset m.num_saved_registers_ ≤ x →
        t'.mem x = s.mem x)) ∧
    (m.global = true → ∀ s0 : State, s0.reg .StackPointer = s.reg .StackPointer →
      ∃ l sR, exec env (GenerateCode_restart m) none s0 = .next (some l) sR ∧
        (l = .load_char_start_regexp →
          ∃ fuel t',
            run env (GenerateCode_positions m ++ GenerateCode_start m load) labelAt fuel
              (exec env (GenerateCode_positions m ++ GenerateCode_start m load)
                (some .load_char_start_regexp) sR)
              = .next (some .start_label_) t' ∧
            t'.reg .StackPointer = s.reg .StackPointer ∧
            t'.cell env (.Address .StackPointer m.layout.FrameData_inputStartMinusOne)
              = sR.cell env (.Address .StackPointer m.layout.FrameData_inputStartMinusOne) ∧
            (∀ i, i < m.num_saved_registers_ →
              loadBytes t'.mem (s.reg .StackPointer + m.register_offset i) env.arch.ptrBytes
                = sR.cell env
                  (.Address .StackPointer m.layout.FrameData_inputStartMinusOne)))) := by
  obtain ⟨h1, h2, h3, h4, h5, h6, h7⟩ := frameDataFits_spec _ _ hL
  have hP : 0 < env.arch.ptrBytes := by cases env.arch <;> decide
  have hoff0 : m.register_offset 0 = m.layout.sizeof_FrameData := by
    simp [Assembler.register_offset]
  have hle : m.register_offset 0 ≤ m.register_offset m.num_saved_registers_ := by
    simp only [Assembler.register_offset]
    omega
  have hld : load = [.load16ZeroExtend
      (.BaseIndex .input_end_pointer .current_position .TimesOne (-2)) .current_character] := by
    unfold LoadCurrentCharacterUnchecked at hload
    split at hload
    · exact absurd hload (by simp)
    · simp at hload
      exact hload.symm
  subst hld
  have hsl : binds .start_label_ (GenerateCode_positions m ++ GenerateCode_start m
      [.load16ZeroExtend (.BaseIndex .input_end_pointer .current_position .TimesOne (-2))
        .current_character]) = true → False := by
    intro h
    rw [binds_append, binds_GenerateCode_positions, Bool.false_or] at h
    rcases binds_GenerateCode_start m _ h with h | h | h <;> exact absurd h (by decide)
  have hism : ∀ (t t' : State), t'.reg .StackPointer = t.reg .StackPointer →
      t.reg .StackPointer = s.reg .StackPointer →
      (∀ x, ¬ (t.reg .StackPointer + m.layout.FrameData_backtrackStackBase ≤ x ∧
          x < t.reg .StackPointer + m.layout.FrameData_backtrackStackBase + env.arch.ptrBytes) →
        (x < t.reg .StackPointer + m.register_offset 0 ∨
          t.reg .StackPointer + m.register_offset m.num_saved_registers_ ≤ x) →
        t'.mem x = t.mem x) →
      t'.cell env (.Address .StackPointer m.layout.FrameData_inputStartMinusOne)
        = t.cell env (.Address .StackPointer m.layout.FrameData_inputStartMinusOne) := by
    intro t t' hsp hsp' hmem
    have e : wrap env.arch.ptrBits ((t.reg .StackPointer : Int)
        + (m.layout.FrameData_inputStartMinusOne : Int))
        = t.reg .StackPointer + m.layout.FrameData_inputStartMinusOne :=
      wrap_natCast_add _ _ _ (by omega)
    simp only [State.cell, State.loadPtr, ea, hsp, e]
    apply loadBytes_congr
    intro x hx1 hx2
    exact hmem x (by omega) (Or.inl (by omega))
  refine ⟨by rw [GenerateCode_start_init]; rfl, ?_, ?_, ?_⟩
  · intro t ht
    obtain ⟨sL, sU, g1, g2, -, g4, g5, g6, g7, g8⟩ := exec_GenerateCode_init_forms env m labelAt t
      harch hn (by rw [ht]; exact hfit) hoff
    rw [ht] at g6 g7 g8
    exact ⟨sL, sU, g1, g2, g4, g5, g6, g7, g8⟩
  · obtain ⟨s1, hx1, hsp1, ht1, hc1, hm1, -⟩ := exec_GenerateCode_positions_frame env m s hL
      (by omega)
    obtain ⟨d, t', hrun, hreg, hslots, hmem⟩ := run_GenerateCode_start env m labelAt
      (GenerateCode_positions m) [] s1 none harch (by rw [hsp1]; exact hfit) hoff (by omega)
      (fun h => by rw [binds_GenerateCode_positions] at h; exact absurd h (by decide))
      (fun h => absurd h (by decide)) (fun h => absurd h (by decide)) (Or.inl rfl)
    simp only [List.append_nil] at hrun
    have hspt : t'.reg .StackPointer = s1.reg .StackPointer :=
      hreg _ (by decide) (by decide) (by decide)
    refine ⟨d + 1, t', ?_, by rw [hspt, hsp1], ?_, ?_, ?_⟩
    · rw [exec_append, hx1, andThen_next, hrun 1, run_next_some, if_neg (by
        intro h
        exact hsl h)]
    · rw [hism s1 t' hspt hsp1 hmem, ← ht1, ← hc1]
      have e : wrap env.arch.ptrBits ((s1.reg .StackPointer : Int)
          + (m.layout.FrameData_inputStartMinusOne : Int))
          = s.reg .StackPointer + m.layout.FrameData_inputStartMinusOne := by
        rw [hsp1]
        exact wrap_natCast_add _ _ _ (by omega)
      simp only [State.cell, State.loadPtr, ea, e]
    · intro i hi
      have := hslots i hi
      rw [hsp1, ht1, wrap_mod] at this
      exact this
    · intro x hx
      rw [hmem x (by rw [hsp1]; omega) (Or.inr (by rw [hsp1]; exact hx)), hm1 x (by omega)]
  · intro hg s0 hs0
    obtain ⟨l, sR, hx, -, hspR, ht0⟩ := exec_GenerateCode_restart_temp0 env m s0 hg
    refine ⟨l, sR, hx, fun hl => ?_⟩
    have hspR' : sR.reg .StackPointer = s.reg .StackPointer := by rw [hspR, hs0]
    obtain ⟨d, t', hrun, hreg, hslots, hmem⟩ := run_GenerateCode_start env m labelAt
      (GenerateCode_positions m) [] sR (some .load_char_start_regexp) harch
      (by rw [hspR']; exact hfit) hoff (by omega)
      (fun h => by rw [binds_GenerateCode_positions] at h; exact absurd h (by decide))
      (fun h => absurd h (by decide)) (fun h => absurd h (by decide)) (Or.inr rfl)
    simp only [List.append_nil] at hrun
    have hspt : t'.reg .StackPointer = sR.reg .StackPointer :=
      hreg _ (by decide) (by decide) (by decide)
    refine ⟨d + 1, t', ?_, by rw [hspt, hspR'], hism sR t' hspt hspR' hmem, ?_⟩
    · rw [exec_append, exec_skip env _ _ _ (fun h => by
        rw [binds_GenerateCode_positions] at h; exact absurd h (by decide)), andThen_next,
        hrun 1, run_next_some, if_neg (by
        intro h
        exact hsl h)]
    · intro i hi
      have := hslots i hi
      rw [hspR', ht0 hl] at this
      rw [this]
      apply Nat.mod_eq_of_lt
      simp only [State.cell, State.loadPtr]
      have := loadBytes_lt sR.mem env.arch.ptrBytes
        (ea env sR (.Address .StackPointer m.layout.FrameData_inputStartMinusOne))
      rw [pow_ptrBytes] at this
      exact this

theorem GenerateCode_init_spec_witness :
    ∃ fuel t',
      run sampleEnv
        (GenerateCode_positions { sampleAsm with num_registers_ := 10, num_saved_registers_ := 10 }
          ++ GenerateCode_start
            { sampleAsm with num_registers_ := 10, num_saved_registers_ := 10 }
            [.load16ZeroExtend (.BaseIndex .input_end_pointer .current_position .TimesOne (-2))
              .current_character])
        (fun _ => none) fuel
        (exec sampleEnv
          (GenerateCode_positions
              { sampleAsm with num_registers_ := 10, num_saved_registers_ := 10 }
            ++ GenerateCode_start
              { sampleAsm with num_registers_ := 10, num_saved_registers_ := 10 }
              [.load16ZeroExtend (.BaseIndex .input_end_pointer .current_position .TimesOne (-2))
                .current_character])
          none samplePrologueState) = .next (some .start_label_) t' ∧
      t'.reg .StackPointer = 0x7000 ∧
      loadBytes t'.mem 0x7038 8 = 2 ^ 64 - 8 ∧ loadBytes t'.mem 0x7080 8 = 2 ^ 64 - 8 ∧
      t'.mem 0x7088 = samplePrologueState.mem 0x7088 := by
  obtain ⟨-, -, ⟨fuel, t', h1, h2, -, h3, h4⟩, -⟩ := GenerateCode_init_spec sampleEnv
    { sampleAsm with num_registers_ := 10, num_saved_registers_ := 10 } (fun _ => none)
    [.load16ZeroExtend (.BaseIndex .input_end_pointer .current_position .TimesOne (-2))
      .current_character] samplePrologueState
    (by simp [LoadCurrentCharacterUnchecked, sampleAsm]) rfl (by decide) (by decide) (by decide)
    (by decide)
  have hV : wrap sampleEnv.arch.ptrBits
      ((samplePrologueState.field sampleEnv (samplePrologueState.reg .temp0)
          sampleLayout.InputOutputData_inputStart : Int)
        - samplePrologueState.field sampleEnv (samplePrologueState.reg .temp0)
          sampleLayout.InputOutputData_inputEnd
        - char_size Mode.JSCHAR) = 2 ^ 64 - 8 := by decide!
  exact ⟨fuel, t', h1, h2, (h3 0 (by decide)).trans hV, (h3 9 (by decide)).trans hV,
    h4 0x7088 (by decide)⟩


end Irregexp
